import Mathlib

/-!
NeoWardrive: access-point database, classifier, analyzers and frame codec.

A shallow embedding of `src/main/main.c`.

Conventions of the embedding:

* a C string (`char ssid[33]`, a string literal) is the list of its bytes before the
  terminating NUL;
* `uint8_t`, `uint16_t`, `uint32_t` values are `Nat`, `int8_t` values are `Int`; a
  wrap-around or a saturation is written out where the source has one; a `float` is the
  rational it denotes, every operation rounding to binary32;
* the global variables `g_aps`, `g_ap_count`, `g_ap_insert_index` are the fields of the
  state record `DB`, passed explicitly;
* the bounded wait on `g_ap_mutex` is the Boolean argument `took` of the functions that
  take the lock: with `took = false` the guarded block is skipped, as in the source.
-/

set_option autoImplicit false

namespace NeoWardrive

/-! ## Configuration and types -/

/-- The capacity of the slot table, `#define MAX_APS 512`. -/
def MAX_APS : Nat := 512

/-- The classification label, `ap_class_t`. -/
inductive ap_class_t where
  | AP_CLASS_UNKNOWN
  | AP_CLASS_HOME
  | AP_CLASS_GUEST
  | AP_CLASS_ENTERPRISE
  | AP_CLASS_HOTSPOT
  | AP_CLASS_IOT
  | AP_CLASS_SUSPECT
  deriving DecidableEq, Repr

open ap_class_t

/-- A hardware address, `uint8_t bssid[6]`. -/
structure Mac where
  b0 : Nat
  b1 : Nat
  b2 : Nat
  b3 : Nat
  b4 : Nat
  b5 : Nat
  deriving DecidableEq, Repr

/-- The six bytes of an address in memory order. -/
def Mac.bytes (m : Mac) : List Nat := [m.b0, m.b1, m.b2, m.b3, m.b4, m.b5]

/-- Modelled from the spec: the values of `wifi_auth_mode_t`, an enumeration of the
radio driver's header that is not part of the sources; the spec names the modes
(open, WEP, WPA, WPA2, WPA3 and the mixed and enterprise variants) and the numbering is
the driver's. -/
def WIFI_AUTH_OPEN : Nat := 0

/-- Modelled from the spec: see `WIFI_AUTH_OPEN`. -/
def WIFI_AUTH_WEP : Nat := 1

/-- Modelled from the spec: see `WIFI_AUTH_OPEN`. -/
def WIFI_AUTH_WPA_PSK : Nat := 2

/-- Modelled from the spec: see `WIFI_AUTH_OPEN`. -/
def WIFI_AUTH_WPA2_PSK : Nat := 3

/-- Modelled from the spec: see `WIFI_AUTH_OPEN`. -/
def WIFI_AUTH_WPA_WPA2_PSK : Nat := 4

/-- Modelled from the spec: see `WIFI_AUTH_OPEN`. -/
def WIFI_AUTH_WPA2_ENTERPRISE : Nat := 5

/-- Modelled from the spec: see `WIFI_AUTH_OPEN`. -/
def WIFI_AUTH_WPA3_PSK : Nat := 6

/-- Modelled from the spec: see `WIFI_AUTH_OPEN`. -/
def WIFI_AUTH_WPA2_WPA3_PSK : Nat := 7

/-- One slot of the table, `ap_info_t`. -/
structure ap_info_t where
  in_use : Bool
  bssid : Mac
  ssid : List Nat
  rssi : Int
  channel : Nat
  authmode : Nat
  first_seen_ms : Nat
  last_seen_ms : Nat
  seen_count : Nat
  rssi_min : Int
  rssi_max : Int
  classification : ap_class_t
  deriving DecidableEq, Repr

/-- A slot after `memset(dst, 0, sizeof(*dst))`. -/
def ap_zero : ap_info_t :=
  { in_use := false, bssid := ⟨0, 0, 0, 0, 0, 0⟩, ssid := [], rssi := 0, channel := 0,
    authmode := 0, first_seen_ms := 0, last_seen_ms := 0, seen_count := 0,
    rssi_min := 0, rssi_max := 0, classification := AP_CLASS_UNKNOWN }

/-- Modelled from the spec: one scan result, `wifi_ap_record_t` of the radio driver's
header, with the fields `update_ap_list_from_scan` reads (hardware address, display-name
bytes, signal strength, channel, auth mode). `ssid` is the raw `uint8_t ssid[33]`. -/
structure wifi_ap_record_t where
  bssid : Mac
  ssid : List Nat
  primary : Nat
  rssi : Int
  authmode : Nat
  deriving DecidableEq, Repr

/-- The globals of the AP database. -/
structure DB where
  g_aps : List ap_info_t
  g_ap_count : Nat
  g_ap_insert_index : Nat
  deriving DecidableEq, Repr

/-- The state at start-up (zero-initialised statics). -/
def g_init : DB :=
  { g_aps := List.replicate MAX_APS ap_zero, g_ap_count := 0, g_ap_insert_index := 0 }

/-! ## Utilities -/

/-- The bytes of a string literal. -/
def cstr (s : String) : List Nat := s.data.map Char.toNat

/-- `mac_equal`: `memcmp(a, b, 6) == 0`. -/
def mac_equal (a b : Mac) : Bool := decide (a = b)

/-- The C library's `tolower` in the "C" locale. -/
def tolower (c : Nat) : Nat := if 65 ≤ c ∧ c ≤ 90 then c + 32 else c

/-- The inner `while` of `contains_icase`: the final value of `i`, the number of leading
positions at which `p` and `needle` agree up to case. -/
def icase_match_len : List Nat → List Nat → Nat
  | c :: p, n :: needle => if tolower c = tolower n then icase_match_len p needle + 1 else 0
  | _, _ => 0

/-- The outer `for` of `contains_icase`, `p` running over the non-empty suffixes. -/
def contains_icase_from (needle : List Nat) : List Nat → Bool
  | [] => false
  | c :: rest =>
    if icase_match_len (c :: rest) needle = needle.length then true
    else contains_icase_from needle rest

/-- `contains_icase`. -/
def contains_icase (haystack needle : List Nat) : Bool :=
  if needle = [] then false else contains_icase_from needle haystack

/-- `classify_ap`. -/
def classify_ap (ap : ap_info_t) : ap_class_t :=
  let s := ap.ssid
  if contains_icase s (cstr "guest") || contains_icase s (cstr "visitor") then
    AP_CLASS_GUEST
  else if contains_icase s (cstr "corp") || contains_icase s (cstr "enterprise") ||
      ap.authmode = WIFI_AUTH_WPA3_PSK then
    AP_CLASS_ENTERPRISE
  else if contains_icase s (cstr "iphone") || contains_icase s (cstr "androidap") ||
      contains_icase s (cstr "galaxy") || contains_icase s (cstr "hotspot") then
    AP_CLASS_HOTSPOT
  else if [cstr "ESP", cstr "IoT", cstr "Cam", cstr "Ring", cstr "Blink", cstr "Wyze"].any
      (fun tok => contains_icase s tok) then
    AP_CLASS_IOT
  else if ap.authmode = WIFI_AUTH_OPEN &&
      (contains_icase s (cstr "free wifi") ||
       contains_icase s (cstr "public") ||
       contains_icase s (cstr "airport") ||
       contains_icase s (cstr "hotel")) &&
      ap.rssi > -40 then
    AP_CLASS_SUSPECT
  else
    AP_CLASS_HOME

/-! ## AP database -/

/-- `find_ap_by_bssid`: the first index below `g_ap_count` whose slot is in use and holds
`bssid`, or `-1`. -/
def find_ap_by_bssid (db : DB) (bssid : Mac) : Int :=
  match (List.range db.g_ap_count).find?
      (fun i => (db.g_aps.getD i ap_zero).in_use && mac_equal (db.g_aps.getD i ap_zero).bssid bssid) with
  | some i => (i : Int)
  | none => -1

/-- `strnlen`. -/
def strnlen (src : List Nat) (max_len : Nat) : Nat :=
  ((src.take max_len).takeWhile (fun c => c != 0)).length

/-- The `for` loop of `sanitize_ssid` over the bytes still to read, `dst` being the bytes
written so far. -/
def sanitize_loop (max_len : Nat) : List Nat → List Nat → List Nat
  | [], dst => dst
  | c :: rest, dst =>
    let dst1 := dst ++ [if 32 ≤ c ∧ c < 127 then c else 63]
    if dst1.length ≥ max_len - 1 then dst1 else sanitize_loop max_len rest dst1

/-- `sanitize_ssid`: the string left in `dst`. -/
def sanitize_ssid (src : List Nat) (max_len : Nat) : List Nat :=
  sanitize_loop max_len (src.take (strnlen src max_len)) []

/-- The body of the `for` loop of `update_ap_list_from_scan`: the merge of one scan
record `r` at time `now`. -/
def upsert_record (now : Nat) (db : DB) (r : wifi_ap_record_t) : DB :=
  let idx := find_ap_by_bssid db r.bssid
  if idx < 0 then
    let idx := db.g_ap_insert_index % MAX_APS
    let insert_index := (db.g_ap_insert_index + 1) % 2 ^ 32
    let dst : ap_info_t :=
      { ap_zero with
        in_use := true, bssid := r.bssid, ssid := sanitize_ssid r.ssid 33,
        rssi := r.rssi, rssi_min := r.rssi, rssi_max := r.rssi,
        channel := r.primary, authmode := r.authmode % 256,
        first_seen_ms := now, last_seen_ms := now, seen_count := 1 }
    let dst := { dst with classification := classify_ap dst }
    let count := if db.g_ap_count < MAX_APS then db.g_ap_count + 1 else db.g_ap_count
    let count := if idx ≥ count then idx + 1 else count
    { g_aps := db.g_aps.set idx dst, g_ap_count := count, g_ap_insert_index := insert_index }
  else
    let idx := idx.toNat
    let dst := db.g_aps.getD idx ap_zero
    let dst := { dst with rssi := r.rssi }
    let dst := if r.rssi < dst.rssi_min then { dst with rssi_min := r.rssi } else dst
    let dst := if r.rssi > dst.rssi_max then { dst with rssi_max := r.rssi } else dst
    let dst := { dst with channel := r.primary, authmode := r.authmode % 256,
                          last_seen_ms := now }
    let dst := if dst.seen_count < 0xFFFF then { dst with seen_count := dst.seen_count + 1 }
               else dst
    let dst := { dst with classification := classify_ap dst }
    let count := if idx ≥ db.g_ap_count then idx + 1 else db.g_ap_count
    { g_aps := db.g_aps.set idx dst, g_ap_count := count,
      g_ap_insert_index := db.g_ap_insert_index }

/-- `update_ap_list_from_scan`: `records` are the scan results read from the driver
(none when the scan found nothing or could not be read), `now` is `now_ms()`. -/
def update_ap_list_from_scan (took : Bool) (now : Nat) (records : List wifi_ap_record_t)
    (db : DB) : DB :=
  if took then records.foldl (upsert_record now) db else db

/-- `handler_api_clear`: the effect on the database. -/
def handler_api_clear (took : Bool) (db : DB) : DB :=
  if took then
    { g_aps := List.replicate MAX_APS ap_zero, g_ap_count := 0, g_ap_insert_index := 0 }
  else db

/-- One operation on the database: a scan merge or a clear. -/
inductive Op where
  | scan (took : Bool) (now : Nat) (records : List wifi_ap_record_t)
  | clear (took : Bool)

/-- The effect of one operation. -/
def Op.apply (db : DB) : Op → DB
  | .scan took now records => update_ap_list_from_scan took now records db
  | .clear took => handler_api_clear took db

/-- The state reached from the start-up state by a sequence of operations. -/
def run (ops : List Op) : DB := ops.foldl Op.apply g_init

/-- The live records: the slots in use. -/
def live (db : DB) : List ap_info_t := db.g_aps.filter (fun ap => ap.in_use)

/-- The slot at index `i`, `g_aps[i]`. -/
def slot (db : DB) (i : Nat) : ap_info_t := db.g_aps.getD i ap_zero

/-- The record written by the miss branch of `upsert_record`. -/
def ap_created (now : Nat) (r : wifi_ap_record_t) : ap_info_t :=
  let dst : ap_info_t :=
    { ap_zero with
      in_use := true, bssid := r.bssid, ssid := sanitize_ssid r.ssid 33,
      rssi := r.rssi, rssi_min := r.rssi, rssi_max := r.rssi,
      channel := r.primary, authmode := r.authmode % 256,
      first_seen_ms := now, last_seen_ms := now, seen_count := 1 }
  { dst with classification := classify_ap dst }

/-- The record written by the hit branch of `upsert_record` over the slot content `dst`. -/
def ap_merged (now : Nat) (r : wifi_ap_record_t) (dst : ap_info_t) : ap_info_t :=
  let dst := { dst with rssi := r.rssi }
  let dst := if r.rssi < dst.rssi_min then { dst with rssi_min := r.rssi } else dst
  let dst := if r.rssi > dst.rssi_max then { dst with rssi_max := r.rssi } else dst
  let dst := { dst with channel := r.primary, authmode := r.authmode % 256,
                        last_seen_ms := now }
  let dst := if dst.seen_count < 0xFFFF then { dst with seen_count := dst.seen_count + 1 }
             else dst
  { dst with classification := classify_ap dst }

/-- A sequence of upserts, each observation with its own timestamp. -/
def upsert_all (obs : List (Nat × wifi_ap_record_t)) (db : DB) : DB :=
  obs.foldl (fun d o => upsert_record o.1 d o.2) db

/-- The facts about one live record that every upsert keeps. -/
def rec_ok (ap : ap_info_t) : Prop :=
  ap.rssi_min ≤ ap.rssi ∧ ap.rssi ≤ ap.rssi_max ∧
  ap.classification = classify_ap ap ∧ ap.ssid.length ≤ 32 ∧
  1 ≤ ap.seen_count ∧ ap.seen_count ≤ 0xFFFF ∧
  ∀ c, c ∈ ap.ssid → 32 ≤ c ∧ c < 127

/-- The invariant of the database: the table has `MAX_APS` slots, the slots below
`g_ap_count` are exactly the slots in use, they hold pairwise different addresses, the
slots from `g_ap_count` on are zero, and the cursor equals the count until the table is
full. -/
structure Inv (db : DB) : Prop where
  len : db.g_aps.length = MAX_APS
  count_le : db.g_ap_count ≤ MAX_APS
  beyond : ∀ i, db.g_ap_count ≤ i → slot db i = ap_zero
  used : ∀ i, i < db.g_ap_count → (slot db i).in_use = true
  cursor : db.g_ap_count < MAX_APS → db.g_ap_insert_index = db.g_ap_count
  uniq : ∀ i j, i < db.g_ap_count → j < db.g_ap_count →
    (slot db i).bssid = (slot db j).bssid → i = j
  ok : ∀ i, i < db.g_ap_count → rec_ok (slot db i)

/-! ## Frame codec -/

/-- `memcpy(&dst[off], src, n)`. -/
def memcpy (dst : List Nat) (off : Nat) (src : List Nat) (n : Nat) : List Nat :=
  (List.range n).foldl (fun d k => d.set (off + k) (src.getD k 0)) dst

/-- `craft_deauth_frame`: the buffer `frame` after the writes. -/
def craft_deauth_frame (frame : List Nat) (target_mac ap_mac : Mac) : List Nat :=
  let frame := frame.set 0 0xC0
  let frame := frame.set 1 0x00
  let frame := frame.set 2 0x00
  let frame := frame.set 3 0x00
  let frame := memcpy frame 4 target_mac.bytes 6
  let frame := memcpy frame 10 ap_mac.bytes 6
  let frame := memcpy frame 16 ap_mac.bytes 6
  let frame := frame.set 22 0x00
  let frame := frame.set 23 0x00
  let frame := frame.set 24 0x07
  frame.set 25 0x00

/-- `craft_disassoc_frame`: the buffer `frame` after the writes. -/
def craft_disassoc_frame (frame : List Nat) (target_mac ap_mac : Mac) : List Nat :=
  let frame := frame.set 0 0xA0
  let frame := frame.set 1 0x00
  let frame := frame.set 2 0x00
  let frame := frame.set 3 0x00
  let frame := memcpy frame 4 target_mac.bytes 6
  let frame := memcpy frame 10 ap_mac.bytes 6
  let frame := memcpy frame 16 ap_mac.bytes 6
  let frame := frame.set 22 0x00
  let frame := frame.set 23 0x00
  let frame := frame.set 24 0x08
  frame.set 25 0x00

/-- `memset(&dst[off], val, n)`. -/
def memset (dst : List Nat) (off : Nat) (val : Nat) (n : Nat) : List Nat :=
  (List.range n).foldl (fun d k => d.set (off + k) val) dst

/-- `craft_probe_request`: the buffer `frame` after the writes and the length stored in
`*len`. `ssid` is the C string, `rnd k` the value of the `k`-th call of `esp_random()`. -/
def craft_probe_request (frame : List Nat) (ssid : List Nat) (rnd : Nat → Nat) :
    List Nat × Nat :=
  let idx := 0
  let frame := frame.set idx 0x40
  let idx := idx + 1
  let frame := frame.set idx 0x00
  let idx := idx + 1
  let frame := frame.set idx 0x00
  let idx := idx + 1
  let frame := frame.set idx 0x00
  let idx := idx + 1
  let frame := memset frame idx 0xFF 6
  let idx := idx + 6
  let frame := frame.set idx 0x02
  let idx := idx + 1
  let frame := (List.range 5).foldl (fun f k => f.set (idx + k) (rnd k % 256)) frame
  let idx := idx + 5
  let frame := memset frame idx 0xFF 6
  let idx := idx + 6
  let frame := frame.set idx 0x00
  let idx := idx + 1
  let frame := frame.set idx 0x00
  let idx := idx + 1
  let frame := frame.set idx 0x00
  let idx := idx + 1
  let ssid_len := ssid.length % 256
  let frame := frame.set idx ssid_len
  let idx := idx + 1
  let frame := memcpy frame idx ssid ssid_len
  let idx := idx + ssid_len
  (frame, idx)

/-- The 26 bytes that precede the SSID in a probe request: frame control `40 00`,
duration, broadcast destination, source `02 r1 r2 r3 r4 r5`, broadcast BSSID, sequence
control, and the SSID element header (tag 0, length). -/
def probe_header (ssid_len : Nat) (rnd : Nat → Nat) : List Nat :=
  [0x40, 0x00, 0x00, 0x00] ++ List.replicate 6 0xFF ++
    [0x02, rnd 0 % 256, rnd 1 % 256, rnd 2 % 256, rnd 3 % 256, rnd 4 % 256] ++
    List.replicate 6 0xFF ++ [0x00, 0x00] ++ [0x00, ssid_len]

/-! ## Channel congestion -/

/-- Rounding of a rational to the nearest integer, ties to even. -/
def round_half_even (x : ℚ) : ℤ :=
  let f := ⌊x⌋
  let d := x - f
  if d < 1 / 2 then f else if d > 1 / 2 then f + 1 else if f % 2 = 0 then f else f + 1

/-- The value of a `float` operation whose exact result is `q`: IEEE 754 binary32,
round to nearest, ties to even (24 significant bits, least exponent -126). A `float` is
embedded as the rational it denotes; overflow to infinity is left out, the values here
stay below 2 ^ 24. -/
def f32_round (q : ℚ) : ℚ :=
  if q = 0 then 0
  else
    let e := max (Int.log 2 |q|) (-126)
    let ulp : ℚ := 2 ^ (e - 23)
    round_half_even (q / ulp) * ulp

/-- The conversion `(float)n` of an `int`. -/
def f32_of_int (n : Int) : ℚ := f32_round n

/-- The `float` product. -/
def f32_mul (a b : ℚ) : ℚ := f32_round (a * b)

/-- The `float` quotient. -/
def f32_div (a b : ℚ) : ℚ := f32_round (a / b)

/-- One result of the congestion analysis, `channel_analysis_t`. -/
structure channel_analysis_t where
  channel : Nat
  ap_count : Nat
  congestion_score : ℚ
  deriving DecidableEq, Repr

/-- The first loop of `get_channel_congestion`: the array `channel_counts[14]`. -/
def channel_counts (db : DB) : List Nat :=
  (List.range db.g_ap_count).foldl
    (fun cc i =>
      if (slot db i).in_use && decide ((slot db i).channel ≥ 1) &&
          decide ((slot db i).channel ≤ 13) then
        cc.set (slot db i).channel (cc.getD (slot db i).channel 0 + 1)
      else cc)
    (List.replicate 14 0)

/-- The second loop of `get_channel_congestion`: `max_aps`, starting from 1. -/
def max_aps_of (cc : List Nat) : Nat :=
  (List.range' 1 13).foldl (fun m ch => if cc.getD ch 0 > m then cc.getD ch 0 else m) 1

/-- `get_channel_congestion`: the `*count` results written to `results`. -/
def get_channel_congestion (took : Bool) (db : DB) : List channel_analysis_t :=
  if took then
    let cc := channel_counts db
    let max_aps := max_aps_of cc
    (List.range' 1 13).map (fun ch =>
      { channel := ch,
        ap_count := cc.getD ch 0,
        congestion_score :=
          if max_aps > 0 then
            f32_div (f32_mul (f32_of_int (cc.getD ch 0)) 100) (f32_of_int max_aps)
          else 0 })
  else []

/-- The test of the counting loop of `get_channel_congestion` on slot `i`, restricted to
the channel `ch`. -/
def counted_on (db : DB) (ch i : Nat) : Bool :=
  (slot db i).in_use && decide ((slot db i).channel ≥ 1) &&
    decide ((slot db i).channel ≤ 13) && decide ((slot db i).channel = ch)

/-- The number of live records on channel `ch`, `count(ch)` of the spec. -/
def spec_count (db : DB) (ch : Nat) : Nat :=
  ((live db).filter (fun ap => decide (ap.channel = ch))).length

/-- The largest `count(ch)` over the channels 1..13. -/
def spec_max (db : DB) : Nat :=
  ((List.range' 1 13).map (spec_count db)).foldl max 0

/-! ## Rogue access-point detection -/

/-- The C library's `strcasecmp`: the difference of the first pair of lower-cased bytes
that differ, the end of a string counting as the byte 0. -/
def strcasecmp : List Nat → List Nat → Int
  | [], [] => 0
  | [], b :: _ => 0 - (tolower b : Int)
  | a :: _, [] => (tolower a : Int)
  | a :: as, b :: bs =>
    if tolower a = tolower b then strcasecmp as bs else (tolower a : Int) - (tolower b : Int)

/-- The table `common_names` of `detect_rogue_aps`. -/
def common_names : List (List Nat) :=
  [cstr "Free WiFi", cstr "Public WiFi", cstr "Guest", cstr "Airport WiFi", cstr "Hotel WiFi"]

/-- The reason text of the duplicate-SSID check. -/
def REASON_DUPLICATE : String := "Duplicate SSID - Possible Evil Twin"

/-- The reason text of the generic-name check. -/
def REASON_GENERIC : String := "Open network with generic name"

/-- The number of characters `printf` writes for `%u`. -/
def dec_len (n : Nat) : Nat := (Nat.toDigits 10 n).length

/-- The number of characters `printf` writes for `%d`. -/
def dec_len_int (x : Int) : Nat :=
  if x < 0 then 1 + dec_len x.natAbs else dec_len x.natAbs

/-- One object of the rogue report: the values printed for `ssid`, `bssid`, `reason`,
`rssi` and `channel`. -/
structure rogue_entry where
  ssid : List Nat
  bssid : Mac
  reason : String
  rssi : Int
  channel : Nat
  deriving DecidableEq, Repr

/-- The name printed for a record: `ap->ssid[0] ? ap->ssid : "<hidden>"`. -/
def ssid_display (ap : ap_info_t) : List Nat :=
  if ap.ssid.headD 0 ≠ 0 then ap.ssid else cstr "<hidden>"

/-- The object `detect_rogue_aps` prints for the record `ap`. -/
def rogue_entry_of (ap : ap_info_t) (reason : String) : rogue_entry :=
  { ssid := ssid_display ap, bssid := ap.bssid, reason := reason, rssi := ap.rssi,
    channel := ap.channel }

/-- The value `snprintf` returns for one object of the rogue report: the 53 characters
of the format outside the conversions, the name, the 17 characters of `mac_to_str`, the
reason, and the decimal forms of `rssi` and `channel`. -/
def rogue_entry_len (e : rogue_entry) : Nat :=
  53 + e.ssid.length + 17 + e.reason.length + dec_len_int e.rssi + dec_len e.channel

/-- The two checks of `detect_rogue_aps` on slot `i`: the final values of
`is_suspicious` and `reason`. Both checks run, the second overwrites `reason`. -/
def rogue_check (db : DB) (i : Nat) : Bool × String :=
  let ap := slot db i
  let st : Bool × String := (false, "")
  let st :=
    if (List.range' (i + 1) (db.g_ap_count - (i + 1))).any (fun j =>
        (slot db j).in_use && decide (ap.ssid.length > 0) &&
        decide (ap.ssid = (slot db j).ssid) && !mac_equal ap.bssid (slot db j).bssid)
    then (true, REASON_DUPLICATE) else st
  if ap.authmode = WIFI_AUTH_OPEN ∧ ap.ssid.length > 0 then
    if common_names.any (fun nm => decide (strcasecmp ap.ssid nm = 0)) then
      (true, REASON_GENERIC)
    else st
  else st

/-- The variables of the output loop of `detect_rogue_aps`: the write offset `off`, the
flag `first`, and the objects printed so far. -/
structure rogue_state where
  off : Nat
  first : Bool
  out : List rogue_entry
  deriving DecidableEq, Repr

/-- The bound `len - 256` of `detect_rogue_aps`, computed in `size_t` (32 bits): for a
`len` below 256 the subtraction wraps around. -/
def rogue_limit (len : Nat) : Nat := (len + 2 ^ 32 - 256) % 2 ^ 32

/-- One iteration of the outer loop of `detect_rogue_aps`, for slot `i`. -/
def rogue_step (db : DB) (len : Nat) (st : rogue_state) (i : Nat) : rogue_state :=
  let ap := slot db i
  if !ap.in_use then st
  else
    let chk := rogue_check db i
    if chk.1 && decide (st.off < rogue_limit len) then
      let off := if !st.first then st.off + 1 else st.off
      let e := rogue_entry_of ap chk.2
      { off := off + rogue_entry_len e, first := false, out := st.out ++ [e] }
    else st

/-- The outer loop of `detect_rogue_aps` over the slots `idxs`. -/
def rogue_loop (db : DB) (len : Nat) (idxs : List Nat) (st : rogue_state) : rogue_state :=
  idxs.foldl (rogue_step db len) st

/-- `detect_rogue_aps(buf, len)`: the objects written between the brackets and the final
offset. -/
def detect_rogue_aps (took : Bool) (db : DB) (len : Nat) : rogue_state :=
  let st : rogue_state := { off := 1, first := true, out := [] }
  let st := if took then rogue_loop db len (List.range db.g_ap_count) st else st
  { st with off := st.off + 1 }

/-- The write offset of `detect_rogue_aps` when its loop reaches slot `i`. -/
def rogue_off_before (db : DB) (len : Nat) (i : Nat) : Nat :=
  (rogue_loop db len (List.range i) { off := 1, first := true, out := [] }).off

/-! ## Capture pipeline -/

/-- One slot of the deauthentication log, `deauth_event_t`. -/
structure deauth_event_t where
  count : Nat
  last_time_ms : Nat
  src : Mac
  dst : Mac
  deriving DecidableEq, Repr

/-- A slot of the log after `memset(ev, 0, sizeof(*ev))`. -/
def deauth_zero : deauth_event_t :=
  { count := 0, last_time_ms := 0, src := ⟨0, 0, 0, 0, 0, 0⟩, dst := ⟨0, 0, 0, 0, 0, 0⟩ }

/-- The process-wide counters, `packet_stats_t`. -/
structure packet_stats_t where
  packets_sent : Nat
  handshake_listening : Bool
  handshake_captured : Nat
  deriving DecidableEq, Repr

/-- The globals of the capture pipeline: `g_deauth_log`, `g_deauth_head` and
`g_packet_stats`. -/
structure Capture where
  g_deauth_log : List deauth_event_t
  g_deauth_head : Int
  g_packet_stats : packet_stats_t
  deriving DecidableEq, Repr

/-- The capture globals at start-up (zero-initialised statics). -/
def capture_init : Capture :=
  { g_deauth_log := List.replicate 32 deauth_zero, g_deauth_head := 0,
    g_packet_stats := { packets_sent := 0, handshake_listening := false,
                        handshake_captured := 0 } }

/-- The value of an `int` after an arithmetic step, in two's complement on 32 bits. -/
def wrap_int (x : Int) : Int := (x + 2 ^ 31) % 2 ^ 32 - 2 ^ 31

/-- The slot `g_deauth_log[i]`. -/
def deauth_slot (st : Capture) (i : Nat) : deauth_event_t := st.g_deauth_log.getD i deauth_zero

/-- The test of the search loop of `log_deauth_event` on slot `i`. -/
def deauth_tracks (st : Capture) (src dst : Mac) (i : Nat) : Bool :=
  decide ((deauth_slot st i).count ≠ 0) && mac_equal (deauth_slot st i).src src &&
    mac_equal (deauth_slot st i).dst dst

/-- `log_deauth_event`, with `now` the value of `now_ms()`. The index `g_deauth_head & 31`
is the remainder of the head modulo 32. -/
def log_deauth_event (now : Nat) (st : Capture) (src dst : Mac) : Capture :=
  match (List.range 32).find? (deauth_tracks st src dst) with
  | some i =>
    let ev := deauth_slot st i
    let ev := { ev with count := (ev.count + 1) % 2 ^ 32 }
    let ev := { ev with last_time_ms := now }
    { st with g_deauth_log := st.g_deauth_log.set i ev }
  | none =>
    let idx := (st.g_deauth_head % 32).toNat
    let head := wrap_int (st.g_deauth_head + 1)
    let ev : deauth_event_t :=
      { deauth_zero with src := src, dst := dst, count := 1, last_time_ms := now }
    { st with g_deauth_head := head, g_deauth_log := st.g_deauth_log.set idx ev }

/-- Modelled from the spec: a captured frame, `wifi_promiscuous_pkt_t` of the radio
driver's header, with the fields `wifi_sniffer_cb` reads: the length `rx_ctrl.sig_len`
and the raw bytes `payload`. -/
structure wifi_promiscuous_pkt_t where
  sig_len : Nat
  payload : List Nat
  deriving DecidableEq, Repr

/-- Modelled from the spec: the tag of a management frame in
`wifi_promiscuous_pkt_type_t` of the radio driver's header. -/
def WIFI_PKT_MGMT : Nat := 0

/-- Modelled from the spec: the tag of a data frame in `wifi_promiscuous_pkt_type_t`. -/
def WIFI_PKT_DATA : Nat := 2

/-- The six bytes at `&hdr[off]` read as an address. -/
def mac_at (hdr : List Nat) (off : Nat) : Mac :=
  ⟨hdr.getD off 0, hdr.getD (off + 1) 0, hdr.getD (off + 2) 0, hdr.getD (off + 3) 0,
   hdr.getD (off + 4) 0, hdr.getD (off + 5) 0⟩

/-- The header length `hdr_len` that `wifi_sniffer_cb` computes from `fc = hdr[0]`. -/
def sniffer_hdr_len (fc : Nat) : Nat :=
  let to_ds := decide (fc &&& 0x01 ≠ 0)
  let from_ds := decide (fc &&& 0x02 ≠ 0)
  let qos := decide (fc &&& 0x80 ≠ 0)
  let hdr_len := 24
  let hdr_len := if to_ds && from_ds then 30 else hdr_len
  if qos then hdr_len + 2 else hdr_len

/-- The test of `wifi_sniffer_cb` that guards `handshake_captured++`: the length check
and the comparison of the LLC/SNAP bytes. -/
def eapol_test (pkt : wifi_promiscuous_pkt_t) : Bool :=
  let hdr := pkt.payload
  let fc := hdr.getD 0 0
  let len := pkt.sig_len
  let hdr_len := sniffer_hdr_len fc
  if len > hdr_len + 8 then
    decide (hdr.getD (hdr_len + 0) 0 = 0xAA) && decide (hdr.getD (hdr_len + 1) 0 = 0xAA) &&
    decide (hdr.getD (hdr_len + 2) 0 = 0x03) && decide (hdr.getD (hdr_len + 6) 0 = 0x88) &&
    decide (hdr.getD (hdr_len + 7) 0 = 0x8E)
  else false

/-- `wifi_sniffer_cb`, with `now` the value `now_ms()` returns inside
`log_deauth_event`. -/
def wifi_sniffer_cb (now : Nat) (st : Capture) (pkt : wifi_promiscuous_pkt_t) (type : Nat) :
    Capture :=
  let hdr := pkt.payload
  let fc := hdr.getD 0 0
  let frame_type := (fc &&& 0x0C) >>> 2
  let st :=
    if type = WIFI_PKT_MGMT ∧ ((fc &&& 0xF0) = 0xC0 ∨ (fc &&& 0xF0) = 0xA0) then
      log_deauth_event now st (mac_at hdr 10) (mac_at hdr 4)
    else st
  if st.g_packet_stats.handshake_listening = true ∧ frame_type = 2 then
    if eapol_test pkt then
      { st with g_packet_stats :=
          { st.g_packet_stats with
            handshake_captured := (st.g_packet_stats.handshake_captured + 1) % 2 ^ 32 } }
    else st
  else st

/-- The log after a sequence of calls of `log_deauth_event` from start-up, each with its
time, source and destination. -/
def deauth_run (evs : List (Nat × Mac × Mac)) : Capture :=
  evs.foldl (fun st e => log_deauth_event e.1 st e.2.1 e.2.2) capture_init

/-- The slot written by the hit branch of `log_deauth_event`. -/
def deauth_bump (now : Nat) (ev : deauth_event_t) : deauth_event_t :=
  { count := (ev.count + 1) % 2 ^ 32, last_time_ms := now, src := ev.src, dst := ev.dst }

/-- `handler_api_handshake_start`: the effect on the capture globals. -/
def handler_api_handshake_start (st : Capture) : Capture :=
  { st with g_packet_stats :=
      { st.g_packet_stats with handshake_listening := true, handshake_captured := 0 } }

/-- A frame with frame-control octets `fc0 fc1`, a header of `hdr` bytes, the LLC/SNAP
bytes `AA AA 03 00 00 00` with EtherType `et0 et1`, and `tail` further bytes. -/
def eapol_frame (fc0 fc1 hdr et0 et1 tail : Nat) : List Nat :=
  [fc0, fc1] ++ List.replicate (hdr - 2) 0x11 ++ [0xAA, 0xAA, 0x03, 0x00, 0x00, 0x00, et0, et1] ++
    List.replicate tail 0x22

/-- A data frame (ToDS = 1, FromDS = 0, no QoS) of 33 bytes with EAPOL at offset 24. -/
def c13_pkt : wifi_promiscuous_pkt_t :=
  { sig_len := 33, payload := eapol_frame 0x08 0x01 24 0x88 0x8E 1 }

/-- The same frame cut to 32 bytes: it ends with the EtherType. -/
def c13_pkt32 : wifi_promiscuous_pkt_t :=
  { sig_len := 32, payload := eapol_frame 0x08 0x01 24 0x88 0x8E 0 }

/-- A four-address data frame (ToDS = 1 and FromDS = 1 in the second frame-control
octet) of 64 bytes with a 30-byte header and EAPOL at offset 30. -/
def c14_pkt : wifi_promiscuous_pkt_t :=
  { sig_len := 64, payload := eapol_frame 0x08 0x03 30 0x88 0x8E 26 }

/-- The log after 4294967295 deauthentication frames from `02:00:00:00:00:01` to
`02:00:00:00:00:02`. -/
def c20_log : Capture :=
  deauth_run (List.replicate 4294967295 (0, ⟨2, 0, 0, 0, 0, 1⟩, ⟨2, 0, 0, 0, 0, 2⟩))

/-- The invariant of the deauthentication log: 32 slots, and no two live slots (count not
zero) tracking the same ordered pair. -/
structure LogInv (st : Capture) : Prop where
  len : st.g_deauth_log.length = 32
  uniq : ∀ i j, i < 32 → j < 32 →
    (deauth_slot st i).count ≠ 0 → (deauth_slot st j).count ≠ 0 →
    (deauth_slot st i).src = (deauth_slot st j).src →
    (deauth_slot st i).dst = (deauth_slot st j).dst → i = j

/-! ## Frame injection -/

/-- Modelled from the spec: the radio driver's result codes, modes, interfaces and
secondary-channel values are constants of the driver's headers, which are not part of the
sources; the spec names them (success, interface mismatch, AP-only and AP+STA mode, the
station and access-point interfaces) and the numbering is the driver's. -/
def ESP_OK : Int := 0

/-- Modelled from the spec: see `ESP_OK`. -/
def ESP_ERR_WIFI_IF : Int := 0x3004

/-- Modelled from the spec: see `ESP_OK`. -/
def WIFI_MODE_AP : Nat := 2

/-- Modelled from the spec: see `ESP_OK`. -/
def WIFI_MODE_APSTA : Nat := 3

/-- Modelled from the spec: see `ESP_OK`. -/
def WIFI_IF_STA : Nat := 0

/-- Modelled from the spec: see `ESP_OK`. -/
def WIFI_IF_AP : Nat := 1

/-- Modelled from the spec: see `ESP_OK`. -/
def WIFI_SECOND_CHAN_NONE : Nat := 0

/-- `strstr(s, needle)`: the rest of `s` from the first occurrence of `needle`, or `none`
for `NULL`. -/
def strstr : List Nat → List Nat → Option (List Nat)
  | [], needle => if needle = [] then some [] else none
  | c :: s, needle => if needle.isPrefixOf (c :: s) then some (c :: s) else strstr s needle

/-- `strchr(s, c)` for a character `c` other than NUL: the rest of `s` from the first `c`,
or `none` for `NULL`. -/
def strchr : List Nat → Nat → Option (List Nat)
  | [], _ => none
  | x :: s, c => if x = c then some (x :: s) else strchr s c

/-- `isspace` in the C locale. -/
def isspace (c : Nat) : Bool := c = 32 || (9 ≤ c && c ≤ 13)

/-- The decimal digits at the head of `s`, accumulated onto `acc`. -/
def atoi_digits (acc : Nat) : List Nat → Nat
  | [] => acc
  | c :: s => if 48 ≤ c ∧ c ≤ 57 then atoi_digits (acc * 10 + (c - 48)) s else acc

/-- `atoi(s)`, which is `(int) strtol(s, NULL, 10)`: leading white space, an optional
sign, decimal digits; a value outside the 32-bit range is clamped as `strtol` does. -/
def atoi (s : List Nat) : Int :=
  let clamp := fun (x : Int) => max (-(2 ^ 31)) (min x (2 ^ 31 - 1))
  match s.dropWhile isspace with
  | 45 :: t => clamp (-(atoi_digits 0 t : Int))
  | 43 :: t => clamp (atoi_digits 0 t)
  | t => clamp (atoi_digits 0 t)

/-- The value of a hexadecimal digit. -/
def hex_val (c : Nat) : Option Nat :=
  if 48 ≤ c ∧ c ≤ 57 then some (c - 48)
  else if 97 ≤ c ∧ c ≤ 102 then some (c - 87)
  else if 65 ≤ c ∧ c ≤ 70 then some (c - 55)
  else none

/-- The hexadecimal digits at the head of `s`, accumulated onto `acc`, and the rest. -/
def hex_digits (acc : Nat) : List Nat → Nat × List Nat
  | [] => (acc, [])
  | c :: s =>
    match hex_val c with
    | some v => hex_digits (acc * 16 + v) s
    | none => (acc, c :: s)

/-- One `%hhx` conversion of `sscanf`: leading white space, an optional sign, an optional
`0x` before a digit, then at least one hexadecimal digit; the value is stored in an
`unsigned char`, so modulo 256. Returns the stored byte and the rest of the input, or
`none` on a matching failure. -/
def scan_hhx (s : List Nat) : Option (Nat × List Nat) :=
  let s := s.dropWhile isspace
  let neg := s.head? = some 45
  let s := if s.head? = some 45 ∨ s.head? = some 43 then s.tail else s
  let s :=
    match s with
    | 48 :: x :: h :: t => if (x = 120 ∨ x = 88) ∧ (hex_val h).isSome then h :: t else s
    | _ => s
  match s with
  | [] => none
  | c :: _ =>
    if (hex_val c).isSome then
      let r := hex_digits 0 s
      some (if neg then (256 - r.1 % 256) % 256 else r.1 % 256, r.2)
    else none

/-- The conversions of `sscanf(str, "%hhx:%hhx:%hhx:%hhx:%hhx:%hhx", &mac[0], ...)`:
`n` fields are left, `k` is the index of the next byte. The scan stops at the first
field or colon that does not match; the bytes not reached keep their old value. -/
def sscanf_mac : Nat → List Nat → List Nat → Nat → List Nat
  | 0, _, mac, _ => mac
  | n + 1, s, mac, k =>
    match scan_hhx s with
    | none => mac
    | some (v, rest) =>
      match rest with
      | 58 :: rest => sscanf_mac n rest (mac.set k v) (k + 1)
      | _ => mac.set k v

/-- The address held in six bytes of memory. -/
def Mac.ofBytes (b : List Nat) : Mac :=
  ⟨b.getD 0 0, b.getD 1 0, b.getD 2 0, b.getD 3 0, b.getD 4 0, b.getD 5 0⟩

/-- `str_to_mac(str, mac)`: `mac` on entry is the content of the caller's buffer. The
result of `sscanf` is not looked at. -/
def str_to_mac (str : List Nat) (mac : Mac) : Mac :=
  Mac.ofBytes (sscanf_mac 6 str mac.bytes 0)

/-- The values `handler_api_packets_send` reads from the request body. -/
structure send_request where
  bssid : List Nat
  packet_type : List Nat
  count : Int
  interval : Int
  deriving DecidableEq, Repr

/-- The text of a value: `p` points after the colon; spaces and double quotes are
skipped, `strncpy` takes at most `n` bytes, and the text is cut at the first double
quote. -/
def json_text (p : List Nat) (n : Nat) : List Nat :=
  ((p.dropWhile (fun c => c = 32 || c = 34)).take n).takeWhile (fun c => c ≠ 34)

/-- The first part of `handler_api_packets_send`: the request body is received into
`buf[512]` (at most 511 bytes, read as a C string) and the keys are located with
`strstr` and `strchr`. `none` is the answer 500 (nothing received, a key missing, or no
colon after a key). -/
def packets_send_parse (body : List Nat) : Option send_request :=
  let len := (body.take 511).length
  if len = 0 then none
  else
    let buf := (body.take 511).takeWhile (fun c => c ≠ 0)
    let bssid_str := strstr buf (cstr "\"bssid\"")
    let type_str := strstr buf (cstr "\"type\"")
    let count_str := strstr buf (cstr "\"count\"")
    let interval_str := strstr buf (cstr "\"interval\"")
    match bssid_str, type_str, count_str with
    | some bssid_str, some type_str, some count_str =>
      match strchr bssid_str 58 with
      | none => none
      | some bssid_val =>
        let bssid := json_text bssid_val.tail 17
        match strchr type_str 58 with
        | none => none
        | some type_val =>
          let packet_type := json_text type_val.tail 15
          match strchr count_str 58 with
          | none => none
          | some count_val =>
            let count := atoi count_val.tail
            let interval :=
              match interval_str with
              | some interval_str =>
                match strchr interval_str 58 with
                | some interval_val => atoi interval_val.tail
                | none => 100
              | none => 100
            some { bssid := bssid, packet_type := packet_type, count := count,
                   interval := interval }
    | _, _, _ => none

/-- Modelled from the spec: the state of the radio that the injection path reads and
writes through the driver (which is not part of the sources): the primary channel, the
secondary channel and the mode. -/
structure Radio where
  primary : Nat
  second : Nat
  mode : Nat
  deriving DecidableEq, Repr

/-- A call of the handler into the driver or the scheduler, in the order issued. -/
inductive radio_call where
  | set_channel (primary second : Nat)
  | set_mode (mode : Nat)
  | tx (ifx : Nat) (frame : List Nat)
  | delay (ms : Int)
  deriving DecidableEq, Repr

/-- The results of the driver calls of one run: of the channel switch, of the mode change
to AP+STA, of the transmission of iteration `i` on the station and on the access-point
interface, of the two restoring calls, and the values of `esp_random()` in iteration
`i`. -/
structure Driver where
  ch_err : Int
  mode_err : Int
  tx_sta : Nat → Int
  tx_ap : Nat → Int
  restore_mode_err : Int
  restore_ch_err : Int
  rnd : Nat → Nat → Nat

/-- Modelled from the spec: `esp_wifi_set_channel` of the radio driver, which is not part
of the sources; a call that returns `ESP_OK` puts the radio on the given primary and
secondary channel, a failed call leaves it as it was. -/
def esp_wifi_set_channel (err : Int) (r : Radio) (primary second : Nat) : Radio :=
  if err = ESP_OK then { r with primary := primary, second := second } else r

/-- Modelled from the spec: `esp_wifi_set_mode` of the radio driver, which is not part of
the sources; a call that returns `ESP_OK` puts the radio in the given mode, a failed call
leaves it as it was. -/
def esp_wifi_set_mode (err : Int) (r : Radio) (mode : Nat) : Radio :=
  if err = ESP_OK then { r with mode := mode } else r

/-- The locals and globals the injection loop updates, with the calls issued so far. -/
structure send_state where
  frame : List Nat
  frame_len : Nat
  sent : Int
  failed : Int
  last_err : Int
  packets_sent : Nat
  calls : List radio_call
  deriving DecidableEq, Repr

/-- The body of the injection loop of `handler_api_packets_send` for the index `i`. -/
def send_iter (drv : Driver) (packet_type : List Nat) (target_mac : Mac)
    (count interval : Int) (i : Nat) (s : send_state) : send_state :=
  let broadcast : Mac := ⟨0xFF, 0xFF, 0xFF, 0xFF, 0xFF, 0xFF⟩
  let fr : List Nat × Nat :=
    if packet_type = cstr "deauth" then
      (craft_deauth_frame s.frame broadcast target_mac, 26)
    else if packet_type = cstr "disassoc" then
      (craft_disassoc_frame s.frame broadcast target_mac, 26)
    else if packet_type = cstr "probe" then
      craft_probe_request s.frame (cstr "test_probe") (drv.rnd i)
    else (s.frame, s.frame_len)
  let s := { s with frame := fr.1, frame_len := fr.2 }
  let err := drv.tx_sta i
  let s := { s with calls := s.calls ++ [radio_call.tx WIFI_IF_STA (s.frame.take s.frame_len)] }
  let r : Int × send_state :=
    if err = ESP_ERR_WIFI_IF then
      (drv.tx_ap i,
       { s with calls := s.calls ++ [radio_call.tx WIFI_IF_AP (s.frame.take s.frame_len)] })
    else (err, s)
  let err := r.1
  let s := r.2
  let s :=
    if err = ESP_OK then
      { s with sent := s.sent + 1, packets_sent := (s.packets_sent + 1) % 2 ^ 32 }
    else { s with failed := s.failed + 1, last_err := err }
  if (i : Int) < count - 1 then { s with calls := s.calls ++ [radio_call.delay interval] }
  else s

/-- The injection loop `for (int i = 0; i < count && i < 100; i++)`, from index `i` on;
`fuel` bounds the number of iterations (100 suffice, see `send_loop_eq`). -/
def send_loop (drv : Driver) (packet_type : List Nat) (target_mac : Mac)
    (count interval : Int) : Nat → Nat → send_state → send_state
  | 0, _, s => s
  | fuel + 1, i, s =>
    if (i : Int) < count ∧ i < 100 then
      send_loop drv packet_type target_mac count interval fuel (i + 1)
        (send_iter drv packet_type target_mac count interval i s)
    else s

/-- The answer of `handler_api_packets_send`: status 500, or the JSON text with status
`ok` or `partial` (the error is the code passed to `esp_err_to_name`). -/
inductive send_response where
  | fail500
  | ok (sent : Int)
  | part (sent failed : Int) (error : Int)
  deriving DecidableEq, Repr

/-- What a call of `handler_api_packets_send` leaves behind: the radio, the calls issued,
the counters of the loop, the global statistics and the answer. -/
structure send_result where
  radio : Radio
  calls : List radio_call
  sent : Int
  failed : Int
  last_err : Int
  stats : packet_stats_t
  response : send_response
  deriving DecidableEq, Repr

/-- The channel lookup of `handler_api_packets_send`: the channel of the first slot below
`g_ap_count` in use with the address `target_mac`, 0 if there is none or the mutex was
not taken within 250 ms (`took = false`). -/
def target_channel_of (took : Bool) (db : DB) (target_mac : Mac) : Nat :=
  if took then
    match (List.range db.g_ap_count).find?
        (fun i => (slot db i).in_use && mac_equal (slot db i).bssid target_mac) with
    | some i => (slot db i).channel
    | none => 0
  else 0

/-- The second part of `handler_api_packets_send`, after the request is read: address
conversion, channel lookup and switch, mode change, the injection loop, the restoring
calls and the answer. `stack_mac` and `frame0` are the contents of the local buffers
`target_mac[6]` and `frame[128]` on entry (they are not initialised). -/
def packets_send_run (req : send_request) (stack_mac : Mac) (frame0 : List Nat)
    (took : Bool) (db : DB) (drv : Driver) (radio : Radio) (stats : packet_stats_t) :
    send_result :=
  let target_mac := str_to_mac req.bssid stack_mac
  let original_primary := radio.primary
  let original_second := radio.second
  let target_channel := target_channel_of took db target_mac
  let switched : Bool :=
    0 < target_channel && target_channel ≤ 14 && req.packet_type ≠ cstr "probe"
  let radio :=
    if switched then esp_wifi_set_channel drv.ch_err radio target_channel WIFI_SECOND_CHAN_NONE
    else radio
  let calls :=
    if switched then [radio_call.set_channel target_channel WIFI_SECOND_CHAN_NONE] else []
  let old_mode := radio.mode
  let changed_mode : Bool := old_mode = WIFI_MODE_AP && drv.mode_err = ESP_OK
  let calls := if old_mode = WIFI_MODE_AP then calls ++ [radio_call.set_mode WIFI_MODE_APSTA]
    else calls
  let radio :=
    if old_mode = WIFI_MODE_AP then esp_wifi_set_mode drv.mode_err radio WIFI_MODE_APSTA
    else radio
  let s : send_state :=
    { frame := frame0, frame_len := 26, sent := 0, failed := 0, last_err := ESP_OK,
      packets_sent := stats.packets_sent, calls := calls }
  let s := send_loop drv req.packet_type target_mac req.count req.interval 100 0 s
  let calls := s.calls
  let calls := if changed_mode then calls ++ [radio_call.set_mode old_mode] else calls
  let radio :=
    if changed_mode then esp_wifi_set_mode drv.restore_mode_err radio old_mode else radio
  let restore : Bool := 0 < target_channel && target_channel ≠ original_primary
  let calls :=
    if restore then calls ++ [radio_call.set_channel original_primary original_second]
    else calls
  let radio :=
    if restore then esp_wifi_set_channel drv.restore_ch_err radio original_primary original_second
    else radio
  { radio := radio, calls := calls, sent := s.sent, failed := s.failed,
    last_err := s.last_err,
    stats := { stats with packets_sent := s.packets_sent },
    response :=
      if s.failed = 0 then send_response.ok s.sent
      else send_response.part s.sent s.failed s.last_err }

/-- `handler_api_packets_send`: a body that cannot be read is answered with 500 before
anything else is done; otherwise the run follows. -/
def handler_api_packets_send (body : List Nat) (stack_mac : Mac) (frame0 : List Nat)
    (took : Bool) (db : DB) (drv : Driver) (radio : Radio) (stats : packet_stats_t) :
    send_result :=
  match packets_send_parse body with
  | none =>
    { radio := radio, calls := [], sent := 0, failed := 0, last_err := ESP_OK,
      stats := stats, response := send_response.fail500 }
  | some req => packets_send_run req stack_mac frame0 took db drv radio stats

/-- The number of frames the loop attempts for a requested `count`. -/
def iters (count : Int) : Nat := (min (max count 0) 100).toNat

/-- The result of the transmission of iteration `i`, after the retry on the access-point
interface when the station interface answers `ESP_ERR_WIFI_IF`. -/
def final_err (drv : Driver) (i : Nat) : Int :=
  if drv.tx_sta i = ESP_ERR_WIFI_IF then drv.tx_ap i else drv.tx_sta i

/-- The number of the first `n` attempts that end in success. -/
def successes (drv : Driver) (n : Nat) : Nat :=
  ((List.range n).filter (fun i => decide (final_err drv i = ESP_OK))).length

/-- The number of the first `n` attempts that end in an error. -/
def failures (drv : Driver) (n : Nat) : Nat :=
  ((List.range n).filter (fun i => decide (final_err drv i ≠ ESP_OK))).length

/-- The error of the last of the first `n` attempts that failed (`ESP_OK` if none). -/
def last_failure (drv : Driver) (n : Nat) : Int :=
  match ((List.range n).filter (fun i => decide (final_err drv i ≠ ESP_OK))).getLast? with
  | some i => final_err drv i
  | none => ESP_OK

/-- A first transmission of a frame (on the station interface). -/
def radio_call.is_attempt : radio_call → Bool
  | radio_call.tx ifx _ => ifx = WIFI_IF_STA
  | _ => false

/-- A sleep between frames. -/
def radio_call.is_delay : radio_call → Bool
  | radio_call.delay _ => true
  | _ => false

/-- The number of frames attempted in a sequence of calls. -/
def attempts (calls : List radio_call) : Nat := calls.countP radio_call.is_attempt

/-- The number of sleeps in a sequence of calls. -/
def sleeps (calls : List radio_call) : Nat := calls.countP radio_call.is_delay

/-- A driver whose calls all succeed. -/
def drv_ok : Driver :=
  { ch_err := ESP_OK, mode_err := ESP_OK, tx_sta := fun _ => ESP_OK, tx_ap := fun _ => ESP_OK,
    restore_mode_err := ESP_OK, restore_ch_err := ESP_OK, rnd := fun _ _ => 0 }

/-- The first `n` iterations of the injection loop. -/
def send_fold (drv : Driver) (packet_type : List Nat) (target_mac : Mac)
    (count interval : Int) (n : Nat) (s : send_state) : send_state :=
  (List.range n).foldl (fun s i => send_iter drv packet_type target_mac count interval i s) s

/-- The text of a request as `handler_api_packets_send` reads it: at most 511 bytes are
received, and the C string ends at the first NUL. -/
def request_text (body : List Nat) : List Nat :=
  (body.take 511).takeWhile (fun c => c ≠ 0)

/-- The key `key` occurs in the text `buf` and a colon comes somewhere after that
occurrence. -/
def key_with_colon (buf key : List Nat) : Prop :=
  ∃ pre post, buf = pre ++ key ++ post ∧ 58 ∈ post

/-- The deauthentication frame sent to the broadcast address in the name of `mac`. -/
def deauth_bytes (mac : Mac) : List Nat :=
  [0xC0, 0x00, 0x00, 0x00, 0xFF, 0xFF, 0xFF, 0xFF, 0xFF, 0xFF] ++ mac.bytes ++ mac.bytes ++
    [0x00, 0x00, 0x07, 0x00]

/-! ## Display names, upserted addresses -/

/-- The byte `sanitize_ssid` stores for the input byte `c`: `c` itself when it is
printable ASCII, `'?'` otherwise. -/
def sanitize_byte (c : Nat) : Nat := if 32 ≤ c ∧ c < 127 then c else 63

/-- The effect of one operation on the list of the hardware addresses upserted since the
last clear: a scan merge that takes the mutex upserts its records in turn, a clear that
takes the mutex empties the list, an operation that does not take the mutex does
nothing. -/
def Op.track (s : List Mac) : Op → List Mac
  | .scan took _ records => if took then s ++ records.map (fun r => r.bssid) else s
  | .clear took => if took then [] else s

/-- The hardware addresses upserted since the last clear, in the order upserted, with
repetitions. -/
def inserted (ops : List Op) : List Mac := ops.foldl Op.track []

/-- The link between a database and the addresses upserted since the last clear: every
record holds one of them, and until the table is full every one of them has a record. -/
def Tracks (db : DB) (s : List Mac) : Prop :=
  (∀ i, i < db.g_ap_count → (slot db i).bssid ∈ s) ∧
  (db.g_ap_count < MAX_APS → ∀ a, a ∈ s → ∃ i, i < db.g_ap_count ∧ (slot db i).bssid = a)

/-! ## Capture pipeline: bytes read, repeated delivery -/

/-- The indices of `payload` that the LLC/SNAP comparison of `wifi_sniffer_cb` reads, in
the order read: the operands of `&&` are evaluated from left to right and the evaluation
stops at the first one that fails; nothing is read when the length check fails. -/
def eapol_reads (pkt : wifi_promiscuous_pkt_t) : List Nat :=
  let hdr := pkt.payload
  let fc := hdr.getD 0 0
  let len := pkt.sig_len
  let hdr_len := sniffer_hdr_len fc
  if len > hdr_len + 8 then
    (hdr_len + 0) ::
      (if hdr.getD (hdr_len + 0) 0 = 0xAA then
        (hdr_len + 1) ::
          (if hdr.getD (hdr_len + 1) 0 = 0xAA then
            (hdr_len + 2) ::
              (if hdr.getD (hdr_len + 2) 0 = 0x03 then
                (hdr_len + 6) ::
                  (if hdr.getD (hdr_len + 6) 0 = 0x88 then [hdr_len + 7] else [])
              else [])
          else [])
      else [])
  else []

/-- The capture globals after the driver delivers the frames `frames` in turn, each with
the time of the call, the packet and its type tag. -/
def sniffer_run (st : Capture) (frames : List (Nat × wifi_promiscuous_pkt_t × Nat)) :
    Capture :=
  frames.foldl (fun st f => wifi_sniffer_cb f.1 st f.2.1 f.2.2) st

/-- A frame qualifies for the handshake counter: listening is on, the frame-type field of
`hdr[0]` is 2 and the EAPOL test succeeds. -/
def qualifies (st : Capture) (pkt : wifi_promiscuous_pkt_t) : Bool :=
  st.g_packet_stats.handshake_listening && decide (((pkt.payload.getD 0 0) &&& 0x0C) >>> 2 = 2) &&
    eapol_test pkt

/-- The capture globals after listening is started and the frame `c13_pkt` is delivered
4294967295 times. -/
def c21_state : Capture :=
  sniffer_run (handler_api_handshake_start capture_init)
    (List.replicate 4294967295 (0, c13_pkt, WIFI_PKT_DATA))

/-! ## Vulnerability report -/

/-- `auth_mode_to_str`. -/
def auth_mode_to_str (mode : Nat) : String :=
  if mode = WIFI_AUTH_OPEN then "OPEN"
  else if mode = WIFI_AUTH_WEP then "WEP"
  else if mode = WIFI_AUTH_WPA_PSK then "WPA-PSK"
  else if mode = WIFI_AUTH_WPA2_PSK then "WPA2-PSK"
  else if mode = WIFI_AUTH_WPA_WPA2_PSK then "WPA/WPA2"
  else if mode = WIFI_AUTH_WPA2_ENTERPRISE then "WPA2-ENT"
  else if mode = WIFI_AUTH_WPA3_PSK then "WPA3-PSK"
  else if mode = WIFI_AUTH_WPA2_WPA3_PSK then "WPA2/WPA3"
  else "UNKNOWN"

/-- One object of the vulnerability report: the values printed for `ssid`, `bssid`,
`vulnerability`, `severity`, `auth`, `rssi` and `channel`. -/
structure vuln_entry where
  ssid : List Nat
  bssid : Mac
  vulnerability : String
  severity : String
  auth : String
  rssi : Int
  channel : Nat
  deriving DecidableEq, Repr

/-- The chain of tests of `get_vulnerable_networks` on one record: the final values of
`is_vulnerable`, `vulnerability` and `severity`. -/
def vuln_check (ap : ap_info_t) : Bool × String × String :=
  if ap.authmode = WIFI_AUTH_WEP then
    (true, "WEP encryption (deprecated, easily cracked)", "CRITICAL")
  else if ap.authmode = WIFI_AUTH_WPA_PSK then
    (true, "WPA1 encryption (deprecated, vulnerable)", "HIGH")
  else if ap.authmode = WIFI_AUTH_OPEN then
    (true, "No encryption (unprotected network)", "HIGH")
  else (false, "", "")

/-- The object `get_vulnerable_networks` prints for the record `ap`. -/
def vuln_entry_of (ap : ap_info_t) : vuln_entry :=
  { ssid := ssid_display ap, bssid := ap.bssid, vulnerability := (vuln_check ap).2.1,
    severity := (vuln_check ap).2.2, auth := auth_mode_to_str ap.authmode, rssi := ap.rssi,
    channel := ap.channel }

/-- The value `snprintf` returns for one object of the vulnerability report: the 84
characters of the format outside the conversions, the name, the 17 characters of
`mac_to_str`, the three texts, and the decimal forms of `rssi` and `channel`. -/
def vuln_entry_len (e : vuln_entry) : Nat :=
  84 + e.ssid.length + 17 + e.vulnerability.length + e.severity.length + e.auth.length +
    dec_len_int e.rssi + dec_len e.channel

/-- The variables of the loop of `get_vulnerable_networks`: the write offset `off`, the
flag `first`, and the objects printed so far. -/
structure vuln_state where
  off : Nat
  first : Bool
  out : List vuln_entry
  deriving DecidableEq, Repr

/-- The body of the loop of `get_vulnerable_networks` for slot `i`. -/
def vuln_step (db : DB) (st : vuln_state) (i : Nat) : vuln_state :=
  let ap := slot db i
  if !ap.in_use then st
  else
    let chk := vuln_check ap
    if chk.1 then
      let off := if !st.first then st.off + 1 else st.off
      let e := vuln_entry_of ap
      { off := off + vuln_entry_len e, first := false, out := st.out ++ [e] }
    else st

/-- The bound `len - 256` of the loop, computed in `size_t` (32 bits). -/
def vuln_limit (len : Nat) : Nat := (len + 2 ^ 32 - 256) % 2 ^ 32

/-- The loop `for (i = 0; i < g_ap_count && off < len - 256; i++)` of
`get_vulnerable_networks` over the slots `idxs` still to visit: it ends at the first
slot reached with `off` at or above the bound. -/
def vuln_loop (db : DB) (len : Nat) : List Nat → vuln_state → vuln_state
  | [], st => st
  | i :: idxs, st =>
    if st.off < vuln_limit len then vuln_loop db len idxs (vuln_step db st i) else st

/-- `get_vulnerable_networks(buf, len)`: the objects written between the brackets and the
final offset; `took` tells whether the mutex was taken within 1000 ms. -/
def get_vulnerable_networks (took : Bool) (db : DB) (len : Nat) : vuln_state :=
  let st : vuln_state := { off := 1, first := true, out := [] }
  let st := if took then vuln_loop db len (List.range db.g_ap_count) st else st
  { st with off := st.off + 1 }

/-- The write offset of `get_vulnerable_networks` when its loop reaches slot `i`, or the
offset at which the loop ended before slot `i`. -/
def vuln_off_before (db : DB) (len : Nat) (i : Nat) : Nat :=
  (vuln_loop db len (List.range i) { off := 1, first := true, out := [] }).off

/-- The records the spec calls vulnerable: auth mode WEP, WPA1-PSK or Open. -/
def vulnerable (ap : ap_info_t) : Bool :=
  ap.authmode = WIFI_AUTH_WEP || ap.authmode = WIFI_AUTH_WPA_PSK ||
    ap.authmode = WIFI_AUTH_OPEN

/-- The severity the spec gives a vulnerable record: CRITICAL for WEP, HIGH for WPA1-PSK
and Open. -/
def spec_severity (ap : ap_info_t) : String :=
  if ap.authmode = WIFI_AUTH_WEP then "CRITICAL" else "HIGH"

/-! ## The classifier as the spec words it -/

/-- Case-insensitive substring matching as the spec words it: the lower-cased token is a
contiguous part of the lower-cased name. -/
def spec_contains (name tok : List Nat) : Bool :=
  decide (tok.map tolower <:+: name.map tolower)

/-- The ordered rule chain of the spec, first match wins. -/
def spec_classify (ap : ap_info_t) : ap_class_t :=
  if spec_contains ap.ssid (cstr "guest") ∨ spec_contains ap.ssid (cstr "visitor") then
    AP_CLASS_GUEST
  else if spec_contains ap.ssid (cstr "corp") ∨ spec_contains ap.ssid (cstr "enterprise") ∨
      ap.authmode = WIFI_AUTH_WPA3_PSK then
    AP_CLASS_ENTERPRISE
  else if spec_contains ap.ssid (cstr "iphone") ∨ spec_contains ap.ssid (cstr "androidap") ∨
      spec_contains ap.ssid (cstr "galaxy") ∨ spec_contains ap.ssid (cstr "hotspot") then
    AP_CLASS_HOTSPOT
  else if spec_contains ap.ssid (cstr "ESP") ∨ spec_contains ap.ssid (cstr "IoT") ∨
      spec_contains ap.ssid (cstr "Cam") ∨ spec_contains ap.ssid (cstr "Ring") ∨
      spec_contains ap.ssid (cstr "Blink") ∨ spec_contains ap.ssid (cstr "Wyze") then
    AP_CLASS_IOT
  else if ap.authmode = WIFI_AUTH_OPEN ∧
      (spec_contains ap.ssid (cstr "free wifi") ∨ spec_contains ap.ssid (cstr "public") ∨
       spec_contains ap.ssid (cstr "airport") ∨ spec_contains ap.ssid (cstr "hotel")) ∧
      ap.rssi > -40 then
    AP_CLASS_SUSPECT
  else
    AP_CLASS_HOME

/-! ## Sample data -/

/-- A scan record with address `02:00:00:00:00:n`, the given name (NUL padded to 33
bytes), auth mode and signal strength, on channel 6. -/
def sample_record (n : Nat) (name : String) (auth : Nat) (rssi : Int) : wifi_ap_record_t :=
  { bssid := ⟨2, 0, 0, 0, 0, n⟩,
    ssid := cstr name ++ List.replicate (33 - name.length) 0,
    primary := 6, rssi := rssi, authmode := auth }

/-- 513 observations with pairwise different addresses `02:00:00:00:hi:lo`. -/
def c1_obs : List (Nat × wifi_ap_record_t) :=
  (List.range 513).map (fun n =>
    (1000 + n, { bssid := ⟨2, 0, 0, 0, n / 256, n % 256⟩, ssid := cstr "net",
                 primary := 6, rssi := -50, authmode := WIFI_AUTH_WPA2_PSK }))

/-- Three sightings of one access point with different signal strengths. -/
def c3_obs : List (Nat × wifi_ap_record_t) :=
  [(10, sample_record 1 "HomeNet" WIFI_AUTH_WPA2_PSK (-60)),
   (20, sample_record 1 "HomeNet" WIFI_AUTH_WPA2_PSK (-45)),
   (30, sample_record 1 "HomeNet" WIFI_AUTH_WPA2_PSK (-70))]

/-- The observation of the C4 counterexample. -/
def c4_r : wifi_ap_record_t := sample_record 1 "HomeNet" WIFI_AUTH_WPA2_PSK (-60)

/-- The database after 65535 sightings of `c4_r`. -/
def c4_db : DB := upsert_all (List.replicate 65535 (0, c4_r)) g_init

/-- Three scan results named "FreeWifi"; the second is Open at -30 dBm. -/
def c6_records : List wifi_ap_record_t :=
  [sample_record 1 "FreeWifi" WIFI_AUTH_WPA2_PSK (-60),
   sample_record 2 "FreeWifi" WIFI_AUTH_OPEN (-30),
   sample_record 3 "FreeWifi" WIFI_AUTH_WPA2_PSK (-70)]

/-- The database after a clear and one scan merge of `c6_records`. -/
def c6_db : DB := update_ap_list_from_scan true 100 c6_records (handler_api_clear true g_init)

/-- Two access points that share the name "HomeNet". -/
def c7_db : DB :=
  run [Op.scan true 100
    [sample_record 1 "HomeNet" WIFI_AUTH_WPA2_PSK (-50),
     sample_record 2 "HomeNet" WIFI_AUTH_WPA2_PSK (-60)]]

/-- Three access points that share the name "HomeNet". -/
def c7_db3 : DB :=
  run [Op.scan true 100
    [sample_record 1 "HomeNet" WIFI_AUTH_WPA2_PSK (-50),
     sample_record 2 "HomeNet" WIFI_AUTH_WPA2_PSK (-60),
     sample_record 3 "HomeNet" WIFI_AUTH_WPA2_PSK (-70)]]

/-- An Open access point named "Guest" and a second access point of the same name. -/
def c8_db : DB :=
  run [Op.scan true 100
    [sample_record 1 "Guest" WIFI_AUTH_OPEN (-50),
     sample_record 2 "Guest" WIFI_AUTH_WPA2_PSK (-60)]]

/-- Four access points: three on channel 6 and one on channel 1 (the records of
`sample_record` are on channel 6). -/
def c9_db : DB :=
  run [Op.scan true 100
    [sample_record 1 "a" WIFI_AUTH_WPA2_PSK (-50),
     sample_record 2 "b" WIFI_AUTH_WPA2_PSK (-60),
     sample_record 3 "c" WIFI_AUTH_WPA2_PSK (-60),
     { sample_record 4 "d" WIFI_AUTH_WPA2_PSK (-70) with primary := 1 }]]

/-- A database that knows one access point, `02:00:00:00:00:01` on channel 6. -/
def inj_db : DB := run [Op.scan true 100 [sample_record 1 "HomeNet" WIFI_AUTH_WPA2_PSK (-60)]]

/-- A request for 500 deauthentication frames to a target whose address is not a
hardware address. -/
def send_body_addr : List Nat :=
  cstr "\x7b\"bssid\":\"zz:zz:zz:zz:zz:zz\",\"type\":\"deauth\",\"count\":500\x7d"

/-- A request with the count -1 to the access point known to `inj_db`. -/
def send_body_neg : List Nat :=
  cstr "\x7b\"bssid\":\"02:00:00:00:00:01\",\"type\":\"deauth\",\"count\":-1\x7d"

/-- A request without the key `count`. -/
def send_body_nokey : List Nat :=
  cstr "\x7b\"bssid\":\"02:00:00:00:00:01\",\"type\":\"deauth\"\x7d"

/-- A driver whose transmissions go: success, interface mismatch on the station
interface and success on the retry, error `0x3001` on the station interface, interface
mismatch and error `0x3002` on the retry, then success from the fifth on. -/
def drv_mixed : Driver :=
  { drv_ok with
    tx_sta := fun i => if i = 1 then ESP_ERR_WIFI_IF else if i = 2 then 0x3001
      else if i = 3 then ESP_ERR_WIFI_IF else ESP_OK,
    tx_ap := fun i => if i = 3 then 0x3002 else ESP_OK }

/-- A scan record of a hidden network (the name is 33 NUL bytes) with the address
`02:00:00:00:00:01`. -/
def hidden_record : wifi_ap_record_t :=
  { bssid := ⟨2, 0, 0, 0, 0, 1⟩, ssid := List.replicate 33 0, primary := 6, rssi := -60,
    authmode := WIFI_AUTH_WPA2_PSK }

/-- Two access points, a clear, two other access points, a scan that does not take the
mutex, and a scan that sees one of the access points again and a new one. -/
def sample_ops : List Op :=
  [Op.scan true 100 [sample_record 1 "a" WIFI_AUTH_WPA2_PSK (-50),
                     sample_record 2 "b" WIFI_AUTH_WPA2_PSK (-60)],
   Op.clear true,
   Op.scan true 200 [sample_record 3 "c" WIFI_AUTH_WPA2_PSK (-50),
                     sample_record 4 "d" WIFI_AUTH_OPEN (-60)],
   Op.scan false 250 [sample_record 9 "x" WIFI_AUTH_OPEN (-60)],
   Op.scan true 300 [sample_record 3 "c" WIFI_AUTH_WPA2_PSK (-55),
                     sample_record 5 "e" WIFI_AUTH_WEP (-70)]]

/-- A database with 100 open networks named "net", `02:00:00:00:00:00` to
`02:00:00:00:00:63`, in the slots 0 to 99. -/
def vuln_db : DB :=
  run [Op.scan true 100 ((List.range 100).map (fun n => sample_record n "net" WIFI_AUTH_OPEN (-50)))]

/-- A request for 2 deauthentication frames to a target whose address is not a hardware
address. -/
def send_body_bad : List Nat :=
  cstr "\x7b\"bssid\":\"zz:zz:zz:zz:zz:zz\",\"type\":\"deauth\",\"count\":2\x7d"

/-! ## Theorems -/

/-! ### Slots and lookup -/

theorem getD_set_eq {α : Type} (l : List α) (k i : Nat) (v d : α) :
    (l.set k v).getD i d = if i = k ∧ k < l.length then v else l.getD i d := by
  simp only [List.getD_eq_getElem?_getD, List.getElem?_set]
  by_cases h : k = i
  · subst h
    by_cases h2 : k < l.length
    · simp [h2]
    · simp [h2, List.getElem?_eq_none (Nat.le_of_not_lt h2)]
  · have : ¬ i = k := fun e => h e.symm
    simp [h, this]

theorem find_neg_iff (db : DB) (b : Mac) :
    find_ap_by_bssid db b < 0 ↔
      ∀ i, i < db.g_ap_count → ¬ ((slot db i).in_use = true ∧ (slot db i).bssid = b) := by
  unfold find_ap_by_bssid
  split
  · rename_i i hi
    have hp := List.find?_some hi
    have hm := List.mem_of_find?_eq_some hi
    simp only [Bool.and_eq_true, mac_equal, decide_eq_true_eq] at hp
    constructor
    · intro h; omega
    · intro h
      exact absurd hp (h i (List.mem_range.mp hm))
  · rename_i hn
    rw [List.find?_eq_none] at hn
    constructor
    · intro _ i hi hc
      apply hn i (List.mem_range.mpr hi)
      simpa [mac_equal, slot] using hc
    · intro _; omega

theorem find_nonneg (db : DB) (b : Mac) (h : ¬ find_ap_by_bssid db b < 0) :
    ∃ i : Nat, find_ap_by_bssid db b = (i : Int) ∧ i < db.g_ap_count ∧
      (slot db i).in_use = true ∧ (slot db i).bssid = b := by
  unfold find_ap_by_bssid at h ⊢
  split
  · rename_i i hi
    have hp := List.find?_some hi
    have hm := List.mem_of_find?_eq_some hi
    simp only [Bool.and_eq_true, mac_equal, decide_eq_true_eq] at hp
    exact ⟨i, rfl, List.mem_range.mp hm, hp.1, hp.2⟩
  · rename_i hn
    rw [hn] at h
    exact absurd (by decide) h

theorem upsert_record_miss (now : Nat) (db : DB) (r : wifi_ap_record_t)
    (h : find_ap_by_bssid db r.bssid < 0) :
    upsert_record now db r =
      { g_aps := db.g_aps.set (db.g_ap_insert_index % MAX_APS) (ap_created now r),
        g_ap_count :=
          (if db.g_ap_insert_index % MAX_APS ≥
              (if db.g_ap_count < MAX_APS then db.g_ap_count + 1 else db.g_ap_count)
           then db.g_ap_insert_index % MAX_APS + 1
           else (if db.g_ap_count < MAX_APS then db.g_ap_count + 1 else db.g_ap_count)),
        g_ap_insert_index := (db.g_ap_insert_index + 1) % 2 ^ 32 } := by
  simp only [upsert_record, h, if_true, ap_created]

theorem upsert_record_hit (now : Nat) (db : DB) (r : wifi_ap_record_t) (i : Nat)
    (h : find_ap_by_bssid db r.bssid = (i : Int)) :
    upsert_record now db r =
      { g_aps := db.g_aps.set i (ap_merged now r (slot db i)),
        g_ap_count := (if i ≥ db.g_ap_count then i + 1 else db.g_ap_count),
        g_ap_insert_index := db.g_ap_insert_index } := by
  have hn : ¬ ((i : Int) < 0) := by omega
  simp only [upsert_record, h, hn, if_false, ap_merged, slot, Int.toNat_ofNat]

/-! ### The invariant of the database -/

theorem slot_set (db : DB) (idx i c ii : Nat) (v : ap_info_t)
    (h : idx < db.g_aps.length) :
    slot { g_aps := db.g_aps.set idx v, g_ap_count := c, g_ap_insert_index := ii } i =
      if i = idx then v else slot db i := by
  simp only [slot, getD_set_eq, h, and_true]

theorem inv_init : Inv g_init := by
  have hz : ∀ i, slot g_init i = ap_zero := by
    intro i
    simp only [slot, g_init, List.getD_eq_getElem?_getD, List.getElem?_replicate]
    split <;> rfl
  refine ⟨by simp [g_init], by simp [g_init], fun i _ => hz i, ?_, ?_, ?_, ?_⟩
  · intro i hi; simp [g_init] at hi
  · intro _; rfl
  · intro i j hi; simp [g_init] at hi
  · intro i hi; simp [g_init] at hi

theorem inv_set (db : DB) (hI : Inv db) (idx c ii : Nat) (v : ap_info_t)
    (h1 : idx < c) (h3 : c ≤ MAX_APS)
    (h4 : ∀ i, i < c → i ≠ idx → i < db.g_ap_count)
    (h4b : db.g_ap_count ≤ c)
    (h5 : c < MAX_APS → ii = c)
    (hv : v.in_use = true) (hok : rec_ok v)
    (hb : ∀ j, j < db.g_ap_count → j ≠ idx → (slot db j).bssid ≠ v.bssid) :
    Inv { g_aps := db.g_aps.set idx v, g_ap_count := c, g_ap_insert_index := ii } := by
  have hlen : idx < db.g_aps.length := by rw [hI.len]; omega
  have hs := fun i => slot_set db idx i c ii v hlen
  refine ⟨by simp [hI.len], h3, ?_, ?_, h5, ?_, ?_⟩
  · intro i hi
    have hne : i ≠ idx := by
      intro e; subst e; exact absurd h1 (Nat.not_lt.mpr hi)
    rw [hs, if_neg hne]
    exact hI.beyond i (Nat.le_trans h4b hi)
  · intro i hi
    rw [hs]
    by_cases e : i = idx
    · rw [if_pos e]; exact hv
    · rw [if_neg e]; exact hI.used i (h4 i hi e)
  · intro i j hi hj
    rw [hs, hs]
    by_cases e : i = idx <;> by_cases e2 : j = idx
    · intro _; rw [e, e2]
    · rw [if_pos e, if_neg e2]
      intro hbe
      exact absurd hbe.symm (hb j (h4 j hj e2) e2)
    · rw [if_neg e, if_pos e2]
      intro hbe
      exact absurd hbe (hb i (h4 i hi e) e)
    · rw [if_neg e, if_neg e2]
      exact hI.uniq i j (h4 i hi e) (h4 j hj e2)
  · intro i hi
    rw [hs]
    by_cases e : i = idx
    · rw [if_pos e]; exact hok
    · rw [if_neg e]; exact hI.ok i (h4 i hi e)

theorem sanitize_loop_length (max_len : Nat) (src dst : List Nat)
    (h : dst.length + 1 ≤ max_len - 1) :
    (sanitize_loop max_len src dst).length ≤ max_len - 1 := by
  induction src generalizing dst with
  | nil => simp only [sanitize_loop]; omega
  | cons c rest ih =>
    simp only [sanitize_loop]
    generalize (if 32 ≤ c ∧ c < 127 then c else 63) = x
    by_cases hge : (dst ++ [x]).length ≥ max_len - 1
    · rw [if_pos hge]
      simp only [List.length_append, List.length_singleton] at hge ⊢
      omega
    · rw [if_neg hge]
      apply ih
      simp only [List.length_append, List.length_singleton] at hge ⊢
      omega

theorem sanitize_ssid_length (src : List Nat) : (sanitize_ssid src 33).length ≤ 32 := by
  have := sanitize_loop_length 33 (src.take (strnlen src 33)) [] (by simp)
  simpa [sanitize_ssid] using this

theorem sanitize_loop_printable (max_len : Nat) (src dst : List Nat)
    (h : ∀ c, c ∈ dst → 32 ≤ c ∧ c < 127) :
    ∀ c, c ∈ sanitize_loop max_len src dst → 32 ≤ c ∧ c < 127 := by
  induction src generalizing dst with
  | nil => simpa only [sanitize_loop] using h
  | cons x rest ih =>
    have hx : 32 ≤ (if 32 ≤ x ∧ x < 127 then x else 63) ∧
        (if 32 ≤ x ∧ x < 127 then x else 63) < 127 := by
      split <;> omega
    have h1 : ∀ c, c ∈ dst ++ [if 32 ≤ x ∧ x < 127 then x else 63] → 32 ≤ c ∧ c < 127 := by
      intro c hc
      rcases List.mem_append.mp hc with hc | hc
      · exact h c hc
      · rw [List.mem_singleton.mp hc]; exact hx
    simp only [sanitize_loop]
    by_cases hge : (dst ++ [if 32 ≤ x ∧ x < 127 then x else 63]).length ≥ max_len - 1
    · rw [if_pos hge]; exact h1
    · rw [if_neg hge]; exact ih _ h1

theorem sanitize_ssid_printable (src : List Nat) (max_len : Nat) :
    ∀ c, c ∈ sanitize_ssid src max_len → 32 ≤ c ∧ c < 127 :=
  sanitize_loop_printable max_len _ [] (fun c hc => absurd hc (List.not_mem_nil c))

theorem rec_ok_created (now : Nat) (r : wifi_ap_record_t) : rec_ok (ap_created now r) := by
  refine ⟨le_refl _, le_refl _, rfl, ?_, ?_, ?_, ?_⟩
  · exact sanitize_ssid_length r.ssid
  · simp [ap_created]
  · simp [ap_created]
  · exact sanitize_ssid_printable r.ssid 33

theorem ap_merged_in_use (now : Nat) (r : wifi_ap_record_t) (dst : ap_info_t) :
    (ap_merged now r dst).in_use = dst.in_use := by
  by_cases h1 : r.rssi < dst.rssi_min <;> by_cases h2 : r.rssi > dst.rssi_max <;>
    by_cases h3 : dst.seen_count < 0xFFFF <;> simp [ap_merged, h1, h2, h3]

theorem ap_merged_bssid (now : Nat) (r : wifi_ap_record_t) (dst : ap_info_t) :
    (ap_merged now r dst).bssid = dst.bssid := by
  by_cases h1 : r.rssi < dst.rssi_min <;> by_cases h2 : r.rssi > dst.rssi_max <;>
    by_cases h3 : dst.seen_count < 0xFFFF <;> simp [ap_merged, h1, h2, h3]

theorem ap_merged_ssid (now : Nat) (r : wifi_ap_record_t) (dst : ap_info_t) :
    (ap_merged now r dst).ssid = dst.ssid := by
  by_cases h1 : r.rssi < dst.rssi_min <;> by_cases h2 : r.rssi > dst.rssi_max <;>
    by_cases h3 : dst.seen_count < 0xFFFF <;> simp [ap_merged, h1, h2, h3]

theorem ap_merged_first_seen (now : Nat) (r : wifi_ap_record_t) (dst : ap_info_t) :
    (ap_merged now r dst).first_seen_ms = dst.first_seen_ms := by
  by_cases h1 : r.rssi < dst.rssi_min <;> by_cases h2 : r.rssi > dst.rssi_max <;>
    by_cases h3 : dst.seen_count < 0xFFFF <;> simp [ap_merged, h1, h2, h3]

theorem ap_merged_rssi (now : Nat) (r : wifi_ap_record_t) (dst : ap_info_t) :
    (ap_merged now r dst).rssi = r.rssi := by
  by_cases h1 : r.rssi < dst.rssi_min <;> by_cases h2 : r.rssi > dst.rssi_max <;>
    by_cases h3 : dst.seen_count < 0xFFFF <;> simp [ap_merged, h1, h2, h3]

theorem ap_merged_rssi_min (now : Nat) (r : wifi_ap_record_t) (dst : ap_info_t) :
    (ap_merged now r dst).rssi_min = min dst.rssi_min r.rssi := by
  by_cases h1 : r.rssi < dst.rssi_min <;> by_cases h2 : r.rssi > dst.rssi_max <;>
    by_cases h3 : dst.seen_count < 0xFFFF <;> simp [ap_merged, h1, h2, h3] <;> omega

theorem ap_merged_rssi_max (now : Nat) (r : wifi_ap_record_t) (dst : ap_info_t) :
    (ap_merged now r dst).rssi_max = max dst.rssi_max r.rssi := by
  by_cases h1 : r.rssi < dst.rssi_min <;> by_cases h2 : r.rssi > dst.rssi_max <;>
    by_cases h3 : dst.seen_count < 0xFFFF <;> simp [ap_merged, h1, h2, h3] <;> omega

theorem ap_merged_seen_count (now : Nat) (r : wifi_ap_record_t) (dst : ap_info_t) :
    (ap_merged now r dst).seen_count =
      if dst.seen_count < 0xFFFF then dst.seen_count + 1 else dst.seen_count := by
  by_cases h1 : r.rssi < dst.rssi_min <;> by_cases h2 : r.rssi > dst.rssi_max <;>
    by_cases h3 : dst.seen_count < 0xFFFF <;> simp [ap_merged, h1, h2, h3]

theorem ap_merged_classification (now : Nat) (r : wifi_ap_record_t) (dst : ap_info_t) :
    (ap_merged now r dst).classification = classify_ap (ap_merged now r dst) := by
  simp only [ap_merged]
  rfl

theorem rec_ok_merged (now : Nat) (r : wifi_ap_record_t) (dst : ap_info_t)
    (h : rec_ok dst) : rec_ok (ap_merged now r dst) := by
  obtain ⟨_, _, _, h4, h5, h6, h7⟩ := h
  refine ⟨?_, ?_, ap_merged_classification now r dst, ?_, ?_, ?_, ?_⟩
  · rw [ap_merged_rssi_min, ap_merged_rssi]; omega
  · rw [ap_merged_rssi_max, ap_merged_rssi]; omega
  · rw [ap_merged_ssid]; exact h4
  · rw [ap_merged_seen_count]; split <;> omega
  · rw [ap_merged_seen_count]; split <;> omega
  · rw [ap_merged_ssid]; exact h7

theorem inv_upsert (now : Nat) (db : DB) (r : wifi_ap_record_t) (hI : Inv db) :
    Inv (upsert_record now db r) := by
  by_cases h : find_ap_by_bssid db r.bssid < 0
  · rw [upsert_record_miss now db r h]
    have hnone := (find_neg_iff db r.bssid).mp h
    have hc := hI.count_le
    have hcur := hI.cursor
    have hmod : db.g_ap_insert_index % MAX_APS < MAX_APS := Nat.mod_lt _ (by decide)
    simp only [MAX_APS] at hc hcur hmod ⊢
    by_cases hfull : db.g_ap_count < 512
    · have hii := hcur hfull
      have hidx : db.g_ap_insert_index % 512 = db.g_ap_count := by
        rw [hii]; exact Nat.mod_eq_of_lt hfull
      have hsucc : (db.g_ap_insert_index + 1) % 2 ^ 32 = db.g_ap_count + 1 := by
        rw [hii]; exact Nat.mod_eq_of_lt (by omega)
      rw [hidx, hsucc, if_pos hfull, if_neg (by omega)]
      apply inv_set db hI
      · omega
      · simp only [MAX_APS]; omega
      · intro i hi hne; omega
      · omega
      · intro _; rfl
      · rfl
      · exact rec_ok_created now r
      · intro j hj _ hbe
        exact hnone j hj ⟨hI.used j hj, hbe⟩
    · have hceq : db.g_ap_count = 512 := by omega
      rw [if_neg hfull, if_neg (by omega)]
      apply inv_set db hI
      · omega
      · simp only [MAX_APS]; omega
      · intro i hi _; exact hi
      · omega
      · intro hlt; simp only [MAX_APS] at hlt; omega
      · rfl
      · exact rec_ok_created now r
      · intro j hj _ hbe
        exact hnone j hj ⟨hI.used j hj, hbe⟩
  · obtain ⟨i, hfi, hi, _, hb⟩ := find_nonneg db r.bssid h
    rw [upsert_record_hit now db r i hfi, if_neg (by omega)]
    apply inv_set db hI
    · exact hi
    · exact hI.count_le
    · intro j hj _; exact hj
    · omega
    · exact hI.cursor
    · rw [ap_merged_in_use]; exact hI.used i hi
    · exact rec_ok_merged now r _ (hI.ok i hi)
    · intro j hj hne hbe
      rw [ap_merged_bssid] at hbe
      exact hne (hI.uniq j i hj hi hbe)

theorem inv_foldl_upsert (now : Nat) (records : List wifi_ap_record_t) (db : DB)
    (hI : Inv db) : Inv (records.foldl (upsert_record now) db) := by
  induction records generalizing db with
  | nil => exact hI
  | cons r rest ih => exact ih _ (inv_upsert now db r hI)

theorem inv_apply (db : DB) (op : Op) (hI : Inv db) : Inv (op.apply db) := by
  cases op with
  | scan took now records =>
    cases took
    · exact hI
    · exact inv_foldl_upsert now records db hI
  | clear took =>
    cases took
    · exact hI
    · exact inv_init

theorem inv_foldl_apply (ops : List Op) (db : DB) (hI : Inv db) :
    Inv (ops.foldl Op.apply db) := by
  induction ops generalizing db with
  | nil => exact hI
  | cons op rest ih => exact ih _ (inv_apply db op hI)

theorem inv_run (ops : List Op) : Inv (run ops) := inv_foldl_apply ops g_init inv_init

theorem inv_upsert_all (obs : List (Nat × wifi_ap_record_t)) (db : DB) (hI : Inv db) :
    Inv (upsert_all obs db) := by
  induction obs generalizing db with
  | nil => exact hI
  | cons o rest ih => exact ih _ (inv_upsert o.1 db o.2 hI)

theorem find_eq_neg_one (db : DB) (b : Mac) (h : find_ap_by_bssid db b < 0) :
    find_ap_by_bssid db b = -1 := by
  unfold find_ap_by_bssid at h ⊢
  split
  · rename_i i hi
    rw [hi] at h
    simp only at h
    omega
  · rfl

theorem find_eq_of_slot (db : DB) (hI : Inv db) (b : Mac) (i : Nat)
    (hi : i < db.g_ap_count) (hb : (slot db i).bssid = b) :
    find_ap_by_bssid db b = (i : Int) := by
  have hnn : ¬ find_ap_by_bssid db b < 0 := by
    intro h
    exact (find_neg_iff db b).mp h i hi ⟨hI.used i hi, hb⟩
  obtain ⟨j, hfj, hj, _, hbj⟩ := find_nonneg db b hnn
  have := hI.uniq j i hj hi (hbj.trans hb.symm)
  rw [hfj, this]

theorem slot_eq_getElem (db : DB) (i : Nat) (h : i < db.g_aps.length) :
    db.g_aps[i] = slot db i := by
  simp only [slot]
  exact (List.getD_eq_getElem _ _ h).symm

theorem in_use_lt_count (db : DB) (hI : Inv db) (i : Nat)
    (h : (slot db i).in_use = true) : i < db.g_ap_count := by
  by_contra hge
  rw [hI.beyond i (Nat.le_of_not_lt hge)] at h
  exact absurd h (by decide)

theorem mem_live (db : DB) (ap : ap_info_t) :
    ap ∈ live db ↔ ∃ i, i < db.g_aps.length ∧ slot db i = ap ∧ ap.in_use = true := by
  unfold live
  rw [List.mem_filter, List.mem_iff_getElem]
  constructor
  · rintro ⟨⟨i, hi, rfl⟩, hu⟩
    exact ⟨i, hi, (slot_eq_getElem db i hi).symm, hu⟩
  · rintro ⟨i, hi, rfl, hu⟩
    exact ⟨⟨i, hi, slot_eq_getElem db i hi⟩, hu⟩

theorem live_nodup (db : DB) (hI : Inv db) :
    ((live db).map (fun ap => ap.bssid)).Nodup := by
  have hp : List.Pairwise
      (fun a b : ap_info_t => a.in_use = true → b.in_use = true → a.bssid ≠ b.bssid)
      db.g_aps := by
    rw [List.pairwise_iff_getElem]
    intro i j hi hj hij ha hb he
    rw [slot_eq_getElem db i hi] at ha he
    rw [slot_eq_getElem db j hj] at hb he
    have := hI.uniq i j (in_use_lt_count db hI i ha) (in_use_lt_count db hI j hb) he
    omega
  have hf : List.Pairwise (fun a b : ap_info_t => a.bssid ≠ b.bssid) (live db) := by
    unfold live
    refine (hp.filter _).imp_of_mem ?_
    intro a b ha hb h
    exact h (List.mem_filter.mp ha).2 (List.mem_filter.mp hb).2
  exact List.Pairwise.map _ (fun _ _ h => h) hf

/-! ### C2: one record per hardware address -/

/-- C2. In every state reached from the start-up state by scan merges and clears (taking
the lock or not), the hardware addresses of the live records are pairwise different. -/
theorem c2_one_record_per_bssid (ops : List Op) :
    ((live (run ops)).map (fun ap => ap.bssid)).Nodup :=
  live_nodup (run ops) (inv_run ops)

/-! ### C3: the signal bounds -/

/-- C3. After any sequence of upserts applied to the empty database, every live record
satisfies `rssi_min ≤ rssi ≤ rssi_max`. -/
theorem c3_rssi_bounds (obs : List (Nat × wifi_ap_record_t)) (ap : ap_info_t)
    (h : ap ∈ live (upsert_all obs g_init)) :
    ap.rssi_min ≤ ap.rssi ∧ ap.rssi ≤ ap.rssi_max := by
  have hI := inv_upsert_all obs g_init inv_init
  obtain ⟨i, _, rfl, hu⟩ := (mem_live _ _).mp h
  have hok := hI.ok i (in_use_lt_count _ hI i hu)
  exact ⟨hok.1, hok.2.1⟩

/-! ### C1: ring eviction -/

theorem upsert_all_take_succ (obs : List (Nat × wifi_ap_record_t)) (k : Nat)
    (o : Nat × wifi_ap_record_t) (h : obs[k]? = some o) (db : DB) :
    upsert_all (obs.take (k + 1)) db =
      upsert_record o.1 (upsert_all (obs.take k) db) o.2 := by
  rw [List.take_succ, h]
  simp [upsert_all, List.foldl_append]

theorem nodup_bssid_ne (obs : List (Nat × wifi_ap_record_t))
    (hnd : (obs.map (fun o => o.2.bssid)).Nodup) (i j : Nat) (hij : i ≠ j)
    (a b : Nat × wifi_ap_record_t) (ha : obs[i]? = some a) (hb : obs[j]? = some b) :
    a.2.bssid ≠ b.2.bssid := by
  intro he
  have hi : i < obs.length := by
    by_contra hc
    rw [List.getElem?_eq_none (Nat.le_of_not_lt hc)] at ha
    exact absurd ha (by simp)
  have hj : j < obs.length := by
    by_contra hc
    rw [List.getElem?_eq_none (Nat.le_of_not_lt hc)] at hb
    exact absurd hb (by simp)
  have hmi : (obs.map (fun o => o.2.bssid))[i]? = some a.2.bssid := by
    rw [List.getElem?_map, ha]; rfl
  have hmj : (obs.map (fun o => o.2.bssid))[j]? = some b.2.bssid := by
    rw [List.getElem?_map, hb]; rfl
  rw [List.nodup_iff_getElem?_ne_getElem?] at hnd
  rcases Nat.lt_or_gt_of_ne hij with hlt | hgt
  · apply hnd i j hlt (by simpa using hj)
    rw [hmi, hmj, he]
  · apply hnd j i hgt (by simpa using hi)
    rw [hmi, hmj, he]

theorem fill (obs : List (Nat × wifi_ap_record_t))
    (hnd : (obs.map (fun o => o.2.bssid)).Nodup) (k : Nat)
    (hk : k ≤ MAX_APS) (hk2 : k ≤ obs.length) :
    Inv (upsert_all (obs.take k) g_init) ∧
    (upsert_all (obs.take k) g_init).g_ap_count = k ∧
    (upsert_all (obs.take k) g_init).g_ap_insert_index = k ∧
    ∀ i o, i < k → obs[i]? = some o →
      slot (upsert_all (obs.take k) g_init) i = ap_created o.1 o.2 := by
  induction k with
  | zero =>
    refine ⟨inv_init, rfl, rfl, ?_⟩
    intro i o hi; omega
  | succ k ih =>
    obtain ⟨hI, hc, hii, hs⟩ := ih (by omega) (by omega)
    have hkl : k < obs.length := by omega
    have hok : obs[k]? = some obs[k] := List.getElem?_eq_getElem hkl
    rw [upsert_all_take_succ obs k obs[k] hok]
    generalize upsert_all (obs.take k) g_init = db at hI hc hii hs
    have hmiss : find_ap_by_bssid db obs[k].2.bssid < 0 := by
      rw [find_neg_iff]
      intro i hi hcon
      rw [hc] at hi
      have hil : i < obs.length := by omega
      have hoi : obs[i]? = some obs[i] := List.getElem?_eq_getElem hil
      have : (slot db i).bssid = obs[i].2.bssid := by rw [hs i obs[i] hi hoi]; rfl
      exact nodup_bssid_ne obs hnd i k (by omega) _ _ hoi hok (this.symm.trans hcon.2)
    have hI2 := inv_upsert obs[k].1 db obs[k].2 hI
    rw [upsert_record_miss _ db _ hmiss] at hI2 ⊢
    simp only [MAX_APS] at hk hI2 ⊢
    have hklt : k < 512 := by omega
    have hmod : k % 512 = k := Nat.mod_eq_of_lt hklt
    have hmod2 : (k + 1) % 2 ^ 32 = k + 1 := Nat.mod_eq_of_lt (by omega)
    rw [hc, hii, hmod, hmod2, if_pos hklt, if_neg (by omega)] at hI2 ⊢
    refine ⟨hI2, rfl, rfl, ?_⟩
    intro i o hi hio
    have hlen : k < db.g_aps.length := by rw [hI.len]; simp only [MAX_APS]; omega
    rw [slot_set db k i _ _ _ hlen]
    by_cases e : i = k
    · rw [if_pos e]
      subst e
      rw [hok] at hio
      cases hio
      rfl
    · rw [if_neg e]
      exact hs i o (by omega) hio

theorem live_length_full (db : DB) (hI : Inv db) (hc : db.g_ap_count = MAX_APS) :
    (live db).length = MAX_APS := by
  have : live db = db.g_aps := by
    unfold live
    rw [List.filter_eq_self]
    intro a ha
    obtain ⟨i, hi, rfl⟩ := List.mem_iff_getElem.mp ha
    rw [slot_eq_getElem db i hi]
    exact hI.used i (by rw [hc, ← hI.len]; exact hi)
  rw [this, hI.len]

/-- C1. Starting from the empty database, upserting `MAX_APS + 1 = 513` observations with
pairwise different hardware addresses leaves exactly `MAX_APS` live records; the lookup
of the address inserted first returns `-1`, and the lookup of each of the other 512
addresses returns a slot in use that holds it. -/
theorem c1_ring_eviction (obs : List (Nat × wifi_ap_record_t))
    (hlen : obs.length = MAX_APS + 1)
    (hnd : (obs.map (fun o => o.2.bssid)).Nodup) :
    (live (upsert_all obs g_init)).length = MAX_APS ∧
    (upsert_all obs g_init).g_ap_count = MAX_APS ∧
    (∀ o, obs.head? = some o → find_ap_by_bssid (upsert_all obs g_init) o.2.bssid = -1) ∧
    (∀ o, o ∈ obs.tail → ∃ i : Nat, i < MAX_APS ∧
      find_ap_by_bssid (upsert_all obs g_init) o.2.bssid = (i : Int) ∧
      (slot (upsert_all obs g_init) i).in_use = true ∧
      (slot (upsert_all obs g_init) i).bssid = o.2.bssid) := by
  simp only [MAX_APS] at hlen
  obtain ⟨hI, hc, hii, hs0⟩ := fill obs hnd 512 (by simp [MAX_APS]) (by omega)
  have hs : ∀ i o, i < 512 → obs[i]? = some o →
      (slot (upsert_all (obs.take 512) g_init) i).bssid = o.2.bssid := by
    intro i o hi ho
    rw [hs0 i o hi ho]; rfl
  clear hs0
  have hI2 := inv_upsert_all obs g_init inv_init
  have hlast : obs[512]? = some obs[512] := List.getElem?_eq_getElem (by omega)
  have hfirst : obs[0]? = some obs[0] := List.getElem?_eq_getElem (by omega)
  have hall : upsert_all obs g_init =
      upsert_record obs[512].1 (upsert_all (obs.take 512) g_init) obs[512].2 := by
    rw [← upsert_all_take_succ obs 512 obs[512] hlast, List.take_of_length_le (by omega)]
  rw [hall] at hI2 ⊢
  generalize upsert_all (obs.take 512) g_init = db at hI hc hii hs hI2
  have hmiss : find_ap_by_bssid db obs[512].2.bssid < 0 := by
    rw [find_neg_iff]
    intro i hi hcon
    rw [hc] at hi
    have hoi : obs[i]? = some obs[i] := List.getElem?_eq_getElem (by omega)
    have := hs i obs[i] hi hoi
    exact nodup_bssid_ne obs hnd i 512 (by omega) _ _ hoi hlast (this.symm.trans hcon.2)
  rw [upsert_record_miss _ db _ hmiss] at hI2 ⊢
  simp only [MAX_APS] at hI2 ⊢
  have hmod : 512 % 512 = 0 := by decide
  have e1 : (if (512 : Nat) < 512 then 512 + 1 else 512) = 512 := by decide
  have e2 : (if (0 : Nat) ≥ 512 then 0 + 1 else 512) = 512 := by decide
  rw [hc, hii, hmod, e1, e2] at hI2 ⊢
  have hlen0 : 0 < db.g_aps.length := by rw [hI.len]; simp [MAX_APS]
  have hslot := fun i => slot_set db 0 i 512 ((512 + 1) % 2 ^ 32)
    (ap_created obs[512].1 obs[512].2) hlen0
  obtain ⟨dbf, hdbf⟩ : ∃ d : DB, d = DB.mk
      (db.g_aps.set 0 (ap_created obs[512].1 obs[512].2)) 512 ((512 + 1) % 2 ^ 32) :=
    ⟨_, rfl⟩
  have hcf : dbf.g_ap_count = 512 := by rw [hdbf]
  rw [← hdbf] at hI2 hslot ⊢
  refine ⟨live_length_full _ hI2 hcf, rfl, ?_, ?_⟩
  · intro o ho
    rw [List.head?_eq_getElem?, hfirst] at ho
    cases ho
    apply find_eq_neg_one
    rw [find_neg_iff]
    intro i hi hcon
    rw [hcf] at hi
    rw [hslot] at hcon
    by_cases e : i = 0
    · rw [if_pos e] at hcon
      exact nodup_bssid_ne obs hnd 512 0 (by omega) _ _ hlast hfirst hcon.2
    · rw [if_neg e] at hcon
      have hoi : obs[i]? = some obs[i] := List.getElem?_eq_getElem (by omega)
      have := hs i obs[i] hi hoi
      exact nodup_bssid_ne obs hnd i 0 e _ _ hoi hfirst (this.symm.trans hcon.2)
  · intro o ho
    obtain ⟨n, hn⟩ := List.mem_iff_getElem?.mp ho
    rw [List.getElem?_tail] at hn
    have hnl : n + 1 < obs.length := by
      by_contra hcn
      rw [List.getElem?_eq_none (Nat.le_of_not_lt hcn)] at hn
      exact absurd hn (by simp)
    by_cases e : n + 1 = 512
    · refine ⟨0, by omega, ?_⟩
      have hb : (slot dbf 0).bssid = o.2.bssid := by
        rw [hslot 0, if_pos rfl]
        rw [e, hlast] at hn
        cases hn
        rfl
      have h0 : 0 < dbf.g_ap_count := by rw [hcf]; omega
      exact ⟨find_eq_of_slot _ hI2 _ 0 h0 hb, hI2.used 0 h0, hb⟩
    · have hlt : n + 1 < 512 := by omega
      refine ⟨n + 1, hlt, ?_⟩
      have hb : (slot dbf (n + 1)).bssid = o.2.bssid := by
        rw [hslot (n + 1), if_neg (by omega)]
        exact hs (n + 1) o hlt hn
      have h0 : n + 1 < dbf.g_ap_count := by rw [hcf]; omega
      exact ⟨find_eq_of_slot _ hI2 _ (n + 1) h0 hb, hI2.used (n + 1) h0, hb⟩

theorem c1_obs_nodup : (c1_obs.map (fun o => o.2.bssid)).Nodup := by
  have h : c1_obs.map (fun o => o.2.bssid) =
      (List.range 513).map (fun n => (⟨2, 0, 0, 0, n / 256, n % 256⟩ : Mac)) := by
    simp only [c1_obs, List.map_map]
    rfl
  rw [h]
  apply List.Nodup.map _ (List.nodup_range 513)
  intro a b hab
  simp only [Mac.mk.injEq, true_and] at hab
  omega

/-- Witness of C1 on 513 concrete observations. -/
theorem c1_ring_eviction_witness :
    c1_obs.length = MAX_APS + 1 ∧ (c1_obs.map (fun o => o.2.bssid)).Nodup ∧
    (live (upsert_all c1_obs g_init)).length = MAX_APS ∧
    (∀ o, c1_obs.head? = some o →
      find_ap_by_bssid (upsert_all c1_obs g_init) o.2.bssid = -1) :=
  ⟨by simp [c1_obs, MAX_APS], c1_obs_nodup,
   (c1_ring_eviction c1_obs (by simp [c1_obs, MAX_APS]) c1_obs_nodup).1,
   (c1_ring_eviction c1_obs (by simp [c1_obs, MAX_APS]) c1_obs_nodup).2.2.1⟩

set_option maxRecDepth 100000 in
/-- Witness of C3: one access point seen three times at -60, -45 and -70 dBm. -/
theorem c3_rssi_bounds_witness :
    slot (upsert_all c3_obs g_init) 0 ∈ live (upsert_all c3_obs g_init) ∧
    (slot (upsert_all c3_obs g_init) 0).rssi_min ≤ (slot (upsert_all c3_obs g_init) 0).rssi ∧
    (slot (upsert_all c3_obs g_init) 0).rssi ≤ (slot (upsert_all c3_obs g_init) 0).rssi_max :=
  ⟨by decide, c3_rssi_bounds c3_obs _ (by decide)⟩

/-! ### C4: the second of two identical upserts -/

theorem upsert_slot (now : Nat) (db : DB) (r : wifi_ap_record_t) (hI : Inv db) :
    ∃ idx : Nat, idx < (upsert_record now db r).g_ap_count ∧
      (slot (upsert_record now db r) idx).bssid = r.bssid ∧
      (slot (upsert_record now db r) idx).rssi = r.rssi := by
  have hI2 := inv_upsert now db r hI
  by_cases h : find_ap_by_bssid db r.bssid < 0
  · have hlen : db.g_ap_insert_index % MAX_APS < db.g_aps.length := by
      rw [hI.len]; exact Nat.mod_lt _ (by decide)
    rw [upsert_record_miss now db r h] at hI2 ⊢
    refine ⟨db.g_ap_insert_index % MAX_APS, ?_, ?_, ?_⟩
    · apply in_use_lt_count _ hI2
      rw [slot_set db _ _ _ _ _ hlen, if_pos rfl]
      rfl
    · rw [slot_set db _ _ _ _ _ hlen, if_pos rfl]
      rfl
    · rw [slot_set db _ _ _ _ _ hlen, if_pos rfl]
      rfl
  · obtain ⟨i, hfi, hi, hu, hb⟩ := find_nonneg db r.bssid h
    have hlen : i < db.g_aps.length := by
      rw [hI.len]; exact Nat.lt_of_lt_of_le hi hI.count_le
    rw [upsert_record_hit now db r i hfi] at hI2 ⊢
    refine ⟨i, ?_, ?_, ?_⟩
    · apply in_use_lt_count _ hI2
      rw [slot_set db _ _ _ _ _ hlen, if_pos rfl, ap_merged_in_use]
      exact hu
    · rw [slot_set db _ _ _ _ _ hlen, if_pos rfl, ap_merged_bssid]
      exact hb
    · rw [slot_set db _ _ _ _ _ hlen, if_pos rfl, ap_merged_rssi]

theorem second_upsert (now1 now2 : Nat) (db : DB) (r : wifi_ap_record_t) (hI : Inv db) :
    ∃ i : Nat, i < MAX_APS ∧
      find_ap_by_bssid (upsert_record now1 db r) r.bssid = (i : Int) ∧
      find_ap_by_bssid (upsert_record now2 (upsert_record now1 db r) r) r.bssid = (i : Int) ∧
      slot (upsert_record now2 (upsert_record now1 db r) r) i =
        ap_merged now2 r (slot (upsert_record now1 db r) i) ∧
      (slot (upsert_record now1 db r) i).rssi_min ≤ r.rssi ∧
      r.rssi ≤ (slot (upsert_record now1 db r) i).rssi_max := by
  have hI1 := inv_upsert now1 db r hI
  obtain ⟨i, hi, hb, hr⟩ := upsert_slot now1 db r hI
  generalize upsert_record now1 db r = db1 at hI1 hi hb hr ⊢
  have hf1 := find_eq_of_slot db1 hI1 r.bssid i hi hb
  have hI2 := inv_upsert now2 db1 r hI1
  have hlen : i < db1.g_aps.length := by
    rw [hI1.len]; exact Nat.lt_of_lt_of_le hi hI1.count_le
  have hs2 : slot (upsert_record now2 db1 r) i = ap_merged now2 r (slot db1 i) := by
    rw [upsert_record_hit now2 db1 r i hf1, slot_set db1 _ _ _ _ _ hlen, if_pos rfl]
  have hi2 : i < (upsert_record now2 db1 r).g_ap_count := by
    apply in_use_lt_count _ hI2
    rw [hs2, ap_merged_in_use]
    exact hI1.used i hi
  have hb2 : (slot (upsert_record now2 db1 r) i).bssid = r.bssid := by
    rw [hs2, ap_merged_bssid]; exact hb
  have hok := hI1.ok i hi
  refine ⟨i, Nat.lt_of_lt_of_le hi hI1.count_le, hf1,
    find_eq_of_slot _ hI2 r.bssid i hi2 hb2, hs2, ?_, ?_⟩
  · rw [← hr]; exact hok.1
  · rw [← hr]; exact hok.2.1

/-- C4 (amended). In every reachable database state, upserting an observation and then
upserting it again with identical attributes hits the same slot both times; the second
upsert leaves `rssi_min` and `rssi_max` unchanged and increases `seen_count` by exactly
one unless the count has already reached `0xFFFF`, where it stays. -/
theorem c4_second_upsert (ops : List Op) (now1 now2 : Nat) (r : wifi_ap_record_t) :
    ∃ i : Nat, i < MAX_APS ∧
      find_ap_by_bssid (upsert_record now1 (run ops) r) r.bssid = (i : Int) ∧
      find_ap_by_bssid (upsert_record now2 (upsert_record now1 (run ops) r) r) r.bssid
        = (i : Int) ∧
      (slot (upsert_record now2 (upsert_record now1 (run ops) r) r) i).seen_count =
        (if (slot (upsert_record now1 (run ops) r) i).seen_count < 0xFFFF
         then (slot (upsert_record now1 (run ops) r) i).seen_count + 1
         else (slot (upsert_record now1 (run ops) r) i).seen_count) ∧
      (slot (upsert_record now2 (upsert_record now1 (run ops) r) r) i).rssi_min =
        (slot (upsert_record now1 (run ops) r) i).rssi_min ∧
      (slot (upsert_record now2 (upsert_record now1 (run ops) r) r) i).rssi_max =
        (slot (upsert_record now1 (run ops) r) i).rssi_max := by
  obtain ⟨i, hi, hf1, hf2, hs, hmin, hmax⟩ := second_upsert now1 now2 (run ops) r (inv_run ops)
  refine ⟨i, hi, hf1, hf2, ?_, ?_, ?_⟩
  · rw [hs, ap_merged_seen_count]
  · rw [hs, ap_merged_rssi_min]; omega
  · rw [hs, ap_merged_rssi_max]; omega

theorem upsert_all_replicate_succ (n : Nat) (o : Nat × wifi_ap_record_t) (db : DB) :
    upsert_all (List.replicate (n + 1) o) db =
      upsert_record o.1 (upsert_all (List.replicate n o) db) o.2 := by
  rw [List.replicate_succ', upsert_all, List.foldl_append]
  rfl

theorem repeated_sightings (now : Nat) (r : wifi_ap_record_t) (n : Nat) :
    Inv (upsert_all (List.replicate (n + 1) (now, r)) g_init) ∧
    0 < (upsert_all (List.replicate (n + 1) (now, r)) g_init).g_ap_count ∧
    (slot (upsert_all (List.replicate (n + 1) (now, r)) g_init) 0).bssid = r.bssid ∧
    (slot (upsert_all (List.replicate (n + 1) (now, r)) g_init) 0).seen_count
      = min (n + 1) 0xFFFF := by
  induction n with
  | zero =>
    have hm : find_ap_by_bssid g_init r.bssid < 0 := by
      rw [find_neg_iff]; intro i hi; simp [g_init] at hi
    have hu : upsert_all (List.replicate (0 + 1) (now, r)) g_init
        = upsert_record now g_init r := rfl
    rw [hu]
    have hI := inv_upsert now g_init r inv_init
    rw [upsert_record_miss now g_init r hm] at hI ⊢
    have hl : g_init.g_ap_insert_index % MAX_APS < g_init.g_aps.length := by
      rw [inv_init.len]; exact Nat.mod_lt _ (by decide)
    have h0 : (0 : Nat) = g_init.g_ap_insert_index % MAX_APS := rfl
    refine ⟨hI, ?_, ?_, ?_⟩
    · show 0 < (if g_init.g_ap_insert_index % MAX_APS ≥
          (if g_init.g_ap_count < MAX_APS then g_init.g_ap_count + 1 else g_init.g_ap_count)
        then g_init.g_ap_insert_index % MAX_APS + 1
        else (if g_init.g_ap_count < MAX_APS then g_init.g_ap_count + 1
              else g_init.g_ap_count))
      decide
    · rw [slot_set g_init _ _ _ _ _ hl, if_pos h0]; rfl
    · rw [slot_set g_init _ _ _ _ _ hl, if_pos h0]; rfl
  | succ n ih =>
    obtain ⟨hI, hc, hb, hs⟩ := ih
    rw [upsert_all_replicate_succ (n + 1) (now, r) g_init]
    generalize upsert_all (List.replicate (n + 1) (now, r)) g_init = db at hI hc hb hs
    have hf := find_eq_of_slot db hI r.bssid 0 hc hb
    have hI2 := inv_upsert now db r hI
    have hlen : 0 < db.g_aps.length := by rw [hI.len]; simp [MAX_APS]
    have hs2 : slot (upsert_record now db r) 0 = ap_merged now r (slot db 0) := by
      rw [upsert_record_hit now db r 0 hf, slot_set db _ _ _ _ _ hlen, if_pos rfl]
    refine ⟨hI2, ?_, ?_, ?_⟩
    · apply in_use_lt_count _ hI2
      rw [hs2, ap_merged_in_use]
      exact hI.used 0 hc
    · rw [hs2, ap_merged_bssid]; exact hb
    · rw [hs2, ap_merged_seen_count, hs]
      split <;> omega

/-- C4 fails as stated: after 65535 sightings of one access point its `seen_count` is
`0xFFFF`; two further identical upserts both hit slot 0, and the second one leaves
`seen_count` at 65535 instead of making it one larger. -/
theorem c4_counterexample :
    find_ap_by_bssid (upsert_record 0 c4_db c4_r) c4_r.bssid = 0 ∧
    find_ap_by_bssid (upsert_record 0 (upsert_record 0 c4_db c4_r) c4_r) c4_r.bssid = 0 ∧
    (slot (upsert_record 0 c4_db c4_r) 0).seen_count = 65535 ∧
    (slot (upsert_record 0 (upsert_record 0 c4_db c4_r) c4_r) 0).seen_count = 65535 ∧
    (slot (upsert_record 0 (upsert_record 0 c4_db c4_r) c4_r) 0).seen_count ≠
      (slot (upsert_record 0 c4_db c4_r) 0).seen_count + 1 := by
  have e1 : upsert_record 0 c4_db c4_r =
      upsert_all (List.replicate (65535 + 1) (0, c4_r)) g_init :=
    (upsert_all_replicate_succ 65535 (0, c4_r) g_init).symm
  have e2 : upsert_record 0 (upsert_record 0 c4_db c4_r) c4_r =
      upsert_all (List.replicate (65536 + 1) (0, c4_r)) g_init := by
    rw [e1]
    exact (upsert_all_replicate_succ 65536 (0, c4_r) g_init).symm
  obtain ⟨hI1, hc1, hb1, hs1⟩ := repeated_sightings 0 c4_r 65535
  obtain ⟨hI2, hc2, hb2, hs2⟩ := repeated_sightings 0 c4_r 65536
  rw [e2, e1]
  refine ⟨find_eq_of_slot _ hI1 _ 0 hc1 hb1, find_eq_of_slot _ hI2 _ 0 hc2 hb2, ?_, ?_, ?_⟩
  · rw [hs1]; decide
  · rw [hs2]; decide
  · rw [hs1, hs2]; decide

/-! ### C5: the classifier -/

theorem icase_match_len_eq_iff (p needle : List Nat) :
    icase_match_len p needle = needle.length ↔ needle.map tolower <+: p.map tolower := by
  induction needle generalizing p with
  | nil =>
    cases p <;> simp [icase_match_len]
  | cons n ns ih =>
    cases p with
    | nil => simp [icase_match_len]
    | cons c p =>
      simp only [icase_match_len, List.map_cons, List.length_cons, List.cons_prefix_cons]
      by_cases h : tolower c = tolower n
      · rw [if_pos h]
        constructor
        · intro hl
          exact ⟨h.symm, (ih p).mp (by omega)⟩
        · intro hp
          have := (ih p).mpr hp.2
          omega
      · rw [if_neg h]
        constructor
        · intro hl; omega
        · intro hp; exact absurd hp.1.symm h

theorem contains_icase_from_iff (needle hay : List Nat) (hne : needle ≠ []) :
    contains_icase_from needle hay = true ↔ needle.map tolower <:+: hay.map tolower := by
  induction hay with
  | nil =>
    simp only [contains_icase_from, List.map_nil, List.infix_nil, List.map_eq_nil_iff]
    constructor
    · intro h; exact absurd h (by decide)
    · intro h; exact absurd h hne
  | cons c rest ih =>
    rw [contains_icase_from, List.map_cons, List.infix_cons_iff, ← List.map_cons,
      ← icase_match_len_eq_iff, ← ih]
    by_cases h : icase_match_len (c :: rest) needle = needle.length
    · simp [h]
    · simp [h]

theorem contains_icase_eq_spec (hay needle : List Nat) (hne : needle ≠ []) :
    contains_icase hay needle = spec_contains hay needle := by
  have h := contains_icase_from_iff needle hay hne
  unfold contains_icase spec_contains
  rw [if_neg hne]
  by_cases hc : contains_icase_from needle hay = true
  · rw [hc, eq_comm, decide_eq_true_eq]; exact h.mp hc
  · have hn : ¬ (needle.map tolower <:+: hay.map tolower) := fun hi => hc (h.mpr hi)
    rw [Bool.not_eq_true] at hc
    rw [hc, eq_comm, decide_eq_false_iff_not]; exact hn

/-- C5. `classify_ap` returns the label of the first matching rule of the spec's chain
(Guest, Enterprise, Hotspot, IoT, SuspiciousOpen, else Home) under case-insensitive
substring matching on the name; and every record named "Corp Guest Network" with WPA2
auth classifies as Guest. -/
theorem c5_classify_rule_chain (ap : ap_info_t) :
    classify_ap ap = spec_classify ap ∧
    classify_ap { ap with ssid := cstr "Corp Guest Network",
                          authmode := WIFI_AUTH_WPA2_PSK } = AP_CLASS_GUEST := by
  constructor
  · simp only [classify_ap, spec_classify, List.any_cons, List.any_nil, Bool.or_false,
      contains_icase_eq_spec _ _ (by decide : cstr "guest" ≠ []),
      contains_icase_eq_spec _ _ (by decide : cstr "visitor" ≠ []),
      contains_icase_eq_spec _ _ (by decide : cstr "corp" ≠ []),
      contains_icase_eq_spec _ _ (by decide : cstr "enterprise" ≠ []),
      contains_icase_eq_spec _ _ (by decide : cstr "iphone" ≠ []),
      contains_icase_eq_spec _ _ (by decide : cstr "androidap" ≠ []),
      contains_icase_eq_spec _ _ (by decide : cstr "galaxy" ≠ []),
      contains_icase_eq_spec _ _ (by decide : cstr "hotspot" ≠ []),
      contains_icase_eq_spec _ _ (by decide : cstr "ESP" ≠ []),
      contains_icase_eq_spec _ _ (by decide : cstr "IoT" ≠ []),
      contains_icase_eq_spec _ _ (by decide : cstr "Cam" ≠ []),
      contains_icase_eq_spec _ _ (by decide : cstr "Ring" ≠ []),
      contains_icase_eq_spec _ _ (by decide : cstr "Blink" ≠ []),
      contains_icase_eq_spec _ _ (by decide : cstr "Wyze" ≠ []),
      contains_icase_eq_spec _ _ (by decide : cstr "free wifi" ≠ []),
      contains_icase_eq_spec _ _ (by decide : cstr "public" ≠ []),
      contains_icase_eq_spec _ _ (by decide : cstr "airport" ≠ []),
      contains_icase_eq_spec _ _ (by decide : cstr "hotel" ≠ []),
      Bool.or_eq_true, Bool.and_eq_true, decide_eq_true_eq, or_assoc, and_assoc]
  · have h : contains_icase (cstr "Corp Guest Network") (cstr "guest") = true := by decide
    simp only [classify_ap, h, Bool.true_or, if_true]

/-! ### C6: three access points named "FreeWifi" -/

theorem classify_FreeWifi (ap : ap_info_t) (hs : ap.ssid = cstr "FreeWifi")
    (ha : ap.authmode = WIFI_AUTH_OPEN) : classify_ap ap = AP_CLASS_HOME := by
  have e1 : contains_icase (cstr "FreeWifi") (cstr "guest") = false := by decide
  have e2 : contains_icase (cstr "FreeWifi") (cstr "visitor") = false := by decide
  have e3 : contains_icase (cstr "FreeWifi") (cstr "corp") = false := by decide
  have e4 : contains_icase (cstr "FreeWifi") (cstr "enterprise") = false := by decide
  have e5 : contains_icase (cstr "FreeWifi") (cstr "iphone") = false := by decide
  have e6 : contains_icase (cstr "FreeWifi") (cstr "androidap") = false := by decide
  have e7 : contains_icase (cstr "FreeWifi") (cstr "galaxy") = false := by decide
  have e8 : contains_icase (cstr "FreeWifi") (cstr "hotspot") = false := by decide
  have e9 : [cstr "ESP", cstr "IoT", cstr "Cam", cstr "Ring", cstr "Blink", cstr "Wyze"].any
      (fun tok => contains_icase (cstr "FreeWifi") tok) = false := by decide
  have e10 : contains_icase (cstr "FreeWifi") (cstr "free wifi") = false := by decide
  have e11 : contains_icase (cstr "FreeWifi") (cstr "public") = false := by decide
  have e12 : contains_icase (cstr "FreeWifi") (cstr "airport") = false := by decide
  have e13 : contains_icase (cstr "FreeWifi") (cstr "hotel") = false := by decide
  have e14 : ¬ (WIFI_AUTH_OPEN = WIFI_AUTH_WPA3_PSK) := by decide
  simp [classify_ap, hs, ha, e1, e2, e3, e4, e5, e6, e7, e8, e9, e10, e11, e12, e13, e14]

theorem classify_Free_Wifi (ap : ap_info_t) (hs : ap.ssid = cstr "Free Wifi")
    (ha : ap.authmode = WIFI_AUTH_OPEN) (hr : ap.rssi > -40) :
    classify_ap ap = AP_CLASS_SUSPECT := by
  have e1 : contains_icase (cstr "Free Wifi") (cstr "guest") = false := by decide
  have e2 : contains_icase (cstr "Free Wifi") (cstr "visitor") = false := by decide
  have e3 : contains_icase (cstr "Free Wifi") (cstr "corp") = false := by decide
  have e4 : contains_icase (cstr "Free Wifi") (cstr "enterprise") = false := by decide
  have e5 : contains_icase (cstr "Free Wifi") (cstr "iphone") = false := by decide
  have e6 : contains_icase (cstr "Free Wifi") (cstr "androidap") = false := by decide
  have e7 : contains_icase (cstr "Free Wifi") (cstr "galaxy") = false := by decide
  have e8 : contains_icase (cstr "Free Wifi") (cstr "hotspot") = false := by decide
  have e9 : [cstr "ESP", cstr "IoT", cstr "Cam", cstr "Ring", cstr "Blink", cstr "Wyze"].any
      (fun tok => contains_icase (cstr "Free Wifi") tok) = false := by decide
  have e10 : contains_icase (cstr "Free Wifi") (cstr "free wifi") = true := by decide
  have e14 : ¬ (WIFI_AUTH_OPEN = WIFI_AUTH_WPA3_PSK) := by decide
  simp [classify_ap, hs, ha, e1, e2, e3, e4, e5, e6, e7, e8, e9, e10, e14, hr]

/-- C6 (amended). After a clear and the scan merge of three access points with pairwise
different addresses that share the display name "FreeWifi", the record of one that is
Open with a signal above -40 dBm is stored with classification Home ("FreeWifi" contains
none of "free wifi", "public", "airport", "hotel"); when the shared display name is
"Free Wifi" the stored classification is SuspiciousOpen. -/
theorem c6_shared_name (db0 : DB) (now : Nat) (r1 r2 r3 r : wifi_ap_record_t)
    (nm : List Nat) (hnm : nm = cstr "FreeWifi" ∨ nm = cstr "Free Wifi")
    (h1 : sanitize_ssid r1.ssid 33 = nm) (h2 : sanitize_ssid r2.ssid 33 = nm)
    (h3 : sanitize_ssid r3.ssid 33 = nm)
    (h12 : r1.bssid ≠ r2.bssid) (h13 : r1.bssid ≠ r3.bssid) (h23 : r2.bssid ≠ r3.bssid)
    (hr : r ∈ [r1, r2, r3]) (hopen : r.authmode = WIFI_AUTH_OPEN) (hstrong : r.rssi > -40) :
    ∃ i : Nat, i < 3 ∧
      find_ap_by_bssid
        (update_ap_list_from_scan true now [r1, r2, r3] (handler_api_clear true db0))
        r.bssid = (i : Int) ∧
      (slot (update_ap_list_from_scan true now [r1, r2, r3] (handler_api_clear true db0))
        i).bssid = r.bssid ∧
      (slot (update_ap_list_from_scan true now [r1, r2, r3] (handler_api_clear true db0))
        i).ssid = nm ∧
      (slot (update_ap_list_from_scan true now [r1, r2, r3] (handler_api_clear true db0))
        i).classification =
        (if nm = cstr "Free Wifi" then AP_CLASS_SUSPECT else AP_CLASS_HOME) := by
  have hdb : update_ap_list_from_scan true now [r1, r2, r3] (handler_api_clear true db0) =
      upsert_all (List.take 3 [(now, r1), (now, r2), (now, r3)]) g_init := rfl
  have hnd : (List.map (fun o : Nat × wifi_ap_record_t => o.2.bssid)
      [(now, r1), (now, r2), (now, r3)]).Nodup := by
    simp only [List.map_cons, List.map_nil, List.nodup_cons, List.mem_cons,
      List.mem_singleton, List.not_mem_nil, not_or, not_false_eq_true, List.nodup_nil,
      and_true]
    exact ⟨⟨h12, h13⟩, h23⟩
  obtain ⟨hI, hc, _, hs⟩ := fill [(now, r1), (now, r2), (now, r3)] hnd 3
    (by simp [MAX_APS]) (by simp)
  rw [hdb]
  generalize upsert_all (List.take 3 [(now, r1), (now, r2), (now, r3)]) g_init = db
    at hI hc hs
  have key : ∀ (i : Nat) (x : wifi_ap_record_t), i < 3 →
      [(now, r1), (now, r2), (now, r3)][i]? = some (now, x) → r = x →
      sanitize_ssid x.ssid 33 = nm →
      ∃ i : Nat, i < 3 ∧ find_ap_by_bssid db r.bssid = (i : Int) ∧
        (slot db i).bssid = r.bssid ∧ (slot db i).ssid = nm ∧
        (slot db i).classification =
          (if nm = cstr "Free Wifi" then AP_CLASS_SUSPECT else AP_CLASS_HOME) := by
    intro i x hi hx hrx hsx
    subst hrx
    have hsl := hs i (now, r) hi hx
    have hb : (slot db i).bssid = r.bssid := by rw [hsl]; rfl
    have hss : (slot db i).ssid = nm := by rw [hsl]; exact hsx
    refine ⟨i, hi, find_eq_of_slot db hI r.bssid i (by omega) hb, hb, hss, ?_⟩
    have hcl := (hI.ok i (by omega)).2.2.1
    have hau : (slot db i).authmode = WIFI_AUTH_OPEN := by
      rw [hsl]
      show r.authmode % 256 = WIFI_AUTH_OPEN
      rw [hopen]; rfl
    have hrs : (slot db i).rssi > -40 := by rw [hsl]; exact hstrong
    rw [hcl]
    rcases hnm with e | e
    · rw [if_neg (by rw [e]; decide)]
      exact classify_FreeWifi _ (by rw [hss, e]) hau
    · rw [if_pos e]
      exact classify_Free_Wifi _ (by rw [hss, e]) hau hrs
  simp only [List.mem_cons, List.mem_singleton, List.not_mem_nil, or_false] at hr
  rcases hr with e | e | e
  · exact key 0 r1 (by omega) rfl e h1
  · exact key 1 r2 (by omega) rfl e h2
  · exact key 2 r3 (by omega) rfl e h3

set_option maxRecDepth 100000 in
/-- C6 fails as stated: after a clear and the scan merge of three access points named
"FreeWifi", the Open one at -30 dBm sits in slot 1 with classification Home, not
SuspiciousOpen. -/
theorem c6_counterexample :
    find_ap_by_bssid c6_db ⟨2, 0, 0, 0, 0, 2⟩ = 1 ∧
    (slot c6_db 1).ssid = cstr "FreeWifi" ∧
    (slot c6_db 1).authmode = WIFI_AUTH_OPEN ∧
    (slot c6_db 1).rssi = -30 ∧
    (slot c6_db 1).classification = AP_CLASS_HOME ∧
    (slot c6_db 1).classification ≠ AP_CLASS_SUSPECT := by
  decide

set_option maxRecDepth 100000 in
/-- Witness of C6 on `c6_records`, for the Open record at -30 dBm. -/
theorem c6_shared_name_witness :
    ∃ i : Nat, i < 3 ∧
      find_ap_by_bssid c6_db (sample_record 2 "FreeWifi" WIFI_AUTH_OPEN (-30)).bssid
        = (i : Int) ∧
      (slot c6_db i).bssid = (sample_record 2 "FreeWifi" WIFI_AUTH_OPEN (-30)).bssid ∧
      (slot c6_db i).ssid = cstr "FreeWifi" ∧
      (slot c6_db i).classification =
        (if cstr "FreeWifi" = cstr "Free Wifi" then AP_CLASS_SUSPECT else AP_CLASS_HOME) :=
  c6_shared_name g_init 100
    (sample_record 1 "FreeWifi" WIFI_AUTH_WPA2_PSK (-60))
    (sample_record 2 "FreeWifi" WIFI_AUTH_OPEN (-30))
    (sample_record 3 "FreeWifi" WIFI_AUTH_WPA2_PSK (-70))
    (sample_record 2 "FreeWifi" WIFI_AUTH_OPEN (-30))
    (cstr "FreeWifi") (Or.inl rfl) (by decide) (by decide) (by decide)
    (by decide) (by decide) (by decide) (by decide) (by decide) (by decide)


/-! ### C7, C8: the rogue report -/

theorem tolower_eq_zero (c : Nat) : tolower c = 0 ↔ c = 0 := by
  unfold tolower
  split <;> omega

theorem strcasecmp_eq_zero_iff (a b : List Nat)
    (ha : ∀ c, c ∈ a → c ≠ 0) (hb : ∀ c, c ∈ b → c ≠ 0) :
    strcasecmp a b = 0 ↔ a.map tolower = b.map tolower := by
  induction a generalizing b with
  | nil =>
    cases b with
    | nil => simp [strcasecmp]
    | cons y ys =>
      have hy : tolower y ≠ 0 := fun h =>
        hb y (List.mem_cons_self y ys) ((tolower_eq_zero y).mp h)
      simp only [strcasecmp, List.map_nil, List.map_cons]
      constructor
      · intro h; omega
      · intro h; exact absurd h (by simp)
  | cons x xs ih =>
    have hx : tolower x ≠ 0 := fun h =>
      ha x (List.mem_cons_self x xs) ((tolower_eq_zero x).mp h)
    cases b with
    | nil =>
      simp only [strcasecmp, List.map_nil, List.map_cons]
      constructor
      · intro h; omega
      · intro h; exact absurd h (by simp)
    | cons y ys =>
      simp only [strcasecmp, List.map_cons, List.cons.injEq]
      by_cases h : tolower x = tolower y
      · rw [if_pos h]
        rw [ih ys (fun c hc => ha c (List.mem_cons_of_mem x hc))
          (fun c hc => hb c (List.mem_cons_of_mem y hc))]
        exact ⟨fun h2 => ⟨h, h2⟩, fun h2 => h2.2⟩
      · rw [if_neg h]
        constructor
        · intro h2; omega
        · intro h2; exact absurd h2.1 h

theorem rogue_check_generic (db : DB) (i : Nat) (nm : List Nat)
    (hopen : (slot db i).authmode = WIFI_AUTH_OPEN) (hne : (slot db i).ssid ≠ [])
    (hnm : nm ∈ common_names) (heq : strcasecmp (slot db i).ssid nm = 0) :
    rogue_check db i = (true, REASON_GENERIC) := by
  have hlen : (slot db i).ssid.length > 0 := List.length_pos.mpr hne
  have hany : common_names.any (fun nm => decide (strcasecmp (slot db i).ssid nm = 0))
      = true := by
    rw [List.any_eq_true]
    exact ⟨nm, hnm, by simpa using heq⟩
  simp only [rogue_check, hopen, hlen, and_self, if_true, hany]

theorem rogue_loop_filter (db : DB) (len : Nat) (b : Mac) (idxs : List Nat)
    (st : rogue_state)
    (h : ∀ k, k ∈ idxs → (slot db k).in_use = true → (slot db k).bssid ≠ b) :
    (rogue_loop db len idxs st).out.filter (fun e => decide (e.bssid = b)) =
      st.out.filter (fun e => decide (e.bssid = b)) := by
  induction idxs generalizing st with
  | nil => rfl
  | cons k rest ih =>
    have hstep : (rogue_step db len st k).out.filter (fun e => decide (e.bssid = b)) =
        st.out.filter (fun e => decide (e.bssid = b)) := by
      unfold rogue_step
      by_cases hu : (slot db k).in_use = true
      · have hb := h k (List.mem_cons_self k rest) hu
        simp only [hu, Bool.not_true, Bool.false_eq_true, if_false]
        split
        · simp only [List.filter_append]
          have : List.filter (fun e => decide (e.bssid = b))
              [rogue_entry_of (slot db k) (rogue_check db k).2] = [] := by
            simp [rogue_entry_of, hb]
          rw [this, List.append_nil]
        · rfl
      · simp [hu]
    have := ih (rogue_step db len st k) (fun j hj => h j (List.mem_cons_of_mem k hj))
    simp only [rogue_loop, List.foldl_cons] at this ⊢
    rw [this, hstep]

theorem range_split (n i : Nat) (hi : i < n) :
    List.range n = List.range i ++ i :: List.range' (i + 1) (n - (i + 1)) := by
  have h1 : List.range' (0 + 1 * i) (n - i) = i :: List.range' (i + 1) (n - (i + 1)) := by
    have : n - i = (n - (i + 1)) + 1 := by omega
    rw [this, List.range'_succ]
    simp
  rw [List.range_eq_range', List.range_eq_range', ← h1, List.range'_append]
  congr 1
  omega

theorem rogue_filter_at (db : DB) (hI : Inv db) (len i : Nat) (hi : i < db.g_ap_count) :
    (detect_rogue_aps true db len).out.filter
        (fun e => decide (e.bssid = (slot db i).bssid)) =
      if (rogue_check db i).1 = true ∧ rogue_off_before db len i < rogue_limit len then
        [rogue_entry_of (slot db i) (rogue_check db i).2]
      else [] := by
  have hpre : ∀ k, k ∈ List.range i → (slot db k).in_use = true →
      (slot db k).bssid ≠ (slot db i).bssid := by
    intro k hk _ he
    have hk2 := List.mem_range.mp hk
    have := hI.uniq k i (by omega) hi he
    omega
  have hsuf : ∀ k, k ∈ List.range' (i + 1) (db.g_ap_count - (i + 1)) →
      (slot db k).in_use = true → (slot db k).bssid ≠ (slot db i).bssid := by
    intro k hk _ he
    have hk2 := List.mem_range'_1.mp hk
    have := hI.uniq k i (by omega) hi he
    omega
  have hout : (detect_rogue_aps true db len).out =
      (rogue_loop db len (List.range' (i + 1) (db.g_ap_count - (i + 1)))
        (rogue_step db len
          (rogue_loop db len (List.range i) { off := 1, first := true, out := [] }) i)).out := by
    simp only [detect_rogue_aps, if_true, rogue_loop]
    rw [range_split db.g_ap_count i hi, List.foldl_append, List.foldl_cons]
  rw [hout, rogue_loop_filter db len _ _ _ hsuf]
  have hp := rogue_loop_filter db len (slot db i).bssid (List.range i)
    { off := 1, first := true, out := [] } hpre
  simp only [List.filter_nil] at hp
  unfold rogue_off_before
  generalize rogue_loop db len (List.range i) { off := 1, first := true, out := [] } = st
    at hp ⊢
  unfold rogue_step
  have hu := hI.used i hi
  simp only [hu, Bool.not_true, Bool.false_eq_true, if_false, Bool.and_eq_true,
    decide_eq_true_eq]
  split
  · simp only [List.filter_append, hp, List.nil_append]
    simp [rogue_entry_of]
  · exact hp

set_option maxRecDepth 100000 in
/-- C7 fails on the code. Two live records share the name "HomeNet" at different
addresses, and the rogue report lists only the one in the lower slot; of three such
records it lists the first two and not the third. The duplicate check of slot `i` only
looks at the slots after `i`. -/
theorem c7_last_twin_not_flagged :
    (slot c7_db 0).in_use = true ∧ (slot c7_db 1).in_use = true ∧
    (slot c7_db 0).ssid = cstr "HomeNet" ∧ (slot c7_db 1).ssid = cstr "HomeNet" ∧
    (slot c7_db 0).bssid = ⟨2, 0, 0, 0, 0, 1⟩ ∧ (slot c7_db 1).bssid = ⟨2, 0, 0, 0, 0, 2⟩ ∧
    (detect_rogue_aps true c7_db 8192).out.map (fun e => e.bssid) = [⟨2, 0, 0, 0, 0, 1⟩] ∧
    (live c7_db3).map (fun ap => (ap.ssid, ap.bssid)) =
      [(cstr "HomeNet", ⟨2, 0, 0, 0, 0, 1⟩), (cstr "HomeNet", ⟨2, 0, 0, 0, 0, 2⟩),
       (cstr "HomeNet", ⟨2, 0, 0, 0, 0, 3⟩)] ∧
    (detect_rogue_aps true c7_db3 8192).out.map (fun e => e.bssid) =
      [⟨2, 0, 0, 0, 0, 1⟩, ⟨2, 0, 0, 0, 0, 2⟩] := by
  decide

theorem common_names_no_nul : ∀ nm, nm ∈ common_names → ∀ c, c ∈ nm → c ≠ 0 := by
  decide

/-- C8 (amended). In every reachable state, for a live record that shares its non-empty
name with another live record at a different address and is Open with a name equal up to
case to one of the generic names, the objects of the rogue report (buffer of 8192 bytes)
that carry its address are: exactly one, with the generic-name reason, when the write
offset on reaching its slot is below `8192 - 256`, and none otherwise. The generic-name
check runs after the duplicate-SSID check and overwrites its reason. -/
theorem c8_generic_reason (ops : List Op) (i j : Nat) (nm : List Nat)
    (hi : (slot (run ops) i).in_use = true) (_hj : (slot (run ops) j).in_use = true)
    (hname : (slot (run ops) i).ssid ≠ [])
    (_hsame : (slot (run ops) i).ssid = (slot (run ops) j).ssid)
    (_haddr : (slot (run ops) i).bssid ≠ (slot (run ops) j).bssid)
    (hopen : (slot (run ops) i).authmode = WIFI_AUTH_OPEN)
    (hnm : nm ∈ common_names)
    (hci : (slot (run ops) i).ssid.map tolower = nm.map tolower) :
    (detect_rogue_aps true (run ops) 8192).out.filter
        (fun e => decide (e.bssid = (slot (run ops) i).bssid)) =
      if rogue_off_before (run ops) 8192 i < 8192 - 256 then
        [rogue_entry_of (slot (run ops) i) REASON_GENERIC]
      else [] := by
  have hI := inv_run ops
  have hlt := in_use_lt_count _ hI i hi
  have hnz : ∀ c, c ∈ (slot (run ops) i).ssid → c ≠ 0 := by
    intro c hc
    have := (hI.ok i hlt).2.2.2.2.2.2 c hc
    omega
  have heq : strcasecmp (slot (run ops) i).ssid nm = 0 :=
    (strcasecmp_eq_zero_iff _ _ hnz (common_names_no_nul nm hnm)).mpr hci
  have hchk := rogue_check_generic (run ops) i nm hopen hname hnm heq
  have hl : rogue_limit 8192 = 8192 - 256 := by decide
  rw [rogue_filter_at (run ops) hI 8192 i hlt, hchk, hl]
  simp only [true_and]

set_option maxRecDepth 100000 in
/-- C8 fails as stated: the record in slot 0 of `c8_db` is Open, named "Guest" (one of
the generic names) and shares that name with the record in slot 1 at another address;
the rogue report lists it once, with the generic-name reason and not the duplicate-SSID
reason. -/
theorem c8_counterexample :
    (slot c8_db 0).in_use = true ∧ (slot c8_db 1).in_use = true ∧
    (slot c8_db 0).ssid = cstr "Guest" ∧ (slot c8_db 1).ssid = cstr "Guest" ∧
    (slot c8_db 0).bssid ≠ (slot c8_db 1).bssid ∧
    (slot c8_db 0).authmode = WIFI_AUTH_OPEN ∧
    cstr "Guest" ∈ common_names ∧
    (detect_rogue_aps true c8_db 8192).out =
      [{ ssid := cstr "Guest", bssid := (slot c8_db 0).bssid, reason := REASON_GENERIC,
         rssi := -50, channel := 6 }] ∧
    REASON_GENERIC ≠ REASON_DUPLICATE := by
  decide

set_option maxRecDepth 100000 in
/-- Witness of C8 on `c8_db`, slot 0, with the generic name "Guest". -/
theorem c8_generic_reason_witness :
    (detect_rogue_aps true c8_db 8192).out.filter
        (fun e => decide (e.bssid = (slot c8_db 0).bssid)) =
      if rogue_off_before c8_db 8192 0 < 8192 - 256 then
        [rogue_entry_of (slot c8_db 0) REASON_GENERIC]
      else [] :=
  c8_generic_reason
    [Op.scan true 100
      [sample_record 1 "Guest" WIFI_AUTH_OPEN (-50),
       sample_record 2 "Guest" WIFI_AUTH_WPA2_PSK (-60)]]
    0 1 (cstr "Guest") (by decide) (by decide) (by decide) (by decide) (by decide)
    (by decide) (by decide) (by decide)

/-! ### C10: the deauthentication and disassociation frames -/

theorem craft_deauth_cons
    (a0 a1 a2 a3 a4 a5 a6 a7 a8 a9 a10 a11 a12 a13 a14 a15 a16 a17 a18 a19 a20 a21 a22 a23
    a24 a25 : Nat)
    (rest : List Nat) (target bssid : Mac) :
    craft_deauth_frame
        (a0 :: a1 :: a2 :: a3 :: a4 :: a5 :: a6 :: a7 :: a8 :: a9 :: a10 :: a11 :: a12 ::
        a13 :: a14 :: a15 :: a16 :: a17 :: a18 :: a19 :: a20 :: a21 :: a22 :: a23 :: a24 ::
        a25 :: rest)
        target bssid =
      [0xC0, 0x00, 0x00, 0x00] ++ target.bytes ++ bssid.bytes ++ bssid.bytes ++
        [0x00, 0x00, 0x07, 0x00] ++ rest := by
  simp only [craft_deauth_frame, memcpy, Mac.bytes, List.range_succ, List.range_zero,
    List.nil_append, List.foldl_append, List.foldl_cons, List.foldl_nil, List.cons_append,
    List.getD_cons_zero, List.getD_cons_succ, Nat.add_zero, List.set_cons_succ,
    List.set_cons_zero]

theorem craft_disassoc_cons
    (a0 a1 a2 a3 a4 a5 a6 a7 a8 a9 a10 a11 a12 a13 a14 a15 a16 a17 a18 a19 a20 a21 a22 a23
    a24 a25 : Nat)
    (rest : List Nat) (target bssid : Mac) :
    craft_disassoc_frame
        (a0 :: a1 :: a2 :: a3 :: a4 :: a5 :: a6 :: a7 :: a8 :: a9 :: a10 :: a11 :: a12 ::
        a13 :: a14 :: a15 :: a16 :: a17 :: a18 :: a19 :: a20 :: a21 :: a22 :: a23 :: a24 ::
        a25 :: rest)
        target bssid =
      [0xA0, 0x00, 0x00, 0x00] ++ target.bytes ++ bssid.bytes ++ bssid.bytes ++
        [0x00, 0x00, 0x08, 0x00] ++ rest := by
  simp only [craft_disassoc_frame, memcpy, Mac.bytes, List.range_succ, List.range_zero,
    List.nil_append, List.foldl_append, List.foldl_cons, List.foldl_nil, List.cons_append,
    List.getD_cons_zero, List.getD_cons_succ, Nat.add_zero, List.set_cons_succ,
    List.set_cons_zero]

theorem cons_of_length (l : List Nat) (n : Nat) (h : n + 1 ≤ l.length) :
    ∃ a rest, l = a :: rest ∧ n ≤ rest.length := by
  cases l with
  | nil => simp at h
  | cons a rest => exact ⟨a, rest, rfl, by simpa using h⟩

theorem prefix26 (frame : List Nat) (h : 26 ≤ frame.length) :
    ∃ a0 a1 a2 a3 a4 a5 a6 a7 a8 a9 a10 a11 a12 a13 a14 a15 a16 a17 a18 a19 a20 a21 a22 a23
    a24 a25 rest,
      frame =
        a0 :: a1 :: a2 :: a3 :: a4 :: a5 :: a6 :: a7 :: a8 :: a9 :: a10 :: a11 :: a12 ::
        a13 :: a14 :: a15 :: a16 :: a17 :: a18 :: a19 :: a20 :: a21 :: a22 :: a23 :: a24 ::
        a25 :: rest := by
  obtain ⟨a0, f1, e0, h1⟩ := cons_of_length frame 25 h
  obtain ⟨a1, f2, e1, h2⟩ := cons_of_length f1 24 h1
  obtain ⟨a2, f3, e2, h3⟩ := cons_of_length f2 23 h2
  obtain ⟨a3, f4, e3, h4⟩ := cons_of_length f3 22 h3
  obtain ⟨a4, f5, e4, h5⟩ := cons_of_length f4 21 h4
  obtain ⟨a5, f6, e5, h6⟩ := cons_of_length f5 20 h5
  obtain ⟨a6, f7, e6, h7⟩ := cons_of_length f6 19 h6
  obtain ⟨a7, f8, e7, h8⟩ := cons_of_length f7 18 h7
  obtain ⟨a8, f9, e8, h9⟩ := cons_of_length f8 17 h8
  obtain ⟨a9, f10, e9, h10⟩ := cons_of_length f9 16 h9
  obtain ⟨a10, f11, e10, h11⟩ := cons_of_length f10 15 h10
  obtain ⟨a11, f12, e11, h12⟩ := cons_of_length f11 14 h11
  obtain ⟨a12, f13, e12, h13⟩ := cons_of_length f12 13 h12
  obtain ⟨a13, f14, e13, h14⟩ := cons_of_length f13 12 h13
  obtain ⟨a14, f15, e14, h15⟩ := cons_of_length f14 11 h14
  obtain ⟨a15, f16, e15, h16⟩ := cons_of_length f15 10 h15
  obtain ⟨a16, f17, e16, h17⟩ := cons_of_length f16 9 h16
  obtain ⟨a17, f18, e17, h18⟩ := cons_of_length f17 8 h17
  obtain ⟨a18, f19, e18, h19⟩ := cons_of_length f18 7 h18
  obtain ⟨a19, f20, e19, h20⟩ := cons_of_length f19 6 h19
  obtain ⟨a20, f21, e20, h21⟩ := cons_of_length f20 5 h20
  obtain ⟨a21, f22, e21, h22⟩ := cons_of_length f21 4 h21
  obtain ⟨a22, f23, e22, h23⟩ := cons_of_length f22 3 h22
  obtain ⟨a23, f24, e23, h24⟩ := cons_of_length f23 2 h23
  obtain ⟨a24, f25, e24, h25⟩ := cons_of_length f24 1 h24
  obtain ⟨a25, f26, e25, h26⟩ := cons_of_length f25 0 h25
  refine ⟨a0, a1, a2, a3, a4, a5, a6, a7, a8, a9, a10, a11, a12, a13, a14, a15, a16, a17, a18,
    a19, a20, a21, a22, a23, a24, a25, f26, ?_⟩
  rw [e0, e1, e2, e3, e4, e5, e6, e7, e8, e9, e10, e11, e12, e13, e14, e15, e16, e17, e18,
    e19, e20, e21, e22, e23, e24, e25]

/-- C10. On a buffer of at least 26 bytes, `craft_deauth_frame` leaves the 26 bytes
`C0 00 00 00`, target, bssid, bssid, `00 00 07 00` followed by the untouched rest of the
buffer, and `craft_disassoc_frame` the same layout with first byte `A0` and reason bytes
`08 00`; for target AA:BB:CC:DD:EE:FF and bssid 11:22:33:44:55:66 the first 26 bytes of
the deauth frame are as listed. -/
theorem c10_frame_layout (frame : List Nat) (target bssid : Mac) (h : 26 ≤ frame.length) :
    craft_deauth_frame frame target bssid =
      [0xC0, 0x00, 0x00, 0x00] ++ target.bytes ++ bssid.bytes ++ bssid.bytes ++
        [0x00, 0x00, 0x07, 0x00] ++ frame.drop 26 ∧
    craft_disassoc_frame frame target bssid =
      [0xA0, 0x00, 0x00, 0x00] ++ target.bytes ++ bssid.bytes ++ bssid.bytes ++
        [0x00, 0x00, 0x08, 0x00] ++ frame.drop 26 ∧
    (craft_deauth_frame frame ⟨0xAA, 0xBB, 0xCC, 0xDD, 0xEE, 0xFF⟩
        ⟨0x11, 0x22, 0x33, 0x44, 0x55, 0x66⟩).take 26 =
      [0xC0, 0x00, 0x00, 0x00, 0xAA, 0xBB, 0xCC, 0xDD, 0xEE, 0xFF,
       0x11, 0x22, 0x33, 0x44, 0x55, 0x66, 0x11, 0x22, 0x33, 0x44, 0x55, 0x66,
       0x00, 0x00, 0x07, 0x00] := by
  obtain ⟨a0, a1, a2, a3, a4, a5, a6, a7, a8, a9, a10, a11, a12, a13, a14, a15, a16, a17,
    a18, a19, a20, a21, a22, a23, a24, a25, rest, rfl⟩ := prefix26 frame h
  rw [craft_deauth_cons, craft_disassoc_cons, craft_deauth_cons]
  simp only [List.drop_succ_cons, List.drop_zero, Mac.bytes, List.cons_append,
    List.nil_append, List.take_succ_cons, List.take_zero, and_self]

/-- Witness of C10 on the 128-byte buffer of the caller, filled with `0x55`. -/
theorem c10_frame_layout_witness :
    26 ≤ (List.replicate 128 0x55).length ∧
    (craft_deauth_frame (List.replicate 128 0x55) ⟨0xAA, 0xBB, 0xCC, 0xDD, 0xEE, 0xFF⟩
        ⟨0x11, 0x22, 0x33, 0x44, 0x55, 0x66⟩).take 26 =
      [0xC0, 0x00, 0x00, 0x00, 0xAA, 0xBB, 0xCC, 0xDD, 0xEE, 0xFF,
       0x11, 0x22, 0x33, 0x44, 0x55, 0x66, 0x11, 0x22, 0x33, 0x44, 0x55, 0x66,
       0x00, 0x00, 0x07, 0x00] :=
  ⟨by simp,
   (c10_frame_layout (List.replicate 128 0x55) ⟨0, 0, 0, 0, 0, 0⟩ ⟨0, 0, 0, 0, 0, 0⟩
      (by simp)).2.2⟩


/-! ### C9: channel congestion -/

theorem round_half_even_intCast (z : ℤ) : round_half_even (z : ℚ) = z := by
  simp [round_half_even]

theorem round_half_even_ge_floor (x : ℚ) : ⌊x⌋ ≤ round_half_even x := by
  simp only [round_half_even]
  split
  · exact le_refl _
  · split
    · omega
    · split <;> omega

theorem round_half_even_nonneg (x : ℚ) (h : 0 ≤ x) : 0 ≤ round_half_even x :=
  le_trans (Int.floor_nonneg.mpr h) (round_half_even_ge_floor x)

theorem round_half_even_le (x : ℚ) (k : ℤ) (h : x ≤ k) : round_half_even x ≤ k := by
  have hf : ⌊x⌋ ≤ k := Int.floor_le_iff.mpr (by linarith)
  have hstep : 0 < x - ⌊x⌋ → ⌊x⌋ + 1 ≤ k := by
    intro hd
    have h1 : ((⌊x⌋ : ℤ) : ℚ) < (k : ℚ) := by linarith
    have h2 : ⌊x⌋ < k := by exact_mod_cast h1
    omega
  simp only [round_half_even]
  split
  · exact hf
  · rename_i hd
    have hpos : 0 < x - ⌊x⌋ := by linarith
    split
    · exact hstep hpos
    · split
      · exact hf
      · exact hstep hpos

theorem f32_ulp_small (q : ℚ) (h0 : q ≠ 0) (hq : |q| < 2 ^ 24) :
    ∃ K : ℕ, (2 : ℚ) ^ (max (Int.log 2 |q|) (-126) - 23) = ((2 : ℚ) ^ K)⁻¹ := by
  have hpos : 0 < |q| := abs_pos.mpr h0
  have hlog : Int.log 2 |q| < 24 := by
    rw [← Int.lt_zpow_iff_log_lt (by norm_num) hpos]
    exact_mod_cast hq
  have hk : 0 ≤ 23 - max (Int.log 2 |q|) (-126) := by
    have : max (Int.log 2 |q|) (-126) ≤ 23 := max_le (by omega) (by norm_num)
    omega
  obtain ⟨K, hK⟩ := Int.eq_ofNat_of_zero_le hk
  refine ⟨K, ?_⟩
  have : max (Int.log 2 |q|) (-126) - 23 = -(K : ℤ) := by omega
  rw [this, zpow_neg, zpow_natCast]

theorem f32_round_natCast (n : ℕ) (h : n < 2 ^ 24) : f32_round (n : ℚ) = n := by
  by_cases h0 : (n : ℚ) = 0
  · simp [f32_round, h0]
  · have habs : |(n : ℚ)| < 2 ^ 24 := by
      rw [abs_of_nonneg (Nat.cast_nonneg n)]
      exact_mod_cast h
    obtain ⟨K, hK⟩ := f32_ulp_small (n : ℚ) h0 habs
    simp only [f32_round, h0, if_false, hK]
    have hint : (n : ℚ) / ((2 : ℚ) ^ K)⁻¹ = (((n * 2 ^ K : ℕ) : ℤ) : ℚ) := by
      rw [div_inv_eq_mul]; push_cast; ring
    rw [hint, round_half_even_intCast]
    push_cast
    have h2 : (2 : ℚ) ^ K ≠ 0 := pow_ne_zero K (by norm_num)
    field_simp

theorem f32_round_nonneg (q : ℚ) (h : 0 ≤ q) : 0 ≤ f32_round q := by
  by_cases h0 : q = 0
  · simp [f32_round, h0]
  · simp only [f32_round, h0, if_false]
    have hu : (0 : ℚ) < 2 ^ (max (Int.log 2 |q|) (-126) - 23) := zpow_pos (by norm_num) _
    apply mul_nonneg _ hu.le
    exact_mod_cast round_half_even_nonneg _ (div_nonneg h hu.le)

theorem f32_round_le_natCast (q : ℚ) (n : ℕ) (hn : n < 2 ^ 24) (h0 : 0 ≤ q) (hq : q ≤ n) :
    f32_round q ≤ n := by
  by_cases hz : q = 0
  · simp [f32_round, hz]
  · have habs : |q| < 2 ^ 24 := by
      rw [abs_of_nonneg h0]
      have : (n : ℚ) < 2 ^ 24 := by exact_mod_cast hn
      linarith
    obtain ⟨K, hK⟩ := f32_ulp_small q hz habs
    simp only [f32_round, hz, if_false, hK]
    have h2 : (0 : ℚ) < 2 ^ K := pow_pos (by norm_num) K
    have hle : q / ((2 : ℚ) ^ K)⁻¹ ≤ (((n * 2 ^ K : ℕ) : ℤ) : ℚ) := by
      rw [div_inv_eq_mul]; push_cast
      exact mul_le_mul_of_nonneg_right hq h2.le
    have hr := round_half_even_le _ _ hle
    have hr2 : ((round_half_even (q / ((2 : ℚ) ^ K)⁻¹) : ℤ) : ℚ) ≤ (n : ℚ) * 2 ^ K := by
      have : ((round_half_even (q / ((2 : ℚ) ^ K)⁻¹) : ℤ) : ℚ) ≤
          (((n * 2 ^ K : ℕ) : ℤ) : ℚ) := by
        exact_mod_cast hr
      simpa using this
    calc ((round_half_even (q / ((2 : ℚ) ^ K)⁻¹) : ℤ) : ℚ) * ((2 : ℚ) ^ K)⁻¹
        ≤ ((n : ℚ) * 2 ^ K) * ((2 : ℚ) ^ K)⁻¹ :=
          mul_le_mul_of_nonneg_right hr2 (inv_nonneg.mpr h2.le)
      _ = n := by field_simp

theorem foldl_max_eq (l : List Nat) (a : Nat) : l.foldl max a = max a (l.foldl max 0) := by
  induction l generalizing a with
  | nil => simp
  | cons x xs ih =>
    simp only [List.foldl_cons]
    rw [ih (max a x), ih (max 0 x)]
    omega

theorem le_foldl_max (l : List Nat) (x : Nat) (h : x ∈ l) : x ≤ l.foldl max 0 := by
  induction l with
  | nil => exact absurd h (List.not_mem_nil x)
  | cons y ys ih =>
    simp only [List.foldl_cons]
    rw [foldl_max_eq]
    rcases List.mem_cons.mp h with e | e
    · rw [e]; omega
    · have := ih e; omega

theorem foldl_max_mem (l : List Nat) : l.foldl max 0 = 0 ∨ l.foldl max 0 ∈ l := by
  induction l with
  | nil => left; rfl
  | cons y ys ih =>
    simp only [List.foldl_cons]
    rw [foldl_max_eq]
    rcases ih with e | e
    · by_cases hy : y = 0
      · left; rw [e, hy]; rfl
      · right; rw [e]
        have : max (max 0 y) 0 = y := by omega
        rw [this]; exact List.mem_cons_self y ys
    · by_cases hle : max 0 y ≤ ys.foldl max 0
      · right
        rw [Nat.max_eq_right hle]
        exact List.mem_cons_of_mem y e
      · right
        have : max (max 0 y) (ys.foldl max 0) = y := by omega
        rw [this]; exact List.mem_cons_self y ys

theorem foldl_if_gt_eq (f : Nat → Nat) (l : List Nat) (a : Nat) :
    l.foldl (fun m ch => if f ch > m then f ch else m) a =
      max a ((l.map f).foldl max 0) := by
  induction l generalizing a with
  | nil => simp
  | cons x xs ih =>
    simp only [List.foldl_cons, List.map_cons]
    rw [ih, foldl_max_eq (xs.map f) (max 0 (f x))]
    split <;> omega

theorem counts_foldl (db : DB) (ch : Nat) (hch : ch < 14) (idxs : List Nat) (cc : List Nat)
    (hlen : cc.length = 14) :
    (idxs.foldl
      (fun cc i =>
        if (slot db i).in_use && decide ((slot db i).channel ≥ 1) &&
            decide ((slot db i).channel ≤ 13) then
          cc.set (slot db i).channel (cc.getD (slot db i).channel 0 + 1)
        else cc) cc).getD ch 0 =
      cc.getD ch 0 + (idxs.filter (counted_on db ch)).length := by
  induction idxs generalizing cc with
  | nil => simp
  | cons i rest ih =>
    rw [List.foldl_cons]
    by_cases hc : ((slot db i).in_use && decide ((slot db i).channel ≥ 1) &&
        decide ((slot db i).channel ≤ 13)) = true
    · rw [if_pos hc, ih _ (by simp [hlen]), getD_set_eq]
      by_cases he : (slot db i).channel = ch
      · have hlt : (slot db i).channel < cc.length := by omega
        have hp : counted_on db ch i = true := by
          unfold counted_on
          rw [hc, Bool.true_and, decide_eq_true_eq]; exact he
        rw [List.filter_cons_of_pos hp, if_pos ⟨he.symm, hlt⟩, List.length_cons, he]
        omega
      · have hp : ¬ counted_on db ch i = true := by
          unfold counted_on
          rw [hc, Bool.true_and, decide_eq_true_eq]; exact he
        rw [List.filter_cons_of_neg hp, if_neg (fun h => he h.1.symm)]
    · have hp : ¬ counted_on db ch i = true := by
        unfold counted_on
        rw [Bool.not_eq_true] at hc
        rw [hc, Bool.false_and]
        decide
      rw [if_neg hc, ih _ hlen, List.filter_cons_of_neg hp]

theorem range_append_range' (c n : Nat) (h : c ≤ n) :
    List.range n = List.range c ++ List.range' c (n - c) := by
  rw [List.range_eq_range', List.range_eq_range']
  have := List.range'_append_1 0 c (n - c)
  rw [Nat.zero_add] at this
  rw [this]
  congr 1
  omega

theorem g_aps_eq_map_slot (db : DB) :
    db.g_aps = (List.range db.g_aps.length).map (slot db) := by
  apply List.ext_getElem
  · simp
  · intro n h1 h2
    rw [List.getElem_map, List.getElem_range, slot_eq_getElem db n h1]

theorem live_eq_map_range (db : DB) (hI : Inv db) :
    live db = (List.range db.g_ap_count).map (slot db) := by
  have hle : db.g_ap_count ≤ db.g_aps.length := by rw [hI.len]; exact hI.count_le
  unfold live
  conv_lhs => rw [g_aps_eq_map_slot db]
  rw [range_append_range' db.g_ap_count db.g_aps.length hle, List.map_append,
    List.filter_append]
  have h1 : List.filter (fun ap => ap.in_use) (List.map (slot db) (List.range db.g_ap_count))
      = List.map (slot db) (List.range db.g_ap_count) := by
    rw [List.filter_eq_self]
    intro a ha
    obtain ⟨i, hi, rfl⟩ := List.mem_map.mp ha
    exact hI.used i (List.mem_range.mp hi)
  have h2 : List.filter (fun ap => ap.in_use)
      (List.map (slot db) (List.range' db.g_ap_count (db.g_aps.length - db.g_ap_count)))
      = [] := by
    rw [List.filter_eq_nil_iff]
    intro a ha
    obtain ⟨i, hi, rfl⟩ := List.mem_map.mp ha
    rw [hI.beyond i (List.mem_range'_1.mp hi).1]
    decide
  rw [h1, h2, List.append_nil]

theorem channel_counts_eq (db : DB) (hI : Inv db) (ch : Nat) (h1 : 1 ≤ ch) (h13 : ch ≤ 13) :
    (channel_counts db).getD ch 0 = spec_count db ch := by
  unfold channel_counts spec_count
  rw [counts_foldl db ch (by omega) _ _ (by simp), live_eq_map_range db hI, List.filter_map,
    List.length_map]
  have h0 : (List.replicate 14 0).getD ch 0 = 0 := by
    simp only [List.getD_eq_getElem?_getD, List.getElem?_replicate]
    split <;> rfl
  rw [h0, Nat.zero_add]
  congr 1
  apply List.filter_congr
  intro i hi
  have hu := hI.used i (List.mem_range.mp hi)
  unfold counted_on
  by_cases he : (slot db i).channel = ch
  · have a1 : (slot db i).channel ≥ 1 := by omega
    have a2 : (slot db i).channel ≤ 13 := by omega
    simp [hu, he, h1, h13]
  · simp [he]

theorem spec_count_le (db : DB) (hI : Inv db) (ch : Nat) : spec_count db ch ≤ 512 := by
  unfold spec_count live
  have h1 := List.length_filter_le (fun ap : ap_info_t => decide (ap.channel = ch))
    (db.g_aps.filter (fun ap => ap.in_use))
  have h2 := List.length_filter_le (fun ap : ap_info_t => ap.in_use) db.g_aps
  have h3 := hI.len
  simp only [MAX_APS] at h3
  omega

theorem spec_count_le_max (db : DB) (ch : Nat) (h1 : 1 ≤ ch) (h13 : ch ≤ 13) :
    spec_count db ch ≤ spec_max db := by
  unfold spec_max
  apply le_foldl_max
  exact List.mem_map.mpr ⟨ch, List.mem_range'_1.mpr ⟨h1, by omega⟩, rfl⟩

theorem spec_max_le (db : DB) (hI : Inv db) : spec_max db ≤ 512 := by
  unfold spec_max
  rcases foldl_max_mem ((List.range' 1 13).map (spec_count db)) with e | e
  · rw [e]; omega
  · obtain ⟨ch, _, hch⟩ := List.mem_map.mp e
    rw [← hch]
    exact spec_count_le db hI ch

theorem max_aps_eq (db : DB) (hI : Inv db) :
    max_aps_of (channel_counts db) = max 1 (spec_max db) := by
  unfold max_aps_of spec_max
  rw [foldl_if_gt_eq (fun ch => (channel_counts db).getD ch 0)]
  congr 2
  apply List.map_congr_left
  intro ch hch
  have := List.mem_range'_1.mp hch
  exact channel_counts_eq db hI ch this.1 (by omega)

theorem score_eq (c m : Nat) (hc : c ≤ 512) (hm : m ≤ 512) :
    f32_div (f32_mul (f32_of_int (c : Int)) 100) (f32_of_int (m : Int)) =
      f32_round (100 * (c : ℚ) / (m : ℚ)) := by
  have e1 : f32_of_int (c : Int) = (c : ℚ) := by
    unfold f32_of_int
    rw [Int.cast_natCast]
    exact f32_round_natCast c (by omega)
  have e2 : f32_of_int (m : Int) = (m : ℚ) := by
    unfold f32_of_int
    rw [Int.cast_natCast]
    exact f32_round_natCast m (by omega)
  have e3 : f32_mul (c : ℚ) 100 = ((c * 100 : ℕ) : ℚ) := by
    unfold f32_mul
    have := f32_round_natCast (c * 100) (by omega)
    push_cast at this ⊢
    exact this
  rw [e1, e2, e3]
  unfold f32_div
  push_cast
  rw [mul_comm (c : ℚ) 100]

theorem congestion_at (db : DB) (hI : Inv db) (ch : Nat) (h1 : 1 ≤ ch) (h13 : ch ≤ 13) :
    ∃ e : channel_analysis_t,
      (get_channel_congestion true db)[ch - 1]? = some e ∧ e.channel = ch ∧
      e.ap_count = spec_count db ch ∧
      e.congestion_score =
        f32_round (100 * (spec_count db ch : ℚ) / ((max (spec_max db) 1 : ℕ) : ℚ)) ∧
      0 ≤ e.congestion_score ∧ e.congestion_score ≤ 100 ∧
      (spec_count db ch = spec_max db → 1 ≤ spec_max db → e.congestion_score = 100) ∧
      (spec_max db = 0 → e.congestion_score = 0) ∧
      (∀ k : ℕ, 100 * spec_count db ch = k * max (spec_max db) 1 →
        e.congestion_score = (k : ℚ)) := by
  have hcnt := channel_counts_eq db hI ch h1 h13
  have hmax := max_aps_eq db hI
  have hc512 := spec_count_le db hI ch
  have hm512 := spec_max_le db hI
  have hcm := spec_count_le_max db ch h1 h13
  have hmm : max 1 (spec_max db) = max (spec_max db) 1 := Nat.max_comm _ _
  have hmpos : 0 < max (spec_max db) 1 := by omega
  have hmq : (0 : ℚ) < ((max (spec_max db) 1 : ℕ) : ℚ) := by exact_mod_cast hmpos
  have hget : (get_channel_congestion true db)[ch - 1]? = some
      { channel := ch, ap_count := spec_count db ch,
        congestion_score :=
          f32_round (100 * (spec_count db ch : ℚ) / ((max (spec_max db) 1 : ℕ) : ℚ)) } := by
    have hidx : (List.range' 1 13)[ch - 1]? = some ch := by
      interval_cases ch <;> rfl
    simp only [get_channel_congestion, if_true, List.getElem?_map]
    rw [hidx, Option.map_some', hcnt, hmax, hmm, if_pos hmpos,
      score_eq _ _ hc512 (by omega)]
  have hq0 : (0 : ℚ) ≤ 100 * (spec_count db ch : ℚ) / ((max (spec_max db) 1 : ℕ) : ℚ) :=
    div_nonneg (mul_nonneg (by norm_num) (Nat.cast_nonneg _)) hmq.le
  have hq100 : 100 * (spec_count db ch : ℚ) / ((max (spec_max db) 1 : ℕ) : ℚ)
      ≤ ((100 : ℕ) : ℚ) := by
    rw [div_le_iff₀ hmq]
    have : spec_count db ch ≤ max (spec_max db) 1 := by omega
    have : (spec_count db ch : ℚ) ≤ ((max (spec_max db) 1 : ℕ) : ℚ) := by exact_mod_cast this
    push_cast at this ⊢
    linarith
  refine ⟨_, hget, rfl, rfl, rfl, ?_, ?_, ?_, ?_, ?_⟩
  · exact f32_round_nonneg _ hq0
  · have := f32_round_le_natCast _ 100 (by norm_num) hq0 hq100
    simpa using this
  · intro heq hpos
    show f32_round _ = 100
    have hm : max (spec_max db) 1 = spec_max db := by omega
    have hne : ((spec_max db : ℕ) : ℚ) ≠ 0 := by
      have : (0 : ℚ) < ((spec_max db : ℕ) : ℚ) := by exact_mod_cast hpos
      exact ne_of_gt this
    rw [hm, heq, mul_div_assoc, div_self hne, mul_one]
    have := f32_round_natCast 100 (by norm_num)
    simpa using this
  · intro hz
    show f32_round _ = 0
    have hc0 : spec_count db ch = 0 := by omega
    rw [hc0]
    simp [f32_round]
  · intro k hk
    show f32_round _ = (k : ℚ)
    have hk100 : k ≤ 100 := by
      by_contra hcon
      have h101 : 101 ≤ k := by omega
      have hA : 101 * max (spec_max db) 1 ≤ k * max (spec_max db) 1 :=
        Nat.mul_le_mul_right _ h101
      have hB : 100 * spec_count db ch ≤ 100 * max (spec_max db) 1 :=
        Nat.mul_le_mul_left _ (by omega)
      omega
    have hkq : 100 * (spec_count db ch : ℚ) = (k : ℚ) * ((max (spec_max db) 1 : ℕ) : ℚ) := by
      exact_mod_cast hk
    rw [hkq, mul_div_assoc, div_self (ne_of_gt hmq), mul_one]
    exact f32_round_natCast k (by omega)

/-- C9 (amended). In every reachable state and for every channel `ch` in 1..13, the
result of `get_channel_congestion` for `ch` carries `count(ch)` and the score
`100 * count(ch) / max(max count, 1)` rounded to single precision (binary32, round to
nearest even): it is not the exact rational in general, and equals it whenever the
quotient is an integer. The score lies between 0 and 100; a channel with the largest
count scores exactly 100 when that count is at least 1, and 0 when no live record is on
a channel in 1..13. -/
theorem c9_congestion (ops : List Op) (ch : Nat) (h1 : 1 ≤ ch) (h13 : ch ≤ 13) :
    ∃ e : channel_analysis_t,
      (get_channel_congestion true (run ops))[ch - 1]? = some e ∧ e.channel = ch ∧
      e.ap_count = spec_count (run ops) ch ∧
      e.congestion_score =
        f32_round (100 * (spec_count (run ops) ch : ℚ) /
          ((max (spec_max (run ops)) 1 : ℕ) : ℚ)) ∧
      0 ≤ e.congestion_score ∧ e.congestion_score ≤ 100 ∧
      (spec_count (run ops) ch = spec_max (run ops) → 1 ≤ spec_max (run ops) →
        e.congestion_score = 100) ∧
      (spec_max (run ops) = 0 → e.congestion_score = 0) ∧
      (∀ k : ℕ, 100 * spec_count (run ops) ch = k * max (spec_max (run ops)) 1 →
        e.congestion_score = (k : ℚ)) :=
  congestion_at (run ops) (inv_run ops) ch h1 h13

theorem f32_round_100_3 : f32_round (100 / 3) = 8738133 / 262144 := by
  have hpos : (0 : ℚ) < |100 / 3| := by norm_num
  have hlo : (5 : ℤ) ≤ Int.log 2 |(100 / 3 : ℚ)| :=
    (Int.zpow_le_iff_le_log (by norm_num) hpos).mp (by norm_num [abs_of_pos])
  have hhi : Int.log 2 |(100 / 3 : ℚ)| < 6 :=
    (Int.lt_zpow_iff_log_lt (by norm_num) hpos).mp (by norm_num [abs_of_pos])
  have hlog : Int.log 2 |(100 / 3 : ℚ)| = 5 := by omega
  have hne : (100 / 3 : ℚ) ≠ 0 := by norm_num
  have hfl : ⌊(26214400 / 3 : ℚ)⌋ = 8738133 := by
    rw [Int.floor_eq_iff]; norm_num
  have hr : round_half_even (26214400 / 3 : ℚ) = 8738133 := by
    unfold round_half_even
    simp only [hfl]
    norm_num
  have hq : (100 / 3 : ℚ) / 2 ^ ((5 : ℤ) - 23) = 26214400 / 3 := by
    norm_num [zpow_neg]
  unfold f32_round
  rw [if_neg hne]
  simp only [hlog]
  have hmax : max (5 : ℤ) (-126) = 5 := by decide
  rw [hmax, hq, hr]
  norm_num [zpow_neg]

set_option maxRecDepth 100000 in
/-- C9 fails as stated. In the empty database channel 6 has the largest count (0, like
every channel) and scores 0, not 100. And in `c9_db`, with three records on channel 6
and one on channel 1, the score of channel 1 is the single-precision value
8738133 / 262144 = 33.33333206..., not the exact rational 100 / 3. -/
theorem c9_counterexample :
    spec_count g_init 6 = spec_max g_init ∧
    ((get_channel_congestion true g_init)[5]?).map
        (fun e => (e.channel, e.ap_count, e.congestion_score)) = some (6, 0, 0) ∧
    spec_count c9_db 1 = 1 ∧ spec_max c9_db = 3 ∧
    ((get_channel_congestion true c9_db)[0]?).map
        (fun e => (e.channel, e.ap_count, e.congestion_score)) =
      some (1, 1, 8738133 / 262144) ∧
    (8738133 / 262144 : ℚ) ≠ 100 * 1 / 3 := by
  have hc0 : spec_count g_init 6 = 0 := by decide
  have hm0 : spec_max g_init = 0 := by decide
  have hc1 : spec_count c9_db 1 = 1 := by decide
  have hm3 : spec_max c9_db = 3 := by decide
  obtain ⟨e, he, hch, hcnt, _, _, _, _, hz, _⟩ :=
    congestion_at g_init inv_init 6 (by decide) (by decide)
  obtain ⟨e2, he2, hch2, hcnt2, hs2, _⟩ :=
    congestion_at c9_db (inv_run _) 1 (by decide) (by decide)
  refine ⟨by rw [hc0, hm0], ?_, hc1, hm3, ?_, by norm_num⟩
  · change (get_channel_congestion true g_init)[5]? = some e at he
    rw [he, Option.map_some', hch, hcnt, hc0, hz hm0]
  · change (get_channel_congestion true c9_db)[0]? = some e2 at he2
    rw [he2, Option.map_some', hch2, hcnt2, hs2, hc1, hm3]
    have : (100 * ((1 : ℕ) : ℚ) / ((max 3 1 : ℕ) : ℚ)) = 100 / 3 := by norm_num
    rw [this, f32_round_100_3]

set_option maxRecDepth 100000 in
/-- Witness of C9 on `c9_db` and channel 6, the busiest channel with three records. -/
theorem c9_congestion_witness :
    ∃ e : channel_analysis_t,
      (get_channel_congestion true c9_db)[6 - 1]? = some e ∧ e.channel = 6 ∧
      e.ap_count = spec_count c9_db 6 ∧
      e.congestion_score =
        f32_round (100 * (spec_count c9_db 6 : ℚ) / ((max (spec_max c9_db) 1 : ℕ) : ℚ)) ∧
      0 ≤ e.congestion_score ∧ e.congestion_score ≤ 100 ∧
      (spec_count c9_db 6 = spec_max c9_db → 1 ≤ spec_max c9_db →
        e.congestion_score = 100) ∧
      (spec_max c9_db = 0 → e.congestion_score = 0) ∧
      (∀ k : ℕ, 100 * spec_count c9_db 6 = k * max (spec_max c9_db) 1 →
        e.congestion_score = (k : ℚ)) :=
  c9_congestion
    [Op.scan true 100
      [sample_record 1 "a" WIFI_AUTH_WPA2_PSK (-50),
       sample_record 2 "b" WIFI_AUTH_WPA2_PSK (-60),
       sample_record 3 "c" WIFI_AUTH_WPA2_PSK (-60),
       { sample_record 4 "d" WIFI_AUTH_WPA2_PSK (-70) with primary := 1 }]]
    6 (by decide) (by decide)

/-! ### C11, C12: the probe request -/

theorem memcpy_succ (dst : List Nat) (off : Nat) (src : List Nat) (n : Nat) :
    memcpy dst off src (n + 1) = (memcpy dst off src n).set (off + n) (src.getD n 0) := by
  simp [memcpy, List.range_succ, List.foldl_append]

theorem memcpy_eq (dst : List Nat) (off : Nat) (src : List Nat) (n : Nat)
    (hn : n ≤ src.length) (hd : off + n ≤ dst.length) :
    memcpy dst off src n = dst.take off ++ src.take n ++ dst.drop (off + n) := by
  induction n with
  | zero => simp [memcpy]
  | succ n ih =>
    rw [memcpy_succ, ih (by omega) (by omega)]
    have hl : (dst.take off ++ src.take n).length = off + n := by
      simp [List.length_take]; omega
    rw [List.set_append_right _ _ (by rw [hl]), hl, Nat.sub_self]
    have hdrop : dst.drop (off + n) = dst[off + n] :: dst.drop (off + n + 1) := by
      rw [List.drop_eq_getElem_cons (by omega)]
    rw [hdrop, List.set_cons_zero]
    have hs : src.take (n + 1) = src.take n ++ [src.getD n 0] := by
      rw [List.take_succ, List.getD_eq_getElem?_getD, List.getElem?_eq_getElem (by omega)]
      simp
    rw [hs]
    simp [Nat.add_assoc]

theorem craft_probe_cons
    (a0 a1 a2 a3 a4 a5 a6 a7 a8 a9 a10 a11 a12 a13 a14 a15 a16 a17 a18 a19 a20 a21 a22 a23
    a24 a25 : Nat)
    (rest ssid : List Nat) (rnd : Nat → Nat) :
    craft_probe_request
        (a0 :: a1 :: a2 :: a3 :: a4 :: a5 :: a6 :: a7 :: a8 :: a9 :: a10 :: a11 :: a12 ::
        a13 :: a14 :: a15 :: a16 :: a17 :: a18 :: a19 :: a20 :: a21 :: a22 :: a23 :: a24 ::
        a25 :: rest)
        ssid rnd =
      (memcpy (probe_header (ssid.length % 256) rnd ++ rest) 26 ssid (ssid.length % 256),
       26 + ssid.length % 256) := by
  simp only [craft_probe_request, memset, probe_header, List.range_succ, List.range_zero,
    List.nil_append, List.foldl_append, List.foldl_cons, List.foldl_nil, List.cons_append,
    Nat.add_zero, Nat.zero_add, Nat.reduceAdd, List.set_cons_succ, List.set_cons_zero,
    List.replicate]

theorem probe_header_length (n : Nat) (rnd : Nat → Nat) : (probe_header n rnd).length = 26 :=
  rfl

theorem probe_layout (frame ssid : List Nat) (rnd : Nat → Nat)
    (h : 26 + ssid.length % 256 ≤ frame.length) :
    craft_probe_request frame ssid rnd =
      (probe_header (ssid.length % 256) rnd ++ ssid.take (ssid.length % 256) ++
         frame.drop (26 + ssid.length % 256),
       26 + ssid.length % 256) := by
  have hf : 26 ≤ frame.length := by omega
  obtain ⟨a0, a1, a2, a3, a4, a5, a6, a7, a8, a9, a10, a11, a12, a13, a14, a15, a16, a17, a18,
    a19, a20, a21, a22, a23, a24, a25, rest, rfl⟩ := prefix26 frame hf
  rw [craft_probe_cons]
  have hlen : ssid.length % 256 ≤ ssid.length := Nat.mod_le _ _
  have hd : 26 + ssid.length % 256 ≤ (probe_header (ssid.length % 256) rnd ++ rest).length := by
    rw [List.length_append, probe_header_length]
    simp only [List.length_cons] at h
    omega
  rw [memcpy_eq _ 26 ssid _ hlen hd]
  have ht : (probe_header (ssid.length % 256) rnd ++ rest).take 26 =
      probe_header (ssid.length % 256) rnd := by
    rw [List.take_append_of_le_length (by rw [probe_header_length])]
    exact List.take_of_length_le (by rw [probe_header_length])
  have hdr : ∀ n, (probe_header (ssid.length % 256) rnd ++ rest).drop (26 + n) =
      rest.drop n := by
    intro n
    rw [List.drop_append_eq_append_drop, probe_header_length,
      List.drop_of_length_le (by rw [probe_header_length]; omega)]
    simp
  have hdr2 : ∀ n, List.drop (26 + n)
      (a0 :: a1 :: a2 :: a3 :: a4 :: a5 :: a6 :: a7 :: a8 :: a9 :: a10 :: a11 :: a12 ::
        a13 :: a14 :: a15 :: a16 :: a17 :: a18 :: a19 :: a20 :: a21 :: a22 :: a23 :: a24 ::
        a25 :: rest) = rest.drop n := by
    intro n
    rw [← List.drop_drop]
    rfl
  rw [ht, hdr, hdr2]

/-- C11. For every SSID of at most 255 bytes and every five values of `esp_random()`,
`craft_probe_request`, on a buffer that holds the frame, writes `40 00 00 00`, six `FF`,
`02` and the low octets of the five random values, six `FF`, `00 00`, the tag `00`, the
SSID length and the SSID, leaves the rest of the buffer untouched and reports the length
`26 + len(ssid)`; the first octet of the source address, byte 10, has the
locally-administered bit set and the multicast bit clear. -/
theorem c11_probe_request (frame ssid : List Nat) (rnd : Nat → Nat)
    (hs : ssid.length ≤ 255) (hf : 26 + ssid.length ≤ frame.length) :
    (craft_probe_request frame ssid rnd).1 =
      [0x40, 0x00, 0x00, 0x00] ++ List.replicate 6 0xFF ++
        [0x02, rnd 0 % 256, rnd 1 % 256, rnd 2 % 256, rnd 3 % 256, rnd 4 % 256] ++
        List.replicate 6 0xFF ++ [0x00, 0x00] ++ [0x00, ssid.length] ++ ssid ++
        frame.drop (26 + ssid.length) ∧
    (craft_probe_request frame ssid rnd).2 = 26 + ssid.length ∧
    ((craft_probe_request frame ssid rnd).1.getD 10 0) &&& 0x02 = 0x02 ∧
    ((craft_probe_request frame ssid rnd).1.getD 10 0) &&& 0x01 = 0 := by
  have hm : ssid.length % 256 = ssid.length := Nat.mod_eq_of_lt (by omega)
  have h := probe_layout frame ssid rnd (by rw [hm]; exact hf)
  rw [hm, List.take_of_length_le (Nat.le_refl _)] at h
  rw [h]
  have hg : (probe_header ssid.length rnd ++ ssid ++ List.drop (26 + ssid.length) frame,
      26 + ssid.length).1.getD 10 0 = 2 := rfl
  rw [hg]
  exact ⟨rfl, rfl, by decide, by decide⟩

set_option maxRecDepth 100000 in
/-- Witness of C11: the SSID "test_probe" of the caller in its 128-byte buffer. -/
theorem c11_probe_request_witness :
    (cstr "test_probe").length ≤ 255 ∧
    26 + (cstr "test_probe").length ≤ (List.replicate 128 0x55).length ∧
    (craft_probe_request (List.replicate 128 0x55) (cstr "test_probe")
        (fun k => 0x1234 + k)).2 = 26 + (cstr "test_probe").length :=
  ⟨by decide, by decide,
   (c11_probe_request (List.replicate 128 0x55) (cstr "test_probe") (fun k => 0x1234 + k)
      (by decide) (by decide)).2.1⟩

/-- C12 (amended). For every SSID longer than 255 bytes `craft_probe_request` reports no
error: the length is cut to `len(ssid) mod 256` by the cast to `uint8_t`, and the
function writes the 26-byte header with that length followed by the first
`len(ssid) mod 256` bytes of the SSID, reporting the frame length
`26 + len(ssid) mod 256`. -/
theorem c12_long_ssid (frame ssid : List Nat) (rnd : Nat → Nat)
    (_hs : 255 < ssid.length) (hf : 26 + ssid.length % 256 ≤ frame.length) :
    craft_probe_request frame ssid rnd =
      (probe_header (ssid.length % 256) rnd ++ ssid.take (ssid.length % 256) ++
         frame.drop (26 + ssid.length % 256),
       26 + ssid.length % 256) :=
  probe_layout frame ssid rnd hf

set_option maxRecDepth 100000 in
/-- C12 fails as stated: for an SSID of 256 bytes `craft_probe_request` produces a frame,
the 26-byte probe request with an SSID element of length 0, and reports the length 26. -/
theorem c12_counterexample :
    (List.replicate 256 0x41).length = 256 ∧
    craft_probe_request (List.replicate 128 0x55) (List.replicate 256 0x41) (fun k => k) =
      ([0x40, 0x00, 0x00, 0x00, 0xFF, 0xFF, 0xFF, 0xFF, 0xFF, 0xFF,
        0x02, 0x00, 0x01, 0x02, 0x03, 0x04, 0xFF, 0xFF, 0xFF, 0xFF, 0xFF, 0xFF,
        0x00, 0x00, 0x00, 0x00] ++ List.replicate 102 0x55, 26) := by
  decide

set_option maxRecDepth 100000 in
/-- Witness of C12 on an SSID of 300 bytes: the frame carries its first 44 bytes. -/
theorem c12_long_ssid_witness :
    255 < (List.replicate 300 0x41).length ∧
    craft_probe_request (List.replicate 128 0x55) (List.replicate 300 0x41) (fun k => k) =
      (probe_header ((List.replicate 300 0x41).length % 256) (fun k => k) ++
         (List.replicate 300 0x41).take ((List.replicate 300 0x41).length % 256) ++
         (List.replicate 128 0x55).drop (26 + (List.replicate 300 0x41).length % 256),
       26 + (List.replicate 300 0x41).length % 256) :=
  ⟨by decide,
   c12_long_ssid (List.replicate 128 0x55) (List.replicate 300 0x41) (fun k => k)
     (by decide) (by decide)⟩

/-! ### C13, C14: EAPOL detection -/

theorem log_deauth_event_stats (now : Nat) (st : Capture) (src dst : Mac) :
    (log_deauth_event now st src dst).g_packet_stats = st.g_packet_stats := by
  unfold log_deauth_event
  split <;> rfl

theorem deauth_tracks_iff (st : Capture) (src dst : Mac) (i : Nat) :
    deauth_tracks st src dst i = true ↔
      (deauth_slot st i).count ≠ 0 ∧ (deauth_slot st i).src = src ∧
        (deauth_slot st i).dst = dst := by
  simp [deauth_tracks, mac_equal, and_assoc]

theorem log_deauth_hit (now : Nat) (st : Capture) (src dst : Mac) (i : Nat)
    (h : (List.range 32).find? (deauth_tracks st src dst) = some i) :
    log_deauth_event now st src dst =
      Capture.mk (st.g_deauth_log.set i (deauth_bump now (deauth_slot st i)))
        st.g_deauth_head st.g_packet_stats := by
  simp only [log_deauth_event, h, deauth_bump]

theorem log_deauth_miss (now : Nat) (st : Capture) (src dst : Mac)
    (h : (List.range 32).find? (deauth_tracks st src dst) = none) :
    log_deauth_event now st src dst =
      Capture.mk (st.g_deauth_log.set (st.g_deauth_head % 32).toNat
          (deauth_event_t.mk 1 now src dst))
        (wrap_int (st.g_deauth_head + 1)) st.g_packet_stats := by
  simp only [log_deauth_event, h, deauth_zero]

theorem find_tracks_of_inv (st : Capture) (hI : LogInv st) (src dst : Mac) (i : Nat)
    (hi : i < 32) (ht : deauth_tracks st src dst i = true) :
    (List.range 32).find? (deauth_tracks st src dst) = some i := by
  cases hf : (List.range 32).find? (deauth_tracks st src dst) with
  | none =>
    rw [List.find?_eq_none] at hf
    exact absurd ht (hf i (List.mem_range.mpr hi))
  | some j =>
    have hj := List.mem_range.mp (List.mem_of_find?_eq_some hf)
    have hp := (deauth_tracks_iff st src dst j).mp (List.find?_some hf)
    have hq := (deauth_tracks_iff st src dst i).mp ht
    rw [hI.uniq j i hj hi hp.1 hq.1 (hp.2.1.trans hq.2.1.symm) (hp.2.2.trans hq.2.2.symm)]

theorem find_tracks_none (st : Capture) (src dst : Mac)
    (h : ∀ i, i < 32 → deauth_tracks st src dst i = false) :
    (List.range 32).find? (deauth_tracks st src dst) = none := by
  rw [List.find?_eq_none]
  intro i hi
  rw [h i (List.mem_range.mp hi)]
  decide

theorem head_index_lt (h : Int) : (h % 32).toNat < 32 := by
  have h1 := Int.emod_nonneg h (by decide : (32 : Int) ≠ 0)
  have h2 := Int.emod_lt_of_pos h (by decide : (0 : Int) < 32)
  omega

theorem deauth_slot_set (log : List deauth_event_t) (k i : Nat) (v : deauth_event_t)
    (head : Int) (stats : packet_stats_t) (hk : k < log.length) :
    deauth_slot (Capture.mk (log.set k v) head stats) i =
      if i = k then v else deauth_slot (Capture.mk log head stats) i := by
  simp only [deauth_slot, getD_set_eq, hk, and_true]

theorem deauth_slot_mk (st : Capture) (head : Int) (stats : packet_stats_t) (i : Nat) :
    deauth_slot (Capture.mk st.g_deauth_log head stats) i = deauth_slot st i := rfl

theorem log_inv_set (st : Capture) (hI : LogInv st) (k : Nat) (v : deauth_event_t)
    (head : Int) (hk : k < 32)
    (hv : ∀ j, j < 32 → j ≠ k → (deauth_slot st j).count ≠ 0 → v.count ≠ 0 →
      (deauth_slot st j).src = v.src → (deauth_slot st j).dst = v.dst → False) :
    LogInv (Capture.mk (st.g_deauth_log.set k v) head st.g_packet_stats) := by
  have hkl : k < st.g_deauth_log.length := by rw [hI.len]; exact hk
  have hs : ∀ j, deauth_slot (Capture.mk (st.g_deauth_log.set k v) head st.g_packet_stats) j
      = if j = k then v else deauth_slot st j := by
    intro j
    rw [deauth_slot_set _ _ _ _ _ _ hkl, deauth_slot_mk]
  refine ⟨by simp [hI.len], ?_⟩
  intro a b ha hb
  rw [hs a, hs b]
  by_cases ea : a = k <;> by_cases eb : b = k
  · intro _ _ _ _; rw [ea, eb]
  · rw [if_pos ea, if_neg eb]
    intro hca hcb h1 h2
    exact absurd (hv b hb eb hcb hca h1.symm h2.symm) id
  · rw [if_neg ea, if_pos eb]
    intro hca hcb h1 h2
    exact absurd (hv a ha ea hca hcb h1 h2) id
  · rw [if_neg ea, if_neg eb]
    exact hI.uniq a b ha hb

theorem log_inv_step (now : Nat) (st : Capture) (src dst : Mac) (hI : LogInv st) :
    LogInv (log_deauth_event now st src dst) := by
  cases hf : (List.range 32).find? (deauth_tracks st src dst) with
  | some i =>
    have hi := List.mem_range.mp (List.mem_of_find?_eq_some hf)
    have hp := (deauth_tracks_iff st src dst i).mp (List.find?_some hf)
    rw [log_deauth_hit now st src dst i hf]
    apply log_inv_set st hI i _ _ hi
    intro j hj hne hcj _ h1 h2
    exact hne (hI.uniq j i hj hi hcj hp.1 h1 h2)
  | none =>
    rw [log_deauth_miss now st src dst hf]
    rw [List.find?_eq_none] at hf
    apply log_inv_set st hI _ _ _ (head_index_lt st.g_deauth_head)
    intro j hj _ hc _ h1 h2
    exact hf j (List.mem_range.mpr hj) ((deauth_tracks_iff st src dst j).mpr ⟨hc, h1, h2⟩)

theorem log_inv_init : LogInv capture_init := by
  refine ⟨rfl, ?_⟩
  intro i j hi _ hc
  have : deauth_slot capture_init i = deauth_zero := by
    simp only [deauth_slot, capture_init, List.getD_eq_getElem?_getD, List.getElem?_replicate]
    split <;> rfl
  rw [this] at hc
  exact absurd rfl hc

theorem log_inv_run (evs : List (Nat × Mac × Mac)) : LogInv (deauth_run evs) := by
  have h0 : ∀ st0, LogInv st0 → LogInv
      (evs.foldl (fun st e => log_deauth_event e.1 st e.2.1 e.2.2) st0) := by
    induction evs with
    | nil => exact fun _ h => h
    | cons e rest ih => intro st0 h; exact ih _ (log_inv_step e.1 st0 e.2.1 e.2.2 h)
  exact h0 capture_init log_inv_init

theorem log_deauth_spec (now : Nat) (st : Capture) (hI : LogInv st) (src dst : Mac) :
    (∀ i, i < 32 → deauth_tracks st src dst i = true →
      (log_deauth_event now st src dst).g_deauth_head = st.g_deauth_head ∧
      deauth_slot (log_deauth_event now st src dst) i = deauth_bump now (deauth_slot st i) ∧
      ∀ j, j ≠ i → deauth_slot (log_deauth_event now st src dst) j = deauth_slot st j) ∧
    ((∀ i, i < 32 → deauth_tracks st src dst i = false) →
      (log_deauth_event now st src dst).g_deauth_head = wrap_int (st.g_deauth_head + 1) ∧
      deauth_slot (log_deauth_event now st src dst) (st.g_deauth_head % 32).toNat =
        deauth_event_t.mk 1 now src dst ∧
      ∀ j, j ≠ (st.g_deauth_head % 32).toNat →
        deauth_slot (log_deauth_event now st src dst) j = deauth_slot st j) ∧
    (src ≠ dst → ∀ i, i < 32 → deauth_tracks st src dst i = true →
      deauth_slot (log_deauth_event now st dst src) i = deauth_slot st i ∨
      deauth_slot (log_deauth_event now st dst src) i = deauth_event_t.mk 1 now dst src) := by
  refine ⟨?_, ?_, ?_⟩
  · intro i hi ht
    have hil : i < st.g_deauth_log.length := by rw [hI.len]; exact hi
    rw [log_deauth_hit now st src dst i (find_tracks_of_inv st hI src dst i hi ht)]
    refine ⟨rfl, ?_, ?_⟩
    · rw [deauth_slot_set _ _ _ _ _ _ hil, if_pos rfl]
    · intro j hj
      rw [deauth_slot_set _ _ _ _ _ _ hil, if_neg hj, deauth_slot_mk]
  · intro hn
    have hk := head_index_lt st.g_deauth_head
    have hkl : (st.g_deauth_head % 32).toNat < st.g_deauth_log.length := by
      rw [hI.len]; exact hk
    rw [log_deauth_miss now st src dst (find_tracks_none st src dst hn)]
    refine ⟨rfl, ?_, ?_⟩
    · rw [deauth_slot_set _ _ _ _ _ _ hkl, if_pos rfl]
    · intro j hj
      rw [deauth_slot_set _ _ _ _ _ _ hkl, if_neg hj, deauth_slot_mk]
  · intro hne i hi ht
    have hp := (deauth_tracks_iff st src dst i).mp ht
    cases hf : (List.range 32).find? (deauth_tracks st dst src) with
    | some k =>
      have hk := List.mem_range.mp (List.mem_of_find?_eq_some hf)
      have hq := (deauth_tracks_iff st dst src k).mp (List.find?_some hf)
      have hkl : k < st.g_deauth_log.length := by rw [hI.len]; exact hk
      have hik : i ≠ k := by
        intro e
        rw [e] at hp
        exact hne (hp.2.1.symm.trans hq.2.1)
      left
      rw [log_deauth_hit now st dst src k hf, deauth_slot_set _ _ _ _ _ _ hkl, if_neg hik,
        deauth_slot_mk]
    | none =>
      have hk := head_index_lt st.g_deauth_head
      have hkl : (st.g_deauth_head % 32).toNat < st.g_deauth_log.length := by
        rw [hI.len]; exact hk
      rw [log_deauth_miss now st dst src hf, deauth_slot_set _ _ _ _ _ _ hkl]
      by_cases e : i = (st.g_deauth_head % 32).toNat
      · right; rw [if_pos e]
      · left; rw [if_neg e, deauth_slot_mk]

/-- C20 (amended). In every state of the log reached from start-up and for every ordered
pair (source, destination): if a live slot tracks exactly that pair, logging the event
leaves the head and every other slot unchanged and makes that slot's count
`(count + 1) mod 2 ^ 32` (one more, except that `0xFFFFFFFF` wraps to 0, which marks the
slot empty) and its time `now`; if no live slot tracks the pair, the slot at
`head mod 32` becomes (source, destination, count 1, now), the other slots are unchanged
and the head advances by one as a 32-bit `int`. For source ≠ destination, an event for
the swapped pair never increments the slot of (source, destination): that slot is
unchanged or overwritten by the new entry of the swapped pair. -/
theorem c20_deauth_log (evs : List (Nat × Mac × Mac)) (now : Nat) (src dst : Mac) :
    (∀ i, i < 32 → deauth_tracks (deauth_run evs) src dst i = true →
      (log_deauth_event now (deauth_run evs) src dst).g_deauth_head =
        (deauth_run evs).g_deauth_head ∧
      deauth_slot (log_deauth_event now (deauth_run evs) src dst) i =
        deauth_bump now (deauth_slot (deauth_run evs) i) ∧
      ∀ j, j ≠ i → deauth_slot (log_deauth_event now (deauth_run evs) src dst) j =
        deauth_slot (deauth_run evs) j) ∧
    ((∀ i, i < 32 → deauth_tracks (deauth_run evs) src dst i = false) →
      (log_deauth_event now (deauth_run evs) src dst).g_deauth_head =
        wrap_int ((deauth_run evs).g_deauth_head + 1) ∧
      deauth_slot (log_deauth_event now (deauth_run evs) src dst)
          ((deauth_run evs).g_deauth_head % 32).toNat =
        deauth_event_t.mk 1 now src dst ∧
      ∀ j, j ≠ ((deauth_run evs).g_deauth_head % 32).toNat →
        deauth_slot (log_deauth_event now (deauth_run evs) src dst) j =
          deauth_slot (deauth_run evs) j) ∧
    (src ≠ dst → ∀ i, i < 32 → deauth_tracks (deauth_run evs) src dst i = true →
      deauth_slot (log_deauth_event now (deauth_run evs) dst src) i =
        deauth_slot (deauth_run evs) i ∨
      deauth_slot (log_deauth_event now (deauth_run evs) dst src) i =
        deauth_event_t.mk 1 now dst src) :=
  log_deauth_spec now (deauth_run evs) (log_inv_run evs) src dst

theorem deauth_run_replicate_succ (n : Nat) (e : Nat × Mac × Mac) :
    deauth_run (List.replicate (n + 1) e) =
      log_deauth_event e.1 (deauth_run (List.replicate n e)) e.2.1 e.2.2 := by
  rw [List.replicate_succ', deauth_run, List.foldl_append]
  rfl

theorem repeated_deauth (t : Nat) (s d : Mac) (n : Nat) (hn : n + 1 < 2 ^ 32) :
    deauth_slot (deauth_run (List.replicate (n + 1) (t, s, d))) 0 =
      deauth_event_t.mk (n + 1) t s d := by
  induction n with
  | zero =>
    have hnone : ∀ i, i < 32 → deauth_tracks capture_init s d i = false := by
      intro i _
      have : deauth_slot capture_init i = deauth_zero := by
        simp only [deauth_slot, capture_init, List.getD_eq_getElem?_getD,
          List.getElem?_replicate]
        split <;> rfl
      simp [deauth_tracks, this, deauth_zero]
    have := ((log_deauth_spec t capture_init log_inv_init s d).2.1 hnone).2.1
    exact this
  | succ n ih =>
    have ih := ih (by omega)
    rw [deauth_run_replicate_succ (n + 1) (t, s, d)]
    have hI := log_inv_run (List.replicate (n + 1) (t, s, d))
    generalize deauth_run (List.replicate (n + 1) (t, s, d)) = st at ih hI
    have ht : deauth_tracks st s d 0 = true := by
      rw [deauth_tracks_iff, ih]
      exact ⟨by simp, rfl, rfl⟩
    have := ((log_deauth_spec t st hI s d).1 0 (by decide) ht).2.1
    rw [this, ih]
    simp only [deauth_bump]
    rw [Nat.mod_eq_of_lt hn]

set_option maxRecDepth 100000 in
/-- After one event from `02:00:00:00:00:01` to `02:00:00:00:00:02`, slot 0 tracks the
pair; a second event of the pair leaves the head at 1 and makes slot 0 the pair with
count 2, and an event of the swapped pair leaves slot 0 as it is. -/
theorem c20_deauth_log_witness :
    deauth_tracks (deauth_run [(0, ⟨2, 0, 0, 0, 0, 1⟩, ⟨2, 0, 0, 0, 0, 2⟩)])
        ⟨2, 0, 0, 0, 0, 1⟩ ⟨2, 0, 0, 0, 0, 2⟩ 0 = true ∧
      (log_deauth_event 7 (deauth_run [(0, ⟨2, 0, 0, 0, 0, 1⟩, ⟨2, 0, 0, 0, 0, 2⟩)])
        ⟨2, 0, 0, 0, 0, 1⟩ ⟨2, 0, 0, 0, 0, 2⟩).g_deauth_head = 1 ∧
      deauth_slot (log_deauth_event 7 (deauth_run [(0, ⟨2, 0, 0, 0, 0, 1⟩, ⟨2, 0, 0, 0, 0, 2⟩)])
        ⟨2, 0, 0, 0, 0, 1⟩ ⟨2, 0, 0, 0, 0, 2⟩) 0 =
          deauth_event_t.mk 2 7 ⟨2, 0, 0, 0, 0, 1⟩ ⟨2, 0, 0, 0, 0, 2⟩ ∧
      deauth_slot (log_deauth_event 7 (deauth_run [(0, ⟨2, 0, 0, 0, 0, 1⟩, ⟨2, 0, 0, 0, 0, 2⟩)])
        ⟨2, 0, 0, 0, 0, 2⟩ ⟨2, 0, 0, 0, 0, 1⟩) 0 =
          deauth_event_t.mk 1 0 ⟨2, 0, 0, 0, 0, 1⟩ ⟨2, 0, 0, 0, 0, 2⟩ := by
  have h := (c20_deauth_log [(0, ⟨2, 0, 0, 0, 0, 1⟩, ⟨2, 0, 0, 0, 0, 2⟩)] 7
    ⟨2, 0, 0, 0, 0, 1⟩ ⟨2, 0, 0, 0, 0, 2⟩).1 0 (by decide) (by decide)
  exact ⟨by decide, h.1.trans (by decide), h.2.1.trans (by decide), by decide⟩

/-- C20 fails as stated: after 4294967295 deauthentication frames of one pair, slot 0
tracks the pair with count `0xFFFFFFFF`; logging one more event of the pair makes the
count 0, not one larger. -/
theorem c20_counterexample :
    deauth_tracks c20_log ⟨2, 0, 0, 0, 0, 1⟩ ⟨2, 0, 0, 0, 0, 2⟩ 0 = true ∧
    (deauth_slot c20_log 0).count = 4294967295 ∧
    (deauth_slot (log_deauth_event 1 c20_log ⟨2, 0, 0, 0, 0, 1⟩ ⟨2, 0, 0, 0, 0, 2⟩) 0).count
      = 0 := by
  have h := repeated_deauth 0 ⟨2, 0, 0, 0, 0, 1⟩ ⟨2, 0, 0, 0, 0, 2⟩ 4294967294 (by norm_num)
  have hI := log_inv_run (List.replicate 4294967295 (0, (⟨2, 0, 0, 0, 0, 1⟩ : Mac),
    (⟨2, 0, 0, 0, 0, 2⟩ : Mac)))
  change deauth_slot c20_log 0 = _ at h
  change LogInv c20_log at hI
  have ht : deauth_tracks c20_log ⟨2, 0, 0, 0, 0, 1⟩ ⟨2, 0, 0, 0, 0, 2⟩ 0 = true := by
    rw [deauth_tracks_iff, h]
    exact ⟨by decide, rfl, rfl⟩
  refine ⟨ht, by rw [h], ?_⟩
  rw [((log_deauth_spec 1 c20_log hI _ _).1 0 (by decide) ht).2.1, h]
  decide

/-- C14 fails on the code. The frame `c14_pkt` has ToDS and FromDS set in the second
frame-control octet (`08 03`) and EAPOL after its 30-byte header, yet the header length
used is 24 and the frame is not detected: the flags are read from bits 0 and 1 of the
first octet, `hdr[0]`. With those bits set in the first octet (`0B 00`) the length used
is 30. -/
theorem c14_flags_from_first_octet :
    c14_pkt.payload.take 2 = [0x08, 0x03] ∧ c14_pkt.sig_len = 64 ∧
    (c14_pkt.payload.drop 30).take 8 = [0xAA, 0xAA, 0x03, 0x00, 0x00, 0x00, 0x88, 0x8E] ∧
    sniffer_hdr_len (c14_pkt.payload.getD 0 0) = 24 ∧
    eapol_test c14_pkt = false ∧
    (wifi_sniffer_cb 0 (handler_api_handshake_start capture_init) c14_pkt
      WIFI_PKT_DATA).g_packet_stats.handshake_captured = 0 ∧
    sniffer_hdr_len 0x0B = 30 ∧
    eapol_test { sig_len := 64, payload := eapol_frame 0x0B 0x00 30 0x88 0x8E 26 } = true := by
  decide

/-! ### C15 to C19: frame injection -/

theorem send_iter_sent (drv : Driver) (pt : List Nat) (tm : Mac) (count interval : Int)
    (i : Nat) (s : send_state) :
    (send_iter drv pt tm count interval i s).sent =
      s.sent + (if final_err drv i = ESP_OK then 1 else 0) := by
  unfold send_iter final_err
  simp only []
  split_ifs <;> simp_all

theorem send_iter_failed (drv : Driver) (pt : List Nat) (tm : Mac) (count interval : Int)
    (i : Nat) (s : send_state) :
    (send_iter drv pt tm count interval i s).failed =
      s.failed + (if final_err drv i = ESP_OK then 0 else 1) := by
  unfold send_iter final_err
  simp only []
  split_ifs <;> simp_all

theorem send_iter_last_err (drv : Driver) (pt : List Nat) (tm : Mac) (count interval : Int)
    (i : Nat) (s : send_state) :
    (send_iter drv pt tm count interval i s).last_err =
      (if final_err drv i = ESP_OK then s.last_err else final_err drv i) := by
  unfold send_iter final_err
  simp only []
  split_ifs <;> simp_all

theorem send_iter_packets_sent (drv : Driver) (pt : List Nat) (tm : Mac)
    (count interval : Int) (i : Nat) (s : send_state) :
    (send_iter drv pt tm count interval i s).packets_sent =
      (if final_err drv i = ESP_OK then (s.packets_sent + 1) % 2 ^ 32 else s.packets_sent) := by
  unfold send_iter final_err
  simp only []
  split_ifs <;> simp_all

theorem send_iter_attempts (drv : Driver) (pt : List Nat) (tm : Mac)
    (count interval : Int) (i : Nat) (s : send_state) :
    attempts (send_iter drv pt tm count interval i s).calls = attempts s.calls + 1 := by
  unfold send_iter attempts
  simp only []
  split_ifs <;>
    simp [List.countP_append, radio_call.is_attempt, WIFI_IF_STA, WIFI_IF_AP]

theorem send_iter_sleeps (drv : Driver) (pt : List Nat) (tm : Mac)
    (count interval : Int) (i : Nat) (s : send_state) :
    sleeps (send_iter drv pt tm count interval i s).calls =
      sleeps s.calls + (if (i : Int) < count - 1 then 1 else 0) := by
  unfold send_iter sleeps
  simp only []
  split_ifs <;>
    simp [List.countP_append, radio_call.is_delay]

theorem send_fold_succ (drv : Driver) (pt : List Nat) (tm : Mac) (count interval : Int)
    (n : Nat) (s : send_state) :
    send_fold drv pt tm count interval (n + 1) s =
      send_iter drv pt tm count interval n (send_fold drv pt tm count interval n s) := by
  simp [send_fold, List.range_succ, List.foldl_append]

theorem send_fold_zero (drv : Driver) (pt : List Nat) (tm : Mac) (count interval : Int)
    (s : send_state) : send_fold drv pt tm count interval 0 s = s := rfl

theorem iters_le (count : Int) : iters count ≤ 100 := by
  unfold iters; omega

theorem lt_iters_iff (count : Int) (i : Nat) :
    i < iters count ↔ ((i : Int) < count ∧ i < 100) := by
  unfold iters; omega

/-- The loop with 100 units of fuel runs to its end: it is the first `iters count`
iterations. -/
theorem send_loop_fold (drv : Driver) (pt : List Nat) (tm : Mac) (count interval : Int) :
    ∀ (fuel i : Nat) (s0 : send_state), i ≤ iters count → 100 ≤ i + fuel →
      send_loop drv pt tm count interval fuel i (send_fold drv pt tm count interval i s0) =
        send_fold drv pt tm count interval (iters count) s0 := by
  intro fuel
  induction fuel with
  | zero =>
    intro i s0 hi hf
    have : i = iters count := by have := iters_le count; omega
    subst this
    rfl
  | succ fuel ih =>
    intro i s0 hi hf
    unfold send_loop
    by_cases hc : (i : Int) < count ∧ i < 100
    · rw [if_pos hc, ← send_fold_succ]
      exact ih (i + 1) s0 ((lt_iters_iff count i).2 hc) (by omega)
    · rw [if_neg hc]
      have : i = iters count := by
        have := (lt_iters_iff count i).not.2 hc
        omega
      rw [← this]

theorem send_loop_eq (drv : Driver) (pt : List Nat) (tm : Mac) (count interval : Int)
    (s : send_state) :
    send_loop drv pt tm count interval 100 0 s =
      send_fold drv pt tm count interval (iters count) s :=
  send_loop_fold drv pt tm count interval 100 0 s (Nat.zero_le _) (by omega)

theorem successes_succ (drv : Driver) (n : Nat) :
    successes drv (n + 1) = successes drv n + (if final_err drv n = ESP_OK then 1 else 0) := by
  unfold successes
  rw [List.range_succ, List.filter_append, List.length_append]
  by_cases h : final_err drv n = ESP_OK <;> simp [h]

theorem failures_succ (drv : Driver) (n : Nat) :
    failures drv (n + 1) = failures drv n + (if final_err drv n = ESP_OK then 0 else 1) := by
  unfold failures
  rw [List.range_succ, List.filter_append, List.length_append]
  by_cases h : final_err drv n = ESP_OK <;> simp [h]

theorem successes_add_failures (drv : Driver) (n : Nat) :
    successes drv n + failures drv n = n := by
  induction n with
  | zero => rfl
  | succ n ih =>
    rw [successes_succ, failures_succ]
    split <;> omega

theorem last_failure_succ (drv : Driver) (n : Nat) :
    last_failure drv (n + 1) =
      (if final_err drv n = ESP_OK then last_failure drv n else final_err drv n) := by
  unfold last_failure
  rw [List.range_succ, List.filter_append]
  by_cases h : final_err drv n = ESP_OK
  · simp [h]
  · simp [h, List.getLast?_append]

theorem last_failure_zero (drv : Driver) (n : Nat) (h : failures drv n = 0) :
    last_failure drv n = ESP_OK := by
  unfold failures at h
  unfold last_failure
  rw [List.length_eq_zero] at h
  rw [h]
  rfl

theorem send_fold_sent (drv : Driver) (pt : List Nat) (tm : Mac) (count interval : Int)
    (n : Nat) (s : send_state) :
    (send_fold drv pt tm count interval n s).sent = s.sent + successes drv n := by
  induction n with
  | zero => simp [send_fold_zero, successes]
  | succ n ih =>
    rw [send_fold_succ, send_iter_sent, ih, successes_succ]
    split <;> push_cast <;> ring

theorem send_fold_failed (drv : Driver) (pt : List Nat) (tm : Mac) (count interval : Int)
    (n : Nat) (s : send_state) :
    (send_fold drv pt tm count interval n s).failed = s.failed + failures drv n := by
  induction n with
  | zero => simp [send_fold_zero, failures]
  | succ n ih =>
    rw [send_fold_succ, send_iter_failed, ih, failures_succ]
    split <;> push_cast <;> ring

theorem send_fold_last_err (drv : Driver) (pt : List Nat) (tm : Mac) (count interval : Int)
    (n : Nat) (s : send_state) :
    (send_fold drv pt tm count interval n s).last_err =
      (if failures drv n = 0 then s.last_err else last_failure drv n) := by
  induction n with
  | zero => simp [send_fold_zero, failures]
  | succ n ih =>
    rw [send_fold_succ, send_iter_last_err, ih, failures_succ, last_failure_succ]
    by_cases h : final_err drv n = ESP_OK
    · simp only [h, if_true, Nat.add_zero]
    · simp only [h, if_false]
      rw [if_neg (by omega)]

theorem send_fold_packets_sent (drv : Driver) (pt : List Nat) (tm : Mac)
    (count interval : Int) (n : Nat) (s : send_state) (h : s.packets_sent < 2 ^ 32) :
    (send_fold drv pt tm count interval n s).packets_sent =
      (s.packets_sent + successes drv n) % 2 ^ 32 := by
  induction n with
  | zero =>
    rw [send_fold_zero]
    exact (Nat.mod_eq_of_lt h).symm
  | succ n ih =>
    rw [send_fold_succ, send_iter_packets_sent, ih, successes_succ]
    split
    · rw [Nat.mod_add_mod, Nat.add_assoc]
    · rfl

theorem send_fold_attempts (drv : Driver) (pt : List Nat) (tm : Mac)
    (count interval : Int) (n : Nat) (s : send_state) :
    attempts (send_fold drv pt tm count interval n s).calls = attempts s.calls + n := by
  induction n with
  | zero => rfl
  | succ n ih => rw [send_fold_succ, send_iter_attempts, ih, Nat.add_assoc]

theorem send_fold_sleeps (drv : Driver) (pt : List Nat) (tm : Mac)
    (count interval : Int) (n : Nat) (s : send_state) :
    sleeps (send_fold drv pt tm count interval n s).calls =
      sleeps s.calls + min n (count - 1).toNat := by
  induction n with
  | zero => simp [send_fold_zero]
  | succ n ih =>
    rw [send_fold_succ, send_iter_sleeps, ih]
    split <;> omega

theorem attempts_append_set_mode (l : List radio_call) (m : Nat) :
    attempts (l ++ [radio_call.set_mode m]) = attempts l := by
  simp [attempts, List.countP_append, radio_call.is_attempt]

theorem attempts_append_set_channel (l : List radio_call) (p q : Nat) :
    attempts (l ++ [radio_call.set_channel p q]) = attempts l := by
  simp [attempts, List.countP_append, radio_call.is_attempt]

theorem sleeps_append_set_mode (l : List radio_call) (m : Nat) :
    sleeps (l ++ [radio_call.set_mode m]) = sleeps l := by
  simp [sleeps, List.countP_append, radio_call.is_delay]

theorem sleeps_append_set_channel (l : List radio_call) (p q : Nat) :
    sleeps (l ++ [radio_call.set_channel p q]) = sleeps l := by
  simp [sleeps, List.countP_append, radio_call.is_delay]

theorem run_sent (req : send_request) (sm : Mac) (f0 : List Nat) (took : Bool) (db : DB)
    (drv : Driver) (radio : Radio) (stats : packet_stats_t) :
    (packets_send_run req sm f0 took db drv radio stats).sent =
      successes drv (iters req.count) := by
  simp only [packets_send_run, send_loop_eq, send_fold_sent, zero_add]

theorem run_failed (req : send_request) (sm : Mac) (f0 : List Nat) (took : Bool) (db : DB)
    (drv : Driver) (radio : Radio) (stats : packet_stats_t) :
    (packets_send_run req sm f0 took db drv radio stats).failed =
      failures drv (iters req.count) := by
  simp only [packets_send_run, send_loop_eq, send_fold_failed, zero_add]

theorem run_last_err (req : send_request) (sm : Mac) (f0 : List Nat) (took : Bool) (db : DB)
    (drv : Driver) (radio : Radio) (stats : packet_stats_t) :
    (packets_send_run req sm f0 took db drv radio stats).last_err =
      last_failure drv (iters req.count) := by
  simp only [packets_send_run, send_loop_eq, send_fold_last_err]
  split
  · rename_i h
    exact (last_failure_zero drv _ h).symm
  · rfl

theorem run_response (req : send_request) (sm : Mac) (f0 : List Nat) (took : Bool) (db : DB)
    (drv : Driver) (radio : Radio) (stats : packet_stats_t) :
    (packets_send_run req sm f0 took db drv radio stats).response =
      (if failures drv (iters req.count) = 0 then
        send_response.ok (successes drv (iters req.count))
      else send_response.part (successes drv (iters req.count))
        (failures drv (iters req.count)) (last_failure drv (iters req.count))) := by
  simp only [packets_send_run, send_loop_eq, send_fold_last_err, send_fold_sent,
    send_fold_failed, zero_add, Nat.cast_eq_zero]
  split
  · rfl
  · rfl

theorem run_stats (req : send_request) (sm : Mac) (f0 : List Nat) (took : Bool) (db : DB)
    (drv : Driver) (radio : Radio) (stats : packet_stats_t)
    (h : stats.packets_sent < 2 ^ 32) :
    (packets_send_run req sm f0 took db drv radio stats).stats =
      { stats with
        packets_sent := (stats.packets_sent + successes drv (iters req.count)) % 2 ^ 32 } := by
  simp only [packets_send_run, send_loop_eq]
  rw [send_fold_packets_sent _ _ _ _ _ _ _ h]

theorem run_attempts (req : send_request) (sm : Mac) (f0 : List Nat) (took : Bool) (db : DB)
    (drv : Driver) (radio : Radio) (stats : packet_stats_t) :
    attempts (packets_send_run req sm f0 took db drv radio stats).calls = iters req.count := by
  simp only [packets_send_run, send_loop_eq]
  split_ifs <;>
    simp only [attempts_append_set_mode, attempts_append_set_channel, send_fold_attempts] <;>
    simp [attempts, radio_call.is_attempt]

theorem run_sleeps (req : send_request) (sm : Mac) (f0 : List Nat) (took : Bool) (db : DB)
    (drv : Driver) (radio : Radio) (stats : packet_stats_t) :
    sleeps (packets_send_run req sm f0 took db drv radio stats).calls =
      min (iters req.count) (req.count - 1).toNat := by
  simp only [packets_send_run, send_loop_eq]
  split_ifs <;>
    simp only [sleeps_append_set_mode, sleeps_append_set_channel, send_fold_sleeps] <;>
    simp [sleeps, radio_call.is_delay]

theorem run_radio (req : send_request) (sm : Mac) (f0 : List Nat) (took : Bool) (db : DB)
    (drv : Driver) (radio : Radio) (stats : packet_stats_t)
    (h1 : drv.ch_err = ESP_OK) (h2 : drv.mode_err = ESP_OK)
    (h3 : drv.restore_mode_err = ESP_OK) (h4 : drv.restore_ch_err = ESP_OK) :
    (packets_send_run req sm f0 took db drv radio stats).radio =
      { radio with
        second :=
          if 0 < target_channel_of took db (str_to_mac req.bssid sm) ∧
              target_channel_of took db (str_to_mac req.bssid sm) ≤ 14 ∧
              req.packet_type ≠ cstr "probe" ∧
              target_channel_of took db (str_to_mac req.bssid sm) = radio.primary then
            WIFI_SECOND_CHAN_NONE
          else radio.second } := by
  unfold packets_send_run esp_wifi_set_channel esp_wifi_set_mode
  simp only [h1, h2, h3, h4, if_true]
  generalize target_channel_of took db (str_to_mac req.bssid sm) = tc
  obtain ⟨p, q, m⟩ := radio
  by_cases a4 : tc = p
  · subst a4
    by_cases a1 : 0 < tc <;> by_cases a2 : tc ≤ 14 <;>
      by_cases a3 : req.packet_type = cstr "probe" <;>
      by_cases a5 : m = WIFI_MODE_AP <;>
      simp [a1, a2, a3, a5]
  · by_cases a1 : 0 < tc <;> by_cases a2 : tc ≤ 14 <;>
      by_cases a3 : req.packet_type = cstr "probe" <;>
      by_cases a5 : m = WIFI_MODE_AP <;>
      simp [a1, a2, a3, a4, a5]

theorem final_err_drv_ok (i : Nat) : final_err drv_ok i = ESP_OK := rfl

theorem successes_drv_ok (n : Nat) : successes drv_ok n = n := by
  induction n with
  | zero => rfl
  | succ n ih => rw [successes_succ, ih, final_err_drv_ok, if_pos rfl]

theorem failures_drv_ok (n : Nat) : failures drv_ok n = 0 := by
  have := successes_add_failures drv_ok n
  rw [successes_drv_ok] at this
  omega

theorem send_iter_last_call (drv : Driver) (pt : List Nat) (tm : Mac)
    (count interval : Int) (i : Nat) (s : send_state) (h : (i : Int) < count - 1) :
    (send_iter drv pt tm count interval i s).calls.getLast? =
      some (radio_call.delay interval) := by
  unfold send_iter
  simp only [h, if_true, List.getLast?_append, List.getLast?_singleton, Option.or_some]

/-- C15. For every request (every count, negative or above 100 included), every result
of the driver calls and every state: the loop attempts exactly min(max(count, 0), 100)
frames; `sent` and `failed` are not negative and add up to that number, so
`sent + failed ≤ 100` and at most 100 frames are sent, also for `count = 500`. -/
theorem c15_injection_cap (req : send_request) (sm : Mac) (f0 : List Nat) (took : Bool)
    (db : DB) (drv : Driver) (radio : Radio) (stats : packet_stats_t) :
    (attempts (packets_send_run req sm f0 took db drv radio stats).calls : Int) =
        min (max req.count 0) 100 ∧
      (packets_send_run req sm f0 took db drv radio stats).sent +
          (packets_send_run req sm f0 took db drv radio stats).failed =
        min (max req.count 0) 100 ∧
      0 ≤ (packets_send_run req sm f0 took db drv radio stats).sent ∧
      0 ≤ (packets_send_run req sm f0 took db drv radio stats).failed ∧
      (packets_send_run req sm f0 took db drv radio stats).sent +
          (packets_send_run req sm f0 took db drv radio stats).failed ≤ 100 ∧
      (packets_send_run req sm f0 took db drv radio stats).sent ≤ 100 ∧
      attempts (packets_send_run { req with count := 500 } sm f0 took db drv radio stats).calls =
        100 := by
  have h := successes_add_failures drv (iters req.count)
  have hi : (iters req.count : Int) = min (max req.count 0) 100 := by
    unfold iters; omega
  rw [run_attempts, run_sent, run_failed, run_attempts]
  refine ⟨hi, ?_, ?_, ?_, ?_, ?_, ?_⟩
  · rw [← hi]; exact_mod_cast h
  · exact Int.natCast_nonneg _
  · exact Int.natCast_nonneg _
  · have := iters_le req.count; omega
  · have := iters_le req.count; omega
  · rfl

/-- C16 fails on the code for every count above 100. The loop attempts
min(max(count, 0), 100) frames and sleeps after the frame of index `i` when
`i < count - 1`: for `count ≤ 100` that is one sleep less than frames (none when no frame
is attempted), for `count > 100` it is 100 sleeps for 100 frames, the last one after the
final frame. With `count = 500`, the radio in station mode and no channel found, the last
call of the handler is that sleep. -/
theorem c16_sleeps (req : send_request) (sm : Mac) (f0 : List Nat) (took : Bool)
    (db : DB) (drv : Driver) (radio : Radio) (stats : packet_stats_t) :
    attempts (packets_send_run req sm f0 took db drv radio stats).calls = iters req.count ∧
      sleeps (packets_send_run req sm f0 took db drv radio stats).calls =
        (if req.count ≤ 100 then iters req.count - 1 else 100) ∧
      attempts (packets_send_run { req with count := 500 } sm f0 false db drv
        { radio with mode := 1 } stats).calls = 100 ∧
      sleeps (packets_send_run { req with count := 500 } sm f0 false db drv
        { radio with mode := 1 } stats).calls = 100 ∧
      (packets_send_run { req with count := 500 } sm f0 false db drv
        { radio with mode := 1 } stats).calls.getLast? =
          some (radio_call.delay req.interval) := by
  rw [run_attempts, run_sleeps, run_attempts, run_sleeps]
  refine ⟨rfl, ?_, rfl, rfl, ?_⟩
  · unfold iters; split <;> omega
  · simp only [packets_send_run, send_loop_eq, target_channel_of]
    have e : iters 500 = 99 + 1 := rfl
    simp only [e, send_fold_succ]
    simp only [Bool.false_eq_true, if_false, lt_self_iff_false, decide_False, Bool.false_and,
      WIFI_MODE_AP, OfNat.one_ne_ofNat, Bool.and_false]
    exact send_iter_last_call _ _ _ _ _ _ _ (by norm_num)

theorem run_response_ne (req : send_request) (sm : Mac) (f0 : List Nat) (took : Bool)
    (db : DB) (drv : Driver) (radio : Radio) (stats : packet_stats_t) :
    (packets_send_run req sm f0 took db drv radio stats).response ≠ send_response.fail500 := by
  rw [run_response]
  split <;> simp

theorem handler_of_parse_none (body : List Nat) (sm : Mac) (f0 : List Nat) (took : Bool)
    (db : DB) (drv : Driver) (radio : Radio) (stats : packet_stats_t)
    (h : packets_send_parse body = none) :
    handler_api_packets_send body sm f0 took db drv radio stats =
      { radio := radio, calls := [], sent := 0, failed := 0, last_err := ESP_OK,
        stats := stats, response := send_response.fail500 } := by
  simp only [handler_api_packets_send, h]

theorem handler_of_parse_some (body : List Nat) (sm : Mac) (f0 : List Nat) (took : Bool)
    (db : DB) (drv : Driver) (radio : Radio) (stats : packet_stats_t) (req : send_request)
    (h : packets_send_parse body = some req) :
    handler_api_packets_send body sm f0 took db drv radio stats =
      packets_send_run req sm f0 took db drv radio stats := by
  simp only [handler_api_packets_send, h]

theorem handler_rejection (body : List Nat) (sm : Mac) (f0 : List Nat) (took : Bool)
    (db : DB) (drv : Driver) (radio : Radio) (stats : packet_stats_t) :
    ((handler_api_packets_send body sm f0 took db drv radio stats).response =
        send_response.fail500 ↔ packets_send_parse body = none) ∧
      (packets_send_parse body = none →
        (handler_api_packets_send body sm f0 took db drv radio stats).calls = [] ∧
        (handler_api_packets_send body sm f0 took db drv radio stats).radio = radio ∧
        (handler_api_packets_send body sm f0 took db drv radio stats).stats = stats) ∧
      (∀ req, packets_send_parse body = some req →
        handler_api_packets_send body sm f0 took db drv radio stats =
          packets_send_run req sm f0 took db drv radio stats ∧
        attempts (handler_api_packets_send body sm f0 took db drv radio stats).calls =
          iters req.count) := by
  refine ⟨?_, ?_, ?_⟩
  · cases h : packets_send_parse body with
    | none => simp [handler_of_parse_none _ _ _ _ _ _ _ _ h]
    | some req =>
      rw [handler_of_parse_some _ _ _ _ _ _ _ _ req h]
      simp [run_response_ne]
  · intro h
    rw [handler_of_parse_none _ _ _ _ _ _ _ _ h]
    exact ⟨rfl, rfl, rfl⟩
  · intro req h
    rw [handler_of_parse_some _ _ _ _ _ _ _ _ req h, run_attempts]
    exact ⟨rfl, rfl⟩

set_option maxRecDepth 100000 in
theorem parse_send_body_addr :
    packets_send_parse send_body_addr =
      some { bssid := cstr "zz:zz:zz:zz:zz:zz", packet_type := cstr "deauth", count := 500,
             interval := 100 } := by
  decide

theorem strchr_none_iff (s : List Nat) (c : Nat) : strchr s c = none ↔ c ∉ s := by
  induction s with
  | nil => simp [strchr]
  | cons x t ih =>
    unfold strchr
    by_cases h : x = c
    · simp [h]
    · rw [if_neg h, ih]
      simp [Ne.symm h]

theorem strstr_none_iff (s n : List Nat) :
    strstr s n = none ↔ ¬ ∃ pre post, s = pre ++ n ++ post := by
  induction s with
  | nil =>
    unfold strstr
    by_cases h : n = []
    · simp only [h, if_true, reduceCtorEq, false_iff, not_not]
      exact ⟨[], [], rfl⟩
    · simp only [h, if_false, true_iff]
      rintro ⟨pre, post, e⟩
      have := congrArg List.length e
      simp only [List.length_nil, List.length_append] at this
      have : n.length = 0 := by omega
      exact h (List.length_eq_zero.mp this)
  | cons c t ih =>
    unfold strstr
    by_cases h : n.isPrefixOf (c :: t) = true
    · rw [if_pos h]
      simp only [reduceCtorEq, false_iff, not_not]
      obtain ⟨post, hp⟩ := List.isPrefixOf_iff_prefix.mp h
      exact ⟨[], post, by simpa using hp.symm⟩
    · rw [if_neg h, ih]
      constructor
      · rintro hn ⟨pre, post, e⟩
        cases pre with
        | nil =>
          apply h
          exact List.isPrefixOf_iff_prefix.mpr ⟨post, by simpa using e.symm⟩
        | cons a pre2 =>
          simp only [List.cons_append, List.cons.injEq] at e
          exact hn ⟨pre2, post, e.2⟩
      · rintro hn ⟨pre, post, e⟩
        exact hn ⟨c :: pre, post, by simp [e]⟩

theorem strstr_some_spec (s n t : List Nat) (h : strstr s n = some t) :
    (∃ pre, s = pre ++ t) ∧ (∃ post, t = n ++ post) ∧
      ∀ pre post, s = pre ++ n ++ post → ∃ q, t = q ++ n ++ post := by
  induction s with
  | nil =>
    unfold strstr at h
    by_cases hn : n = []
    · simp only [hn, if_true, Option.some.injEq] at h
      subst h; subst hn
      refine ⟨⟨[], rfl⟩, ⟨[], rfl⟩, ?_⟩
      intro pre post e
      exact ⟨pre, by simpa using e⟩
    · simp [hn] at h
  | cons c r ih =>
    unfold strstr at h
    by_cases hp : n.isPrefixOf (c :: r) = true
    · rw [if_pos hp] at h
      simp only [Option.some.injEq] at h
      subst h
      obtain ⟨post, hpost⟩ := List.isPrefixOf_iff_prefix.mp hp
      exact ⟨⟨[], rfl⟩, ⟨post, hpost.symm⟩, fun pre post e => ⟨pre, e⟩⟩
    · rw [if_neg hp] at h
      obtain ⟨⟨p0, hp0⟩, h1, h2⟩ := ih h
      refine ⟨⟨c :: p0, by simp [hp0]⟩, h1, ?_⟩
      intro pre post e
      cases pre with
      | nil =>
        exfalso
        apply hp
        exact List.isPrefixOf_iff_prefix.mpr ⟨post, by simpa using e.symm⟩
      | cons a pre2 =>
        simp only [List.cons_append, List.cons.injEq] at e
        exact h2 pre2 post e.2

/-- The two tests the handler makes for a key, `strstr` for the key and `strchr` for a
colon from there on, succeed exactly when the key occurs with a colon after it. -/
theorem key_found_iff (buf key : List Nat) (hk : 58 ∉ key) :
    (∃ t, strstr buf key = some t ∧ strchr t 58 ≠ none) ↔ key_with_colon buf key := by
  constructor
  · rintro ⟨t, ht, hc⟩
    obtain ⟨hsome, ⟨post, hpost⟩, _⟩ := strstr_some_spec buf key t ht
    have hmem : 58 ∈ t := by
      by_contra hn
      exact hc ((strchr_none_iff t 58).mpr hn)
    rw [hpost, List.mem_append] at hmem
    have hpo : 58 ∈ post := hmem.resolve_left hk
    obtain ⟨pre, e⟩ := hsome
    exact ⟨pre, post, by rw [e, hpost, List.append_assoc], hpo⟩
  · rintro ⟨pre, post, e, hc⟩
    cases ht : strstr buf key with
    | none =>
      exact absurd ⟨pre, post, e⟩ ((strstr_none_iff buf key).mp ht)
    | some t =>
      obtain ⟨_, _, h2⟩ := strstr_some_spec buf key t ht
      obtain ⟨q, hq⟩ := h2 pre post e
      refine ⟨t, rfl, ?_⟩
      intro hn
      have := (strchr_none_iff t 58).mp hn
      apply this
      rw [hq]
      exact List.mem_append_right _ hc

theorem parse_isSome_iff (body : List Nat) :
    (packets_send_parse body).isSome = true ↔
      (body.take 511 ≠ [] ∧ key_with_colon (request_text body) (cstr "\"bssid\"") ∧
        key_with_colon (request_text body) (cstr "\"type\"") ∧
        key_with_colon (request_text body) (cstr "\"count\"")) := by
  rw [← key_found_iff _ _ (by decide), ← key_found_iff _ _ (by decide),
    ← key_found_iff _ _ (by decide)]
  unfold packets_send_parse request_text
  simp only []
  by_cases h0 : (body.take 511).length = 0
  · have : body.take 511 = [] := List.length_eq_zero.mp h0
    simp [h0, this]
  · have hne : body.take 511 ≠ [] := fun h => h0 (by rw [h]; rfl)
    rw [if_neg h0]
    generalize (body.take 511).takeWhile (fun c => decide (c ≠ 0)) = buf
    cases hb : strstr buf (cstr "\"bssid\"") with
    | none => simp [hne]
    | some bs =>
      cases ht : strstr buf (cstr "\"type\"") with
      | none => simp [hne]
      | some ts =>
        cases hc : strstr buf (cstr "\"count\"") with
        | none => simp [hne]
        | some cs =>
          simp only [Option.some.injEq, exists_eq_left', ne_eq, hne, not_false_eq_true,
            true_and]
          cases hb2 : strchr bs 58 with
          | none => simp
          | some bv =>
            cases ht2 : strchr ts 58 with
            | none => simp
            | some tv =>
              cases hc2 : strchr cs 58 with
              | none => simp
              | some cv => simp

theorem craft_deauth_take (frame : List Nat) (target bssid : Mac) (h : 26 ≤ frame.length) :
    (craft_deauth_frame frame target bssid).take 26 =
      [0xC0, 0x00, 0x00, 0x00] ++ target.bytes ++ bssid.bytes ++ bssid.bytes ++
        [0x00, 0x00, 0x07, 0x00] := by
  obtain ⟨a0, a1, a2, a3, a4, a5, a6, a7, a8, a9, a10, a11, a12, a13, a14, a15, a16, a17,
    a18, a19, a20, a21, a22, a23, a24, a25, rest, rfl⟩ := prefix26 frame h
  rw [craft_deauth_cons]
  simp only [Mac.bytes, List.cons_append, List.nil_append, List.take_succ_cons, List.take_zero]

theorem send_iter_calls_mono (drv : Driver) (pt : List Nat) (tm : Mac)
    (count interval : Int) (i : Nat) (s : send_state) (x : radio_call) (h : x ∈ s.calls) :
    x ∈ (send_iter drv pt tm count interval i s).calls := by
  unfold send_iter
  simp only []
  split_ifs <;> simp [List.mem_append, h]

theorem send_iter_tx_mem (drv : Driver) (tm : Mac) (count interval : Int) (i : Nat)
    (s : send_state) (h : 26 ≤ s.frame.length) :
    radio_call.tx WIFI_IF_STA (deauth_bytes tm) ∈
      (send_iter drv (cstr "deauth") tm count interval i s).calls := by
  have e := craft_deauth_take s.frame ⟨0xFF, 0xFF, 0xFF, 0xFF, 0xFF, 0xFF⟩ tm h
  have e2 : deauth_bytes tm = (craft_deauth_frame s.frame ⟨0xFF, 0xFF, 0xFF, 0xFF, 0xFF, 0xFF⟩
      tm).take 26 := by
    rw [e]; rfl
  rw [e2]
  unfold send_iter
  dsimp only
  rw [if_pos rfl]
  generalize craft_deauth_frame s.frame ⟨0xFF, 0xFF, 0xFF, 0xFF, 0xFF, 0xFF⟩ tm = fr
  split_ifs <;> simp only [List.mem_append, List.mem_singleton, true_or, or_true]

theorem send_fold_mem (drv : Driver) (pt : List Nat) (tm : Mac) (count interval : Int)
    (n : Nat) (s : send_state) (x : radio_call)
    (h : x ∈ (send_iter drv pt tm count interval 0 s).calls) :
    x ∈ (send_fold drv pt tm count interval (n + 1) s).calls := by
  induction n with
  | zero => exact h
  | succ n ih =>
    rw [send_fold_succ]
    exact send_iter_calls_mono _ _ _ _ _ _ _ x ih

theorem run_tx_mem (req : send_request) (sm : Mac) (f0 : List Nat) (took : Bool) (db : DB)
    (drv : Driver) (radio : Radio) (stats : packet_stats_t)
    (ht : req.packet_type = cstr "deauth") (hc : 0 < req.count) (hf : 26 ≤ f0.length) :
    radio_call.tx WIFI_IF_STA (deauth_bytes (str_to_mac req.bssid sm)) ∈
      (packets_send_run req sm f0 took db drv radio stats).calls := by
  obtain ⟨n, hn⟩ : ∃ n, iters req.count = n + 1 :=
    ⟨iters req.count - 1, by unfold iters; omega⟩
  have key : ∀ s : send_state, s.frame = f0 →
      radio_call.tx WIFI_IF_STA (deauth_bytes (str_to_mac req.bssid sm)) ∈
        (send_fold drv req.packet_type (str_to_mac req.bssid sm) req.count req.interval
          (iters req.count) s).calls := by
    intro s hs
    rw [hn, ht]
    exact send_fold_mem _ _ _ _ _ _ _ _ (send_iter_tx_mem _ _ _ _ _ _ (by rw [hs]; exact hf))
  simp only [packets_send_run, send_loop_eq]
  split_ifs <;>
    first
    | exact key _ rfl
    | exact List.mem_append_left _ (key _ rfl)
    | exact List.mem_append_left _ (List.mem_append_left _ (key _ rfl))

theorem str_to_mac_none (s : List Nat) (sm : Mac) (h : scan_hhx s = none) :
    str_to_mac s sm = sm := by
  unfold str_to_mac sscanf_mac
  rw [h]
  cases sm
  rfl

theorem handler_rejected_iff (body : List Nat) (sm : Mac) (f0 : List Nat) (took : Bool)
    (db : DB) (drv : Driver) (radio : Radio) (stats : packet_stats_t) :
    (handler_api_packets_send body sm f0 took db drv radio stats).response =
        send_response.fail500 ↔
      (body.take 511 = [] ∨ ¬ key_with_colon (request_text body) (cstr "\"bssid\"") ∨
        ¬ key_with_colon (request_text body) (cstr "\"type\"") ∨
        ¬ key_with_colon (request_text body) (cstr "\"count\"")) := by
  rw [(handler_rejection body sm f0 took db drv radio stats).1]
  have h := parse_isSome_iff body
  cases hp : packets_send_parse body with
  | none =>
    rw [hp] at h
    simp only [Option.isSome_none, Bool.false_eq_true, false_iff, true_iff] at h ⊢
    by_contra hn
    simp only [not_or, not_not] at hn
    exact h ⟨hn.1, hn.2.1, hn.2.2.1, hn.2.2.2⟩
  | some r =>
    rw [hp] at h
    simp only [Option.isSome_some, true_iff] at h
    simp only [reduceCtorEq, false_iff, not_or, not_not]
    exact h

/-- C17 fails on the code: the handler does not validate the target address (nor the
count). A request is answered with 500 exactly when nothing was received or one of the
keys `"bssid"`, `"type"`, `"count"` does not occur with a colon after it, and then no
call is issued and the radio and the statistics are untouched. Every request that is read
is served, whatever its address text and its count: the loop attempts
min(max(count, 0), 100) frames. `str_to_mac` does not report a failed conversion: when
the address text does not begin with a hexadecimal byte, the buffer `target_mac`, which
the handler does not initialise, is left as it was (`sm`), and whatever it holds is used
as the target: a deauthentication request with a count of at least 1 transmits the frame
carrying those bytes as source address and BSSID. -/
theorem c17_address_not_validated (body : List Nat) (req : send_request) (sm : Mac)
    (f0 : List Nat) (took : Bool) (db : DB) (drv : Driver) (radio : Radio)
    (stats : packet_stats_t) :
    ((handler_api_packets_send body sm f0 took db drv radio stats).response =
          send_response.fail500 ↔
        (body.take 511 = [] ∨ ¬ key_with_colon (request_text body) (cstr "\"bssid\"") ∨
          ¬ key_with_colon (request_text body) (cstr "\"type\"") ∨
          ¬ key_with_colon (request_text body) (cstr "\"count\""))) ∧
      ((handler_api_packets_send body sm f0 took db drv radio stats).response =
          send_response.fail500 →
        (handler_api_packets_send body sm f0 took db drv radio stats).calls = [] ∧
        (handler_api_packets_send body sm f0 took db drv radio stats).radio = radio ∧
        (handler_api_packets_send body sm f0 took db drv radio stats).stats = stats) ∧
      (packets_send_parse body = some req →
        handler_api_packets_send body sm f0 took db drv radio stats =
          packets_send_run req sm f0 took db drv radio stats ∧
        (handler_api_packets_send body sm f0 took db drv radio stats).response ≠
          send_response.fail500 ∧
        attempts (handler_api_packets_send body sm f0 took db drv radio stats).calls =
          iters req.count) ∧
      (scan_hhx req.bssid = none → str_to_mac req.bssid sm = sm) ∧
      (req.packet_type = cstr "deauth" → 0 < req.count → 26 ≤ f0.length →
        radio_call.tx WIFI_IF_STA (deauth_bytes (str_to_mac req.bssid sm)) ∈
          (packets_send_run req sm f0 took db drv radio stats).calls) := by
  have hr := handler_rejection body sm f0 took db drv radio stats
  refine ⟨handler_rejected_iff body sm f0 took db drv radio stats, ?_, ?_,
    str_to_mac_none req.bssid sm, run_tx_mem req sm f0 took db drv radio stats⟩
  · intro h
    exact hr.2.1 (hr.1.mp h)
  · intro h
    have h2 := hr.2.2 req h
    refine ⟨h2.1, ?_, h2.2⟩
    rw [h2.1]
    exact run_response_ne _ _ _ _ _ _ _ _

set_option maxRecDepth 1000000 in
/-- The request `send_body_bad` for 2 deauthentication frames to `zz:zz:zz:zz:zz:zz`, with
the buffer `target_mac` holding `DE:AD:BE:EF:00:01` on entry and the radio in AP-only
mode: the request is read, no byte of the address converts, the mode is changed, two
frames in the name of `DE:AD:BE:EF:00:01` are transmitted, and the answer is `ok`. -/
theorem c17_address_not_validated_witness :
    packets_send_parse send_body_bad =
        some ⟨cstr "zz:zz:zz:zz:zz:zz", cstr "deauth", 2, 100⟩ ∧
      str_to_mac (cstr "zz:zz:zz:zz:zz:zz") ⟨0xDE, 0xAD, 0xBE, 0xEF, 0x00, 0x01⟩ =
        ⟨0xDE, 0xAD, 0xBE, 0xEF, 0x00, 0x01⟩ ∧
      radio_call.tx WIFI_IF_STA
          [0xC0, 0x00, 0x00, 0x00, 0xFF, 0xFF, 0xFF, 0xFF, 0xFF, 0xFF,
           0xDE, 0xAD, 0xBE, 0xEF, 0x00, 0x01, 0xDE, 0xAD, 0xBE, 0xEF, 0x00, 0x01,
           0x00, 0x00, 0x07, 0x00] ∈
        (packets_send_run ⟨cstr "zz:zz:zz:zz:zz:zz", cstr "deauth", 2, 100⟩
          ⟨0xDE, 0xAD, 0xBE, 0xEF, 0x00, 0x01⟩ (List.replicate 128 0) true inj_db drv_ok
          ⟨1, 0, WIFI_MODE_AP⟩ ⟨0, false, 0⟩).calls ∧
      handler_api_packets_send send_body_bad ⟨0xDE, 0xAD, 0xBE, 0xEF, 0x00, 0x01⟩
          (List.replicate 128 0) true inj_db drv_ok ⟨1, 0, WIFI_MODE_AP⟩ ⟨0, false, 0⟩ =
        { radio := ⟨1, 0, WIFI_MODE_AP⟩,
          calls := [radio_call.set_mode WIFI_MODE_APSTA,
                    radio_call.tx WIFI_IF_STA (deauth_bytes ⟨0xDE, 0xAD, 0xBE, 0xEF, 0x00, 0x01⟩),
                    radio_call.delay 100,
                    radio_call.tx WIFI_IF_STA (deauth_bytes ⟨0xDE, 0xAD, 0xBE, 0xEF, 0x00, 0x01⟩),
                    radio_call.set_mode WIFI_MODE_AP],
          sent := 2, failed := 0, last_err := ESP_OK, stats := ⟨2, false, 0⟩,
          response := send_response.ok 2 } := by
  have h := c17_address_not_validated send_body_bad
    ⟨cstr "zz:zz:zz:zz:zz:zz", cstr "deauth", 2, 100⟩ ⟨0xDE, 0xAD, 0xBE, 0xEF, 0x00, 0x01⟩
    (List.replicate 128 0) true inj_db drv_ok ⟨1, 0, WIFI_MODE_AP⟩ ⟨0, false, 0⟩
  have h4 := h.2.2.2.1 (by decide)
  have h5 := h.2.2.2.2 rfl (by decide) (by decide)
  rw [h4] at h5
  exact ⟨by decide, h4, h5, by decide⟩

set_option maxRecDepth 100000 in
/-- Three requests. Without the key `count` the answer is 500 and no call is issued. With
the count 500 and the target `zz:zz:zz:zz:zz:zz`, 100 frames are attempted and the answer
is `ok` with `sent = 100`. With the count -1 to a known access point on channel 6, the
radio on channel 1 in AP-only mode, no frame is sent, but the channel is switched and
restored and the mode is changed and restored. -/
theorem send_examples :
    handler_api_packets_send send_body_nokey ⟨9, 9, 9, 9, 9, 9⟩ (List.replicate 128 0) true
          inj_db drv_ok ⟨1, 0, WIFI_MODE_AP⟩ ⟨0, false, 0⟩ =
        { radio := ⟨1, 0, WIFI_MODE_AP⟩, calls := [], sent := 0, failed := 0,
          last_err := ESP_OK, stats := ⟨0, false, 0⟩, response := send_response.fail500 } ∧
      (handler_api_packets_send send_body_addr ⟨9, 9, 9, 9, 9, 9⟩ (List.replicate 128 0) true
        inj_db drv_ok ⟨1, 0, WIFI_MODE_AP⟩ ⟨0, false, 0⟩).response = send_response.ok 100 ∧
      attempts (handler_api_packets_send send_body_addr ⟨9, 9, 9, 9, 9, 9⟩
        (List.replicate 128 0) true inj_db drv_ok ⟨1, 0, WIFI_MODE_AP⟩ ⟨0, false, 0⟩).calls =
          100 ∧
      handler_api_packets_send send_body_neg ⟨9, 9, 9, 9, 9, 9⟩ (List.replicate 128 0) true
          inj_db drv_ok ⟨1, 0, WIFI_MODE_AP⟩ ⟨0, false, 0⟩ =
        { radio := ⟨1, 0, WIFI_MODE_AP⟩,
          calls := [radio_call.set_channel 6 WIFI_SECOND_CHAN_NONE,
                    radio_call.set_mode WIFI_MODE_APSTA,
                    radio_call.set_mode WIFI_MODE_AP,
                    radio_call.set_channel 1 0],
          sent := 0, failed := 0, last_err := ESP_OK, stats := ⟨0, false, 0⟩,
          response := send_response.ok 0 } := by
  refine ⟨by decide, ?_, ?_, by decide⟩
  · rw [handler_of_parse_some _ _ _ _ _ _ _ _ _ parse_send_body_addr, run_response,
      failures_drv_ok, successes_drv_ok, if_pos rfl]
    rfl
  · rw [handler_of_parse_some _ _ _ _ _ _ _ _ _ parse_send_body_addr, run_attempts]
    rfl

theorem run_radio_iff (req : send_request) (sm : Mac) (f0 : List Nat) (took : Bool) (db : DB)
    (drv : Driver) (radio : Radio) (stats : packet_stats_t)
    (h1 : drv.ch_err = ESP_OK) (h2 : drv.mode_err = ESP_OK)
    (h3 : drv.restore_mode_err = ESP_OK) (h4 : drv.restore_ch_err = ESP_OK) :
    (packets_send_run req sm f0 took db drv radio stats).radio = radio ↔
      ¬ (0 < target_channel_of took db (str_to_mac req.bssid sm) ∧
          target_channel_of took db (str_to_mac req.bssid sm) ≤ 14 ∧
          req.packet_type ≠ cstr "probe" ∧
          target_channel_of took db (str_to_mac req.bssid sm) = radio.primary ∧
          radio.second ≠ WIFI_SECOND_CHAN_NONE) := by
  rw [run_radio req sm f0 took db drv radio stats h1 h2 h3 h4]
  obtain ⟨p, q, m⟩ := radio
  simp only [Radio.mk.injEq, true_and, and_true]
  by_cases hc : 0 < target_channel_of took db (str_to_mac req.bssid sm) ∧
      target_channel_of took db (str_to_mac req.bssid sm) ≤ 14 ∧
      req.packet_type ≠ cstr "probe" ∧
      target_channel_of took db (str_to_mac req.bssid sm) = p
  · rw [if_pos hc]
    constructor
    · intro e hn
      exact hn.2.2.2.2 e.symm
    · intro hn
      by_contra hq
      exact hn ⟨hc.1, hc.2.1, hc.2.2.1, hc.2.2.2, fun e => hq e.symm⟩
  · rw [if_neg hc]
    simp only [true_iff]
    intro hn
    exact hc ⟨hn.1, hn.2.1, hn.2.2.1, hn.2.2.2.1⟩

/-- C18 fails on the code. With the set-mode and set-channel calls succeeding and for
every result of the transmissions, the mode and the primary channel after the run are
those before the run, but the secondary channel, which the handler reads and passes to
the restoring call, is not always: when the channel is switched to the target's channel
and that is the channel the radio is on, the switch sets the secondary channel to
`WIFI_SECOND_CHAN_NONE` and the restoring call is skipped by the guard
`target_channel != original_primary`. The radio is back in its state before the run
exactly when that does not happen to a radio with a secondary channel. -/
theorem c18_secondary_channel_lost (req : send_request) (sm : Mac) (f0 : List Nat)
    (took : Bool) (db : DB) (drv : Driver) (radio : Radio) (stats : packet_stats_t)
    (h1 : drv.ch_err = ESP_OK) (h2 : drv.mode_err = ESP_OK)
    (h3 : drv.restore_mode_err = ESP_OK) (h4 : drv.restore_ch_err = ESP_OK) :
    (packets_send_run req sm f0 took db drv radio stats).radio.mode = radio.mode ∧
      (packets_send_run req sm f0 took db drv radio stats).radio.primary = radio.primary ∧
      (packets_send_run req sm f0 took db drv radio stats).radio.second =
        (if 0 < target_channel_of took db (str_to_mac req.bssid sm) ∧
            target_channel_of took db (str_to_mac req.bssid sm) ≤ 14 ∧
            req.packet_type ≠ cstr "probe" ∧
            target_channel_of took db (str_to_mac req.bssid sm) = radio.primary then
          WIFI_SECOND_CHAN_NONE
        else radio.second) ∧
      ((packets_send_run req sm f0 took db drv radio stats).radio = radio ↔
        ¬ (0 < target_channel_of took db (str_to_mac req.bssid sm) ∧
            target_channel_of took db (str_to_mac req.bssid sm) ≤ 14 ∧
            req.packet_type ≠ cstr "probe" ∧
            target_channel_of took db (str_to_mac req.bssid sm) = radio.primary ∧
            radio.second ≠ WIFI_SECOND_CHAN_NONE)) := by
  refine ⟨?_, ?_, ?_, run_radio_iff req sm f0 took db drv radio stats h1 h2 h3 h4⟩
  · rw [run_radio req sm f0 took db drv radio stats h1 h2 h3 h4]
  · rw [run_radio req sm f0 took db drv radio stats h1 h2 h3 h4]
  · rw [run_radio req sm f0 took db drv radio stats h1 h2 h3 h4]

set_option maxRecDepth 1000000 in
/-- One deauthentication frame to the access point `02:00:00:00:00:01`, known on channel
6, with the radio on channel 6 with secondary channel 1 (above) in AP-only mode and every
driver call succeeding: the channel is set to (6, none), the mode is changed and
restored, no restoring set-channel call is issued, and the radio ends on channel 6
without secondary channel. -/
theorem c18_secondary_channel_lost_witness :
    drv_ok.ch_err = ESP_OK ∧ drv_ok.mode_err = ESP_OK ∧
      drv_ok.restore_mode_err = ESP_OK ∧ drv_ok.restore_ch_err = ESP_OK ∧
      target_channel_of true inj_db
        (str_to_mac (cstr "02:00:00:00:00:01") ⟨9, 9, 9, 9, 9, 9⟩) = 6 ∧
      (packets_send_run ⟨cstr "02:00:00:00:00:01", cstr "deauth", 1, 10⟩ ⟨9, 9, 9, 9, 9, 9⟩
          (List.replicate 128 0) true inj_db drv_ok ⟨6, 1, WIFI_MODE_AP⟩
          ⟨0, false, 0⟩).radio.second = WIFI_SECOND_CHAN_NONE ∧
      (packets_send_run ⟨cstr "02:00:00:00:00:01", cstr "deauth", 1, 10⟩ ⟨9, 9, 9, 9, 9, 9⟩
          (List.replicate 128 0) true inj_db drv_ok ⟨6, 1, WIFI_MODE_AP⟩
          ⟨0, false, 0⟩).radio ≠ ⟨6, 1, WIFI_MODE_AP⟩ ∧
      (packets_send_run ⟨cstr "02:00:00:00:00:01", cstr "deauth", 1, 10⟩ ⟨9, 9, 9, 9, 9, 9⟩
          (List.replicate 128 0) true inj_db drv_ok ⟨6, 1, WIFI_MODE_AP⟩ ⟨0, false, 0⟩) =
        { radio := ⟨6, 0, WIFI_MODE_AP⟩,
          calls := [radio_call.set_channel 6 WIFI_SECOND_CHAN_NONE,
                    radio_call.set_mode WIFI_MODE_APSTA,
                    radio_call.tx WIFI_IF_STA (deauth_bytes ⟨2, 0, 0, 0, 0, 1⟩),
                    radio_call.set_mode WIFI_MODE_AP],
          sent := 1, failed := 0, last_err := ESP_OK, stats := ⟨1, false, 0⟩,
          response := send_response.ok 1 } := by
  have h := c18_secondary_channel_lost ⟨cstr "02:00:00:00:00:01", cstr "deauth", 1, 10⟩
    ⟨9, 9, 9, 9, 9, 9⟩ (List.replicate 128 0) true inj_db drv_ok ⟨6, 1, WIFI_MODE_AP⟩
    ⟨0, false, 0⟩ rfl rfl rfl rfl
  have ht : target_channel_of true inj_db
      (str_to_mac (cstr "02:00:00:00:00:01") ⟨9, 9, 9, 9, 9, 9⟩) = 6 := by decide
  refine ⟨rfl, rfl, rfl, rfl, ht, h.2.2.1.trans (by decide), ?_, by decide⟩
  intro e
  exact (h.2.2.2.mp e) (by decide)

/-- C19 (amended). For every run that starts with the counter below 2 ^ 32 (it is a
`uint32_t`): `sent` is the number of attempts whose final result, after the single retry
on the access-point interface for `ESP_ERR_WIFI_IF`, is `ESP_OK`; `failed` is the number
of the others; the answer is `ok` with `sent` when `failed = 0`, and otherwise `partial`
with `sent`, `failed` and the error of the last failed attempt; the counter
`packets_sent` becomes (old value + `sent`) mod 2 ^ 32, and the other statistics are
unchanged. -/
theorem c19_injection_result (req : send_request) (sm : Mac) (f0 : List Nat) (took : Bool)
    (db : DB) (drv : Driver) (radio : Radio) (stats : packet_stats_t)
    (h : stats.packets_sent < 2 ^ 32) :
    (packets_send_run req sm f0 took db drv radio stats).sent =
        successes drv (iters req.count) ∧
      (packets_send_run req sm f0 took db drv radio stats).failed =
        failures drv (iters req.count) ∧
      (packets_send_run req sm f0 took db drv radio stats).response =
        (if (packets_send_run req sm f0 took db drv radio stats).failed = 0 then
          send_response.ok (packets_send_run req sm f0 took db drv radio stats).sent
        else send_response.part (packets_send_run req sm f0 took db drv radio stats).sent
          (packets_send_run req sm f0 took db drv radio stats).failed
          (last_failure drv (iters req.count))) ∧
      (packets_send_run req sm f0 took db drv radio stats).stats =
        { stats with packets_sent :=
            (stats.packets_sent +
              ((packets_send_run req sm f0 took db drv radio stats).sent).toNat) % 2 ^ 32 } := by
  rw [run_sent, run_failed, run_response, run_stats req sm f0 took db drv radio stats h]
  refine ⟨rfl, rfl, ?_, ?_⟩
  · simp only [Nat.cast_eq_zero]
  · simp only [Int.toNat_ofNat]

set_option maxRecDepth 100000 in
/-- Five frames, of which the third and the fourth fail: two failures, three successes
(one of them on the retry), the last error is that of the fourth, the counter goes from
7 to 10. -/
theorem c19_injection_result_witness :
    (7 : Nat) < 2 ^ 32 ∧
      (packets_send_run ⟨cstr "02:00:00:00:00:01", cstr "deauth", 5, 10⟩ ⟨9, 9, 9, 9, 9, 9⟩
          (List.replicate 128 0) true inj_db drv_mixed ⟨1, 1, WIFI_MODE_AP⟩
          ⟨7, false, 0⟩).response = send_response.part 3 2 0x3002 ∧
      (packets_send_run ⟨cstr "02:00:00:00:00:01", cstr "deauth", 5, 10⟩ ⟨9, 9, 9, 9, 9, 9⟩
          (List.replicate 128 0) true inj_db drv_mixed ⟨1, 1, WIFI_MODE_AP⟩
          ⟨7, false, 0⟩).stats = ⟨10, false, 0⟩ := by
  have h := c19_injection_result ⟨cstr "02:00:00:00:00:01", cstr "deauth", 5, 10⟩
    ⟨9, 9, 9, 9, 9, 9⟩ (List.replicate 128 0) true inj_db drv_mixed ⟨1, 1, WIFI_MODE_AP⟩
    ⟨7, false, 0⟩ (by decide)
  obtain ⟨h1, h2, h3, h4⟩ := h
  have e1 : successes drv_mixed (iters 5) = 3 := by decide
  have e2 : failures drv_mixed (iters 5) = 2 := by decide
  have e3 : last_failure drv_mixed (iters 5) = 0x3002 := by decide
  refine ⟨by decide, ?_, ?_⟩
  · rw [h3, h1, h2, e1, e2, e3]; rfl
  · rw [h4, h1, e1]; rfl

/-- C19 fails on the code at the end of the counter's range. With `packets_sent` at
4294967295, one frame sent with success gives `sent = 1` and leaves the counter at 0. -/
theorem c19_counterexample :
    (packets_send_run ⟨cstr "02:00:00:00:00:01", cstr "deauth", 1, 10⟩ ⟨9, 9, 9, 9, 9, 9⟩
        (List.replicate 128 0) false g_init drv_ok ⟨1, 0, 1⟩ ⟨4294967295, false, 0⟩).sent = 1 ∧
      (packets_send_run ⟨cstr "02:00:00:00:00:01", cstr "deauth", 1, 10⟩ ⟨9, 9, 9, 9, 9, 9⟩
        (List.replicate 128 0) false g_init drv_ok ⟨1, 0, 1⟩
        ⟨4294967295, false, 0⟩).stats.packets_sent = 0 := by
  rw [run_sent, run_stats _ _ _ _ _ _ _ _ (by decide), successes_drv_ok]
  exact ⟨rfl, rfl⟩

/-! ### C23: the display name -/

theorem sanitize_loop_eq (max_len : Nat) (src dst : List Nat)
    (h : dst.length < max_len - 1) :
    sanitize_loop max_len src dst =
      dst ++ (src.take (max_len - 1 - dst.length)).map sanitize_byte := by
  induction src generalizing dst with
  | nil => simp [sanitize_loop]
  | cons c rest ih =>
    unfold sanitize_loop
    simp only [List.length_append, List.length_singleton]
    by_cases hge : dst.length + 1 ≥ max_len - 1
    · rw [if_pos hge]
      have e : max_len - 1 - dst.length = 1 := by omega
      rw [e]
      simp [sanitize_byte]
    · rw [if_neg hge, ih _ (by simp only [List.length_append, List.length_singleton]; omega)]
      have e : max_len - 1 - dst.length = (max_len - 1 - (dst ++ [if 32 ≤ c ∧ c < 127 then c else 63]).length) + 1 := by
        simp only [List.length_append, List.length_singleton]; omega
      rw [e, List.take_succ_cons, List.map_cons, List.append_assoc]
      rfl

theorem take_strnlen (src : List Nat) (n : Nat) :
    src.take (strnlen src n) = (src.take n).takeWhile (fun c => c != 0) := by
  unfold strnlen
  have hp : (src.take n).takeWhile (fun c => c != 0) <+: src :=
    (List.takeWhile_prefix _).trans (List.take_prefix n src)
  exact (List.prefix_iff_eq_take.mp hp).symm

theorem sanitize_ssid_eq (src : List Nat) :
    sanitize_ssid src 33 =
      (((src.take 33).takeWhile (fun c => c != 0)).take 32).map sanitize_byte := by
  unfold sanitize_ssid
  rw [sanitize_loop_eq 33 _ [] (by decide), take_strnlen]
  rfl

/-- C23. For every raw SSID buffer `src` of 33 bytes, with `n` the number of bytes
before the first NUL: `sanitize_ssid` yields the first min(n, 32) bytes of `src`, each
kept when it is printable ASCII (32..126) and replaced by `'?'` otherwise; so the length
is min(n, 32), the byte at every position is the image of the input byte at that
position, every byte is printable, and the result is empty iff `src` starts with NUL. -/
theorem c23_sanitize_ssid (src : List Nat) (h : src.length = 33) :
    sanitize_ssid src 33 =
        ((src.takeWhile (fun c => c != 0)).take 32).map sanitize_byte ∧
      (sanitize_ssid src 33).length = min (src.takeWhile (fun c => c != 0)).length 32 ∧
      (∀ i, i < (sanitize_ssid src 33).length →
        (sanitize_ssid src 33).getD i 0 =
          (if 32 ≤ src.getD i 0 ∧ src.getD i 0 < 127 then src.getD i 0 else 63)) ∧
      (∀ c, c ∈ sanitize_ssid src 33 → 32 ≤ c ∧ c ≤ 126) ∧
      (sanitize_ssid src 33 = [] ↔ src.head? = some 0) := by
  have e : sanitize_ssid src 33 =
      ((src.takeWhile (fun c => c != 0)).take 32).map sanitize_byte := by
    have ht : src.take 33 = src := List.take_of_length_le (by omega)
    rw [sanitize_ssid_eq, ht]
  have hl : (sanitize_ssid src 33).length = min (src.takeWhile (fun c => c != 0)).length 32 := by
    rw [e, List.length_map, List.length_take, Nat.min_comm]
  refine ⟨e, hl, ?_, ?_, ?_⟩
  · intro i hi
    have hi2 : i < (src.takeWhile (fun c => c != 0)).length ∧ i < 32 := by
      rw [hl] at hi; omega
    have hp : src.takeWhile (fun c => c != 0) <+: src := List.takeWhile_prefix _
    have hg : (src.takeWhile (fun c => c != 0))[i]? = src[i]? :=
      List.prefix_iff_eq_take.mp hp ▸ by
        rw [List.getElem?_take, if_pos hi2.1]
    have hsrc : i < src.length := by omega
    rw [e, List.getD_eq_getElem?_getD, List.getElem?_map, List.getElem?_take, if_pos hi2.2,
      hg, List.getD_eq_getElem?_getD, List.getElem?_eq_getElem hsrc]
    rfl
  · intro c hc
    have := sanitize_ssid_printable src 33 c hc
    omega
  · rw [e]
    cases src with
    | nil => simp at h
    | cons a t =>
      by_cases ha : a = 0
      · simp [ha, List.takeWhile_cons]
      · simp [ha, List.takeWhile_cons]

/-- The name "Caf" followed by the control character 7 and NUL padding is stored as
"Caf?". -/
theorem c23_sanitize_ssid_witness :
    (cstr "Caf" ++ [7] ++ List.replicate 29 0).length = 33 ∧
      sanitize_ssid (cstr "Caf" ++ [7] ++ List.replicate 29 0) 33 = cstr "Caf?" :=
  ⟨by decide,
   (c23_sanitize_ssid (cstr "Caf" ++ [7] ++ List.replicate 29 0) (by decide)).1.trans
     (by decide)⟩

/-! ### C24: the length check of EAPOL detection -/

/-- C24. For every captured frame, with `hdr_len` the header length the callback
computes: when the frame's length `sig_len` is at most `hdr_len + 8` (the test is
`len > hdr_len + 8`), in particular when the frame is shorter than `hdr_len + 8` bytes,
the EAPOL test is false and no LLC/SNAP byte is read; every index the comparison reads
lies in `hdr_len .. hdr_len + 7` and is below `sig_len`; and when the test is true the
indices read are `hdr_len + 0, 1, 2, 6, 7`. -/
theorem c24_eapol_bounds (pkt : wifi_promiscuous_pkt_t) :
    (pkt.sig_len ≤ sniffer_hdr_len (pkt.payload.getD 0 0) + 8 →
        eapol_test pkt = false ∧ eapol_reads pkt = []) ∧
      (∀ i, i ∈ eapol_reads pkt →
        sniffer_hdr_len (pkt.payload.getD 0 0) ≤ i ∧
        i ≤ sniffer_hdr_len (pkt.payload.getD 0 0) + 7 ∧ i < pkt.sig_len) ∧
      (eapol_test pkt = true → eapol_reads pkt =
        [sniffer_hdr_len (pkt.payload.getD 0 0) + 0, sniffer_hdr_len (pkt.payload.getD 0 0) + 1,
         sniffer_hdr_len (pkt.payload.getD 0 0) + 2, sniffer_hdr_len (pkt.payload.getD 0 0) + 6,
         sniffer_hdr_len (pkt.payload.getD 0 0) + 7]) := by
  unfold eapol_test eapol_reads
  simp only []
  generalize sniffer_hdr_len (pkt.payload.getD 0 0) = L
  refine ⟨?_, ?_, ?_⟩
  · intro h
    rw [if_neg (by omega), if_neg (by omega)]
    exact ⟨rfl, rfl⟩
  · intro i hi
    split at hi
    · rename_i hlen
      split_ifs at hi <;>
        simp only [List.mem_cons, List.mem_singleton, List.not_mem_nil, or_false] at hi <;>
        omega
    · simp at hi
  · intro h
    split at h
    · simp only [Bool.and_eq_true, decide_eq_true_eq] at h
      obtain ⟨⟨⟨⟨h0, h1⟩, h2⟩, h6⟩, h7⟩ := h
      rename_i hlen
      rw [if_pos hlen, if_pos h0, if_pos h1, if_pos h2, if_pos h6]
    · exact absurd h (by simp)

/-- The frame `c13_pkt32` of 32 bytes: the test is false and nothing is read; the frame
`c13_pkt` of 33 bytes: the indices 24, 25, 26, 30, 31 are read. -/
theorem c24_eapol_bounds_witness :
    eapol_test c13_pkt32 = false ∧ eapol_reads c13_pkt32 = [] ∧
      eapol_reads c13_pkt = [24, 25, 26, 30, 31] :=
  ⟨((c24_eapol_bounds c13_pkt32).1 (by decide)).1, ((c24_eapol_bounds c13_pkt32).1 (by decide)).2,
   ((c24_eapol_bounds c13_pkt).2.2 (by decide)).trans (by decide)⟩

/-! ### C21: the handshake counter -/

theorem sniffer_stats (now : Nat) (st : Capture) (pkt : wifi_promiscuous_pkt_t)
    (type : Nat) :
    (wifi_sniffer_cb now st pkt type).g_packet_stats =
      if qualifies st pkt = true then
        { st.g_packet_stats with
          handshake_captured := (st.g_packet_stats.handshake_captured + 1) % 2 ^ 32 }
      else st.g_packet_stats := by
  unfold wifi_sniffer_cb qualifies
  simp only [Bool.and_eq_true, decide_eq_true_eq]
  by_cases hm : type = WIFI_PKT_MGMT ∧
      ((pkt.payload.getD 0 0 &&& 0xF0) = 0xC0 ∨ (pkt.payload.getD 0 0 &&& 0xF0) = 0xA0)
  · rw [if_pos hm]
    simp only [log_deauth_event_stats]
    by_cases h1 : st.g_packet_stats.handshake_listening = true ∧
        (pkt.payload.getD 0 0 &&& 0x0C) >>> 2 = 2
    · rw [if_pos h1]
      by_cases h2 : eapol_test pkt = true
      · rw [if_pos h2, if_pos ⟨h1, h2⟩]
      · rw [if_neg h2, if_neg (fun h => h2 h.2), log_deauth_event_stats]
    · rw [if_neg h1, if_neg (fun h => h1 h.1), log_deauth_event_stats]
  · rw [if_neg hm]
    by_cases h1 : st.g_packet_stats.handshake_listening = true ∧
        (pkt.payload.getD 0 0 &&& 0x0C) >>> 2 = 2
    · rw [if_pos h1]
      by_cases h2 : eapol_test pkt = true
      · rw [if_pos h2, if_pos ⟨h1, h2⟩]
      · rw [if_neg h2, if_neg (fun h => h2 h.2)]
    · rw [if_neg h1, if_neg (fun h => h1 h.1)]

theorem qualifies_congr (st st2 : Capture) (pkt : wifi_promiscuous_pkt_t)
    (h : st2.g_packet_stats.handshake_listening = st.g_packet_stats.handshake_listening) :
    qualifies st2 pkt = qualifies st pkt := by
  unfold qualifies
  rw [h]

theorem sniffer_listening (now : Nat) (st : Capture) (pkt : wifi_promiscuous_pkt_t)
    (type : Nat) :
    (wifi_sniffer_cb now st pkt type).g_packet_stats.handshake_listening =
      st.g_packet_stats.handshake_listening := by
  rw [sniffer_stats]
  split <;> rfl

theorem sniffer_run_replicate_succ (st : Capture) (k : Nat)
    (f : Nat × wifi_promiscuous_pkt_t × Nat) :
    sniffer_run st (List.replicate (k + 1) f) =
      wifi_sniffer_cb f.1 (sniffer_run st (List.replicate k f)) f.2.1 f.2.2 := by
  unfold sniffer_run
  rw [List.replicate_succ', List.foldl_append]
  rfl

theorem sniffer_repeat (now : Nat) (st : Capture) (pkt : wifi_promiscuous_pkt_t)
    (type k : Nat) (hc : st.g_packet_stats.handshake_captured < 2 ^ 32) :
    (sniffer_run st (List.replicate k (now, pkt, type))).g_packet_stats =
      if qualifies st pkt = true then
        { st.g_packet_stats with
          handshake_captured := (st.g_packet_stats.handshake_captured + k) % 2 ^ 32 }
      else st.g_packet_stats := by
  induction k with
  | zero =>
    change st.g_packet_stats = _
    split
    · rw [Nat.add_zero, Nat.mod_eq_of_lt hc]
    · rfl
  | succ k ih =>
    rw [sniffer_run_replicate_succ, sniffer_stats]
    have hq : qualifies (sniffer_run st (List.replicate k (now, pkt, type))) pkt =
        qualifies st pkt := by
      apply qualifies_congr
      rw [ih]
      split <;> rfl
    simp only [hq]
    rw [ih]
    by_cases h : qualifies st pkt = true
    · simp only [h, if_true]
      rw [Nat.mod_add_mod, Nat.add_assoc]
    · simp only [h, if_false]
      rfl

/-- C21 (amended). For every captured frame and every state whose counter is a 32-bit
value: the callback makes the handshake counter (old value + 1) mod 2 ^ 32 when the
listening flag is set, the frame-type field is 2 and the EAPOL test succeeds, and leaves
it unchanged otherwise; the listening flag is never changed. There is no deduplication:
delivering the same qualifying frame `k` times makes the counter
(old value + k) mod 2 ^ 32, an increase by `k` unless the counter passes 4294967295. -/
theorem c21_handshake_counter (now : Nat) (st : Capture) (pkt : wifi_promiscuous_pkt_t)
    (type k : Nat) (hc : st.g_packet_stats.handshake_captured < 2 ^ 32) :
    (wifi_sniffer_cb now st pkt type).g_packet_stats.handshake_captured =
        (if st.g_packet_stats.handshake_listening = true ∧
            ((pkt.payload.getD 0 0) &&& 0x0C) >>> 2 = 2 ∧ eapol_test pkt = true then
          (st.g_packet_stats.handshake_captured + 1) % 2 ^ 32
        else st.g_packet_stats.handshake_captured) ∧
      (wifi_sniffer_cb now st pkt type).g_packet_stats.handshake_listening =
        st.g_packet_stats.handshake_listening ∧
      (sniffer_run st (List.replicate k (now, pkt, type))).g_packet_stats.handshake_captured =
        (if st.g_packet_stats.handshake_listening = true ∧
            ((pkt.payload.getD 0 0) &&& 0x0C) >>> 2 = 2 ∧ eapol_test pkt = true then
          (st.g_packet_stats.handshake_captured + k) % 2 ^ 32
        else st.g_packet_stats.handshake_captured) := by
  have hq : (qualifies st pkt = true) ↔ (st.g_packet_stats.handshake_listening = true ∧
      ((pkt.payload.getD 0 0) &&& 0x0C) >>> 2 = 2 ∧ eapol_test pkt = true) := by
    unfold qualifies
    simp only [Bool.and_eq_true, decide_eq_true_eq, and_assoc]
  refine ⟨?_, sniffer_listening now st pkt type, ?_⟩
  · rw [sniffer_stats]
    by_cases h : qualifies st pkt = true
    · rw [if_pos h, if_pos (hq.mp h)]
    · rw [if_neg h, if_neg (fun h2 => h (hq.mpr h2))]
  · rw [sniffer_repeat now st pkt type k hc]
    by_cases h : qualifies st pkt = true
    · rw [if_pos h, if_pos (hq.mp h)]
    · rw [if_neg h, if_neg (fun h2 => h (hq.mpr h2))]

/-- Three deliveries of the frame `c13_pkt` after listening is started: the counter goes
from 0 to 3. -/
theorem c21_handshake_counter_witness :
    (handler_api_handshake_start capture_init).g_packet_stats.handshake_captured < 2 ^ 32 ∧
      (sniffer_run (handler_api_handshake_start capture_init)
        (List.replicate 3 (0, c13_pkt, WIFI_PKT_DATA))).g_packet_stats.handshake_captured = 3 :=
  ⟨by decide,
   (c21_handshake_counter 0 (handler_api_handshake_start capture_init) c13_pkt WIFI_PKT_DATA 3
      (by decide)).2.2.trans (by decide)⟩

/-- C21 fails at the end of the counter's range: after listening is started and the
qualifying frame `c13_pkt` is delivered 4294967295 times the counter is 4294967295, and
one more delivery of the frame leaves it at 0. -/
theorem c21_counterexample :
    qualifies c21_state c13_pkt = true ∧
      c21_state.g_packet_stats.handshake_captured = 4294967295 ∧
      (wifi_sniffer_cb 0 c21_state c13_pkt WIFI_PKT_DATA).g_packet_stats.handshake_captured =
        0 := by
  have h := sniffer_repeat 0 (handler_api_handshake_start capture_init) c13_pkt WIFI_PKT_DATA
    4294967295 (by decide)
  have hq0 : qualifies (handler_api_handshake_start capture_init) c13_pkt = true := by decide
  rw [if_pos hq0] at h
  change c21_state.g_packet_stats = _ at h
  have hq : qualifies c21_state c13_pkt = true := by
    rw [qualifies_congr (handler_api_handshake_start capture_init) c21_state c13_pkt
      (by rw [h])]
    exact hq0
  refine ⟨hq, by rw [h]; rfl, ?_⟩
  rw [sniffer_stats, if_pos hq, h]
  rfl

/-! ### C26: the stored classification -/

theorem classify_ap_ne_unknown (ap : ap_info_t) : classify_ap ap ≠ AP_CLASS_UNKNOWN := by
  unfold classify_ap
  simp only []
  split_ifs <;> decide

theorem classify_ap_congr (a b : ap_info_t) (hs : b.ssid = a.ssid)
    (ha : b.authmode = a.authmode) (hr : b.rssi = a.rssi) :
    classify_ap b = classify_ap a := by
  unfold classify_ap
  rw [hs, ha, hr]

/-- C26. In every state reached from start-up by scan merges (sequences of upserts) and
clears, the stored classification of every live record is `classify_ap` of the record as
it is now, which depends only on its name, auth mode and signal strength, and it is not
Unknown (`classify_ap` never returns Unknown). -/
theorem c26_classification (ops : List Op) (ap : ap_info_t) (h : ap ∈ live (run ops)) :
    ap.classification = classify_ap ap ∧
      (∀ b : ap_info_t, b.ssid = ap.ssid → b.authmode = ap.authmode → b.rssi = ap.rssi →
        classify_ap b = ap.classification) ∧
      ap.classification ≠ AP_CLASS_UNKNOWN ∧
      ∀ b : ap_info_t, classify_ap b ≠ AP_CLASS_UNKNOWN := by
  have hI := inv_run ops
  obtain ⟨i, _, rfl, hu⟩ := (mem_live _ _).mp h
  have hok := (hI.ok i (in_use_lt_count _ hI i hu)).2.2.1
  refine ⟨hok, ?_, ?_, classify_ap_ne_unknown⟩
  · intro b hs ha hr
    rw [hok]
    exact classify_ap_congr _ b hs ha hr
  · rw [hok]
    exact classify_ap_ne_unknown _

set_option maxRecDepth 100000 in
/-- The record of slot 1 after the operations `sample_ops`: an open network named "d",
classified Home. -/
theorem c26_classification_witness :
    slot (run sample_ops) 1 ∈ live (run sample_ops) ∧
      (slot (run sample_ops) 1).classification = classify_ap (slot (run sample_ops) 1) ∧
      (slot (run sample_ops) 1).classification = AP_CLASS_HOME :=
  ⟨by decide, (c26_classification sample_ops _ (by decide)).1, by decide⟩

/-! ### C27: what a hit leaves unchanged -/

theorem upsert_hit_slots (now : Nat) (db : DB) (hI : Inv db) (r : wifi_ap_record_t) (i : Nat)
    (hu : (slot db i).in_use = true) (hb : (slot db i).bssid = r.bssid) :
    (upsert_record now db r).g_ap_count = db.g_ap_count ∧
      (upsert_record now db r).g_ap_insert_index = db.g_ap_insert_index ∧
      slot (upsert_record now db r) i = ap_merged now r (slot db i) ∧
      ∀ j, j ≠ i → slot (upsert_record now db r) j = slot db j := by
  have hi := in_use_lt_count db hI i hu
  have hf := find_eq_of_slot db hI r.bssid i hi hb
  have hlen : i < db.g_aps.length := by
    rw [hI.len]; exact Nat.lt_of_lt_of_le hi hI.count_le
  rw [upsert_record_hit now db r i hf]
  refine ⟨?_, rfl, ?_, ?_⟩
  · exact if_neg (by omega)
  · rw [slot_set db i i _ _ _ hlen, if_pos rfl]
  · intro j hj
    rw [slot_set db i j _ _ _ hlen, if_neg hj]

/-- C27. In every state reached from start-up by scan merges and clears, upserting an
observation whose hardware address is that of a live record leaves that record's display
name, hardware address and first-seen timestamp as they are, whatever name the
observation carries; the record stays in use in its slot, every other slot is unchanged
in every field, and the count and the cursor are unchanged. -/
theorem c27_hit_frame (ops : List Op) (now : Nat) (r : wifi_ap_record_t) (i : Nat)
    (hu : (slot (run ops) i).in_use = true) (hb : (slot (run ops) i).bssid = r.bssid) :
    (slot (upsert_record now (run ops) r) i).ssid = (slot (run ops) i).ssid ∧
      (slot (upsert_record now (run ops) r) i).bssid = (slot (run ops) i).bssid ∧
      (slot (upsert_record now (run ops) r) i).first_seen_ms =
        (slot (run ops) i).first_seen_ms ∧
      (slot (upsert_record now (run ops) r) i).in_use = true ∧
      (∀ j, j ≠ i → slot (upsert_record now (run ops) r) j = slot (run ops) j) ∧
      (upsert_record now (run ops) r).g_ap_count = (run ops).g_ap_count ∧
      (upsert_record now (run ops) r).g_ap_insert_index = (run ops).g_ap_insert_index := by
  obtain ⟨hc, hx, hs, ho⟩ := upsert_hit_slots now (run ops) (inv_run ops) r i hu hb
  rw [hs, ap_merged_ssid, ap_merged_bssid, ap_merged_first_seen, ap_merged_in_use]
  exact ⟨rfl, rfl, rfl, hu, ho, hc, hx⟩

set_option maxRecDepth 100000 in
/-- A hidden network seen at time 100 and seen again at time 200 under the name
"HomeNet": the stored name stays empty and the first-seen time stays 100. -/
theorem c27_hit_frame_witness :
    (slot (run [Op.scan true 100 [hidden_record]]) 0).in_use = true ∧
      (slot (run [Op.scan true 100 [hidden_record]]) 0).bssid =
        (sample_record 1 "HomeNet" WIFI_AUTH_WPA2_PSK (-60)).bssid ∧
      (slot (upsert_record 200 (run [Op.scan true 100 [hidden_record]])
        (sample_record 1 "HomeNet" WIFI_AUTH_WPA2_PSK (-60))) 0).ssid = [] ∧
      (slot (upsert_record 200 (run [Op.scan true 100 [hidden_record]])
        (sample_record 1 "HomeNet" WIFI_AUTH_WPA2_PSK (-60))) 0).first_seen_ms = 100 := by
  have h := c27_hit_frame [Op.scan true 100 [hidden_record]] 200
    (sample_record 1 "HomeNet" WIFI_AUTH_WPA2_PSK (-60)) 0 (by decide) (by decide)
  exact ⟨by decide, by decide, h.1.trans (by decide), h.2.2.1.trans (by decide)⟩

/-! ### C25: the live count -/

theorem tracks_init (db : DB) (h : db.g_ap_count = 0) : Tracks db [] := by
  refine ⟨?_, ?_⟩
  · intro i hi
    omega
  · intro _ a ha
    simp at ha

theorem tracks_upsert (now : Nat) (db : DB) (r : wifi_ap_record_t) (s : List Mac)
    (hI : Inv db) (hT : Tracks db s) :
    Tracks (upsert_record now db r) (s ++ [r.bssid]) := by
  have hlen := hI.len
  by_cases hf : find_ap_by_bssid db r.bssid < 0
  · rw [upsert_record_miss now db r hf]
    by_cases hc : db.g_ap_count < MAX_APS
    · have hcur := hI.cursor hc
      have hidx : db.g_ap_insert_index % MAX_APS = db.g_ap_count := by
        rw [hcur]; exact Nat.mod_eq_of_lt hc
      have hl : db.g_ap_count < db.g_aps.length := by rw [hlen]; exact hc
      simp only [hidx, if_pos hc, ge_iff_le, add_le_iff_nonpos_right, nonpos_iff_eq_zero,
        one_ne_zero, if_false]
      unfold Tracks
      dsimp only
      refine ⟨?_, ?_⟩
      · intro i hi
        rw [slot_set db _ i _ _ _ hl]
        by_cases e : i = db.g_ap_count
        · rw [if_pos e]
          exact List.mem_append_right _ (by simp [ap_created])
        · rw [if_neg e]
          exact List.mem_append_left _ (hT.1 i (by omega))
      · intro _ a ha
        rcases List.mem_append.mp ha with ha | ha
        · obtain ⟨k, hk, hka⟩ := hT.2 hc a ha
          refine ⟨k, by omega, ?_⟩
          rw [slot_set db _ k _ _ _ hl, if_neg (by omega)]
          exact hka
        · refine ⟨db.g_ap_count, by omega, ?_⟩
          rw [slot_set db _ _ _ _ _ hl, if_pos rfl]
          simp at ha
          simp [ap_created, ha]
    · have hfull : db.g_ap_count = MAX_APS := by have := hI.count_le; omega
      have hm : db.g_ap_insert_index % MAX_APS < MAX_APS := Nat.mod_lt _ (by decide)
      have hl : db.g_ap_insert_index % MAX_APS < db.g_aps.length := by rw [hlen]; exact hm
      simp only [hfull, lt_irrefl, if_false]
      rw [if_neg (by omega)]
      unfold Tracks
      dsimp only
      refine ⟨?_, ?_⟩
      · intro i hi
        rw [slot_set db _ i _ _ _ hl]
        by_cases e : i = db.g_ap_insert_index % MAX_APS
        · rw [if_pos e]
          exact List.mem_append_right _ (by simp [ap_created])
        · rw [if_neg e]
          exact List.mem_append_left _ (hT.1 i (by rw [hfull]; exact hi))
      · intro h
        exact absurd h (lt_irrefl _)
  · obtain ⟨i, hfi, hi, hu, hb⟩ := find_nonneg db r.bssid hf
    obtain ⟨hc, _, hs, ho⟩ := upsert_hit_slots now db hI r i hu hb
    refine ⟨?_, ?_⟩
    · intro j hj
      rw [hc] at hj
      by_cases e : j = i
      · rw [e, hs, ap_merged_bssid]
        exact List.mem_append_left _ (hT.1 i hi)
      · rw [ho j e]
        exact List.mem_append_left _ (hT.1 j hj)
    · intro hlt a ha
      rw [hc] at hlt ⊢
      have key : ∀ k, k < db.g_ap_count →
          (slot (upsert_record now db r) k).bssid = (slot db k).bssid := by
        intro k _
        by_cases e : k = i
        · rw [e, hs, ap_merged_bssid]
        · rw [ho k e]
      rcases List.mem_append.mp ha with ha | ha
      · obtain ⟨k, hk, hka⟩ := hT.2 hlt a ha
        exact ⟨k, hk, (key k hk).trans hka⟩
      · simp at ha
        exact ⟨i, hi, (key i hi).trans (hb.trans ha.symm)⟩

theorem tracks_foldl_upsert (now : Nat) (records : List wifi_ap_record_t) (db : DB)
    (s : List Mac) (hI : Inv db) (hT : Tracks db s) :
    Tracks (records.foldl (upsert_record now) db) (s ++ records.map (fun r => r.bssid)) := by
  induction records generalizing db s with
  | nil => simpa using hT
  | cons r rest ih =>
    have := ih (upsert_record now db r) (s ++ [r.bssid]) (inv_upsert now db r hI)
      (tracks_upsert now db r s hI hT)
    simpa [List.append_assoc] using this

theorem tracks_apply (db : DB) (s : List Mac) (op : Op) (hI : Inv db) (hT : Tracks db s) :
    Tracks (op.apply db) (Op.track s op) := by
  cases op with
  | scan took now records =>
    cases took
    · exact hT
    · exact tracks_foldl_upsert now records db s hI hT
  | clear took =>
    cases took
    · exact hT
    · exact tracks_init _ rfl

theorem tracks_foldl_apply (ops : List Op) (db : DB) (s : List Mac) (hI : Inv db)
    (hT : Tracks db s) : Tracks (ops.foldl Op.apply db) (ops.foldl Op.track s) := by
  induction ops generalizing db s with
  | nil => exact hT
  | cons op rest ih =>
    exact ih (op.apply db) (Op.track s op) (inv_apply db op hI) (tracks_apply db s op hI hT)

theorem tracks_run (ops : List Op) : Tracks (run ops) (inserted ops) :=
  tracks_foldl_apply ops g_init [] inv_init (tracks_init _ rfl)

theorem count_of_tracks (db : DB) (s : List Mac) (hI : Inv db) (hT : Tracks db s) :
    db.g_ap_count = min s.dedup.length MAX_APS := by
  have hnd : ((List.range db.g_ap_count).map (fun i => (slot db i).bssid)).Nodup := by
    have := live_nodup db hI
    rw [live_eq_map_range db hI, List.map_map] at this
    exact this
  have hsub : (List.range db.g_ap_count).map (fun i => (slot db i).bssid) ⊆ s.dedup := by
    intro a ha
    obtain ⟨i, hi, rfl⟩ := List.mem_map.mp ha
    exact List.mem_dedup.mpr (hT.1 i (List.mem_range.mp hi))
  have hle : db.g_ap_count ≤ s.dedup.length := by
    have := (hnd.subperm hsub).length_le
    simpa using this
  by_cases hc : db.g_ap_count < MAX_APS
  · have hsub2 : s.dedup ⊆ (List.range db.g_ap_count).map (fun i => (slot db i).bssid) := by
      intro a ha
      obtain ⟨i, hi, hia⟩ := hT.2 hc a (List.mem_dedup.mp ha)
      exact List.mem_map.mpr ⟨i, List.mem_range.mpr hi, hia⟩
    have hge : s.dedup.length ≤ db.g_ap_count := by
      have := ((List.nodup_dedup s).subperm hsub2).length_le
      simpa using this
    omega
  · have := hI.count_le
    omega

/-- C25. In every state reached from start-up by scan merges (sequences of upserts) and
clears: the number of occupied slots is the count `g_ap_count`; the occupied slots are
exactly the indices below the count; the count is min(number of distinct addresses
upserted since the last clear, 512); and the lookup, which scans the first `g_ap_count`
slots, finds every live record in its slot. -/
theorem c25_live_count (ops : List Op) :
    (live (run ops)).length = (run ops).g_ap_count ∧
      (∀ i, (slot (run ops) i).in_use = true ↔ i < (run ops).g_ap_count) ∧
      (run ops).g_ap_count = min (inserted ops).dedup.length 512 ∧
      (∀ ap, ap ∈ live (run ops) → ∃ i, i < (run ops).g_ap_count ∧
        find_ap_by_bssid (run ops) ap.bssid = (i : Int) ∧ slot (run ops) i = ap) := by
  have hI := inv_run ops
  refine ⟨?_, ?_, count_of_tracks _ _ hI (tracks_run ops), ?_⟩
  · rw [live_eq_map_range _ hI, List.length_map, List.length_range]
  · intro i
    exact ⟨in_use_lt_count _ hI i, hI.used i⟩
  · intro ap hap
    obtain ⟨i, _, rfl, hu⟩ := (mem_live _ _).mp hap
    have hi := in_use_lt_count _ hI i hu
    exact ⟨i, hi, find_eq_of_slot _ hI _ i hi rfl, rfl⟩

set_option maxRecDepth 100000 in
/-- After the operations `sample_ops` three distinct addresses have been upserted since the
clear (one of them twice, and one scan did not take the mutex): the count is 3. -/
theorem c25_live_count_witness :
    (inserted sample_ops).dedup.length = 3 ∧ (run sample_ops).g_ap_count = 3 ∧
      (live (run sample_ops)).length = 3 :=
  ⟨by decide, (c25_live_count sample_ops).2.2.1.trans (by decide),
   (c25_live_count sample_ops).1.trans (by decide)⟩

/-! ### C22: the vulnerability report -/

theorem vuln_check_spec (ap : ap_info_t) :
    (vuln_check ap).1 = vulnerable ap ∧
      (vulnerable ap = true → (vuln_check ap).2.2 = spec_severity ap) := by
  unfold vuln_check vulnerable spec_severity
  have e1 : WIFI_AUTH_WPA_PSK ≠ WIFI_AUTH_WEP := by decide
  have e2 : WIFI_AUTH_OPEN ≠ WIFI_AUTH_WEP := by decide
  have e3 : WIFI_AUTH_OPEN ≠ WIFI_AUTH_WPA_PSK := by decide
  by_cases h1 : ap.authmode = WIFI_AUTH_WEP
  · simp [h1]
  · by_cases h2 : ap.authmode = WIFI_AUTH_WPA_PSK
    · simp [h2, e1]
    · by_cases h3 : ap.authmode = WIFI_AUTH_OPEN
      · simp [h3, e2, e3]
      · simp [h1, h2, h3]

theorem vuln_loop_stuck (db : DB) (len : Nat) (idxs : List Nat) (st : vuln_state)
    (h : ¬ st.off < vuln_limit len) : vuln_loop db len idxs st = st := by
  cases idxs with
  | nil => rfl
  | cons i rest => simp only [vuln_loop, if_neg h]

theorem vuln_loop_append (db : DB) (len : Nat) (l1 l2 : List Nat) (st : vuln_state) :
    vuln_loop db len (l1 ++ l2) st = vuln_loop db len l2 (vuln_loop db len l1 st) := by
  induction l1 generalizing st with
  | nil => rfl
  | cons i rest ih =>
    simp only [List.cons_append, vuln_loop]
    by_cases h : st.off < vuln_limit len
    · rw [if_pos h, if_pos h]
      exact ih _
    · rw [if_neg h, if_neg h, vuln_loop_stuck db len l2 st h]

theorem vuln_loop_succ (db : DB) (len n : Nat) (st : vuln_state) :
    vuln_loop db len (List.range (n + 1)) st =
      if (vuln_loop db len (List.range n) st).off < vuln_limit len then
        vuln_step db (vuln_loop db len (List.range n) st) n
      else vuln_loop db len (List.range n) st := by
  rw [List.range_succ, vuln_loop_append]
  rfl

theorem vuln_step_out (db : DB) (st : vuln_state) (i : Nat) :
    (vuln_step db st i).out =
      if (slot db i).in_use && vulnerable (slot db i) then st.out ++ [vuln_entry_of (slot db i)]
      else st.out := by
  unfold vuln_step
  rw [← (vuln_check_spec (slot db i)).1]
  by_cases hu : (slot db i).in_use = true
  · by_cases hv : (vuln_check (slot db i)).1 = true
    · simp [hu, hv]
    · simp [hu, hv]
  · simp [hu]

theorem vuln_step_off_le (db : DB) (st : vuln_state) (i : Nat) :
    st.off ≤ (vuln_step db st i).off := by
  unfold vuln_step
  simp only []
  split
  · exact Nat.le_refl _
  · split
    · split <;> simp only [] <;> omega
    · exact Nat.le_refl _

theorem vuln_off_before_mono (db : DB) (len i j : Nat) (hij : i ≤ j)
    (h : vuln_off_before db len j < vuln_limit len) :
    vuln_off_before db len i < vuln_limit len := by
  induction j with
  | zero =>
    have : i = 0 := by omega
    rw [this]; exact h
  | succ n ih =>
    by_cases e : i = n + 1
    · rw [e]; exact h
    · apply ih (by omega)
      unfold vuln_off_before at h ⊢
      rw [vuln_loop_succ] at h
      by_cases hn : (vuln_loop db len (List.range n) { off := 1, first := true, out := [] }).off
          < vuln_limit len
      · exact hn
      · rw [if_neg hn] at h
        exact h

theorem vuln_loop_out (db : DB) (len n : Nat) :
    (vuln_loop db len (List.range n) { off := 1, first := true, out := [] }).out =
      ((List.range n).filter (fun i => (slot db i).in_use && vulnerable (slot db i) &&
        decide (vuln_off_before db len i < vuln_limit len))).map
        (fun i => vuln_entry_of (slot db i)) := by
  induction n with
  | zero => rfl
  | succ n ih =>
    rw [vuln_loop_succ, List.range_succ, List.filter_append, List.map_append, ← ih]
    by_cases h : vuln_off_before db len n < vuln_limit len
    · have h2 := h
      unfold vuln_off_before at h2
      rw [if_pos h2, vuln_step_out]
      by_cases hv : ((slot db n).in_use && vulnerable (slot db n)) = true
      · simp [hv, h]
      · simp [hv]
    · have h2 := h
      unfold vuln_off_before at h2
      rw [if_neg h2]
      simp [h]

theorem vuln_report (db : DB) (hI : Inv db) (len : Nat) :
    (get_vulnerable_networks true db len).out =
      ((List.range db.g_ap_count).filter (fun i => vulnerable (slot db i) &&
        decide (vuln_off_before db len i < vuln_limit len))).map
        (fun i => vuln_entry_of (slot db i)) := by
  unfold get_vulnerable_networks
  simp only [if_true]
  rw [vuln_loop_out]
  congr 1
  apply List.filter_congr
  intro i hi
  rw [hI.used i (List.mem_range.mp hi), Bool.true_and]

theorem vuln_report_nodup (db : DB) (hI : Inv db) (len : Nat) :
    ((get_vulnerable_networks true db len).out.map (fun e => e.bssid)).Nodup := by
  rw [vuln_report db hI len, List.map_map]
  have hnd : ((List.range db.g_ap_count).map (fun i => (slot db i).bssid)).Nodup := by
    have := live_nodup db hI
    rw [live_eq_map_range db hI, List.map_map] at this
    exact this
  exact (hnd.sublist (List.Sublist.map _ (List.filter_sublist _)))

/-- C22 (amended). In every state reached from start-up by scan merges and clears, when
the mutex is taken, the vulnerability report for the 8192-byte buffer of its caller
lists, in slot order and each once, the live records with auth mode WEP, WPA1-PSK or
Open that the loop reaches while the write offset is below 8192 - 256 = 7936: the loop
ends at the first slot reached with the offset at or above 7936, and the vulnerable
records from that slot on are omitted. The severity printed is CRITICAL for WEP and HIGH
for WPA1-PSK and Open; no record with another auth mode is listed. When the mutex is not
taken within 1000 ms the report is empty. -/
theorem c22_vulnerability_report (ops : List Op) :
    (get_vulnerable_networks true (run ops) 8192).out =
        ((List.range (run ops).g_ap_count).filter (fun i => vulnerable (slot (run ops) i) &&
          decide (vuln_off_before (run ops) 8192 i < 7936))).map
          (fun i => vuln_entry_of (slot (run ops) i)) ∧
      (∀ i j, i ≤ j → vuln_off_before (run ops) 8192 j < 7936 →
        vuln_off_before (run ops) 8192 i < 7936) ∧
      ((get_vulnerable_networks true (run ops) 8192).out.map (fun e => e.bssid)).Nodup ∧
      (∀ ap : ap_info_t, vulnerable ap = true →
        (vuln_entry_of ap).severity = (if ap.authmode = WIFI_AUTH_WEP then "CRITICAL" else "HIGH")) ∧
      (get_vulnerable_networks false (run ops) 8192).out = [] := by
  have hl : vuln_limit 8192 = 7936 := by decide
  have h1 := vuln_report (run ops) (inv_run ops) 8192
  rw [hl] at h1
  refine ⟨h1, ?_, vuln_report_nodup _ (inv_run ops) _, ?_, rfl⟩
  · intro i j hij h
    have := vuln_off_before_mono (run ops) 8192 i j hij (by rw [hl]; exact h)
    rw [hl] at this
    exact this
  · intro ap hv
    exact (vuln_check_spec ap).2 hv

set_option maxRecDepth 100000 in
/-- After the operations `sample_ops` the live records are a WPA2 network, an open network
and a WEP network: the report lists the open one (HIGH) and the WEP one (CRITICAL). -/
theorem c22_vulnerability_report_witness :
    (get_vulnerable_networks true (run sample_ops) 8192).out =
      [{ ssid := cstr "d", bssid := ⟨2, 0, 0, 0, 0, 4⟩,
         vulnerability := "No encryption (unprotected network)", severity := "HIGH",
         auth := "OPEN", rssi := -60, channel := 6 },
       { ssid := cstr "e", bssid := ⟨2, 0, 0, 0, 0, 5⟩,
         vulnerability := "WEP encryption (deprecated, easily cracked)",
         severity := "CRITICAL", auth := "WEP", rssi := -70, channel := 6 }] :=
  (c22_vulnerability_report sample_ops).1.trans (by decide)

set_option maxRecDepth 1000000 in
/-- C22 fails on a large table. With 100 open networks in the slots 0 to 99, the report
lists the 53 of the slots 0 to 52 and ends: the offset is 8056 when slot 53 is reached.
The open network of slot 99 is live and is not in the report. -/
theorem c22_counterexample :
    vuln_db.g_ap_count = 100 ∧
      (slot vuln_db 99).in_use = true ∧ (slot vuln_db 99).authmode = WIFI_AUTH_OPEN ∧
      (slot vuln_db 99).bssid = ⟨2, 0, 0, 0, 0, 99⟩ ∧
      (get_vulnerable_networks true vuln_db 8192).out.length = 53 ∧
      vuln_off_before vuln_db 8192 53 = 8056 ∧
      (⟨2, 0, 0, 0, 0, 99⟩ : Mac) ∉
        (get_vulnerable_networks true vuln_db 8192).out.map (fun e => e.bssid) := by
  decide

end NeoWardrive
